import Mathlib

/-!
# CLIPP IronBee consumer: state tracker and notification adapter

A shallow embedding of `clipp/ironbee.cpp`.  The C++ member functions of
`IronBeeDelegate` become functions on an explicit delegate state and an
explicit record of what the engine has been asked to do (`World`).  A C++
exception is a `thrown` field of the step result; the state reached at the
point of the throw is kept, as it is in C++.
-/

namespace IronBee
namespace CLIPP

/-! ## Input model (`Input::Buffer` and the event payloads) -/

/-- Byte range `data[0 .. length)` of an input. -/
structure Buffer where
  data : List Nat
deriving DecidableEq, Repr

/-- Number of bytes of the range (`Buffer::length`). -/
def Buffer.length (b : Buffer) : Nat := b.data.length

structure NullEvent where
deriving DecidableEq, Repr

structure ConnectionEvent where
  local_ip : Buffer
  local_port : Nat
  remote_ip : Buffer
  remote_port : Nat
deriving DecidableEq, Repr

structure DataEvent where
  data : Buffer
deriving DecidableEq, Repr

structure RequestEvent where
  raw : Buffer
  method : Buffer
  uri : Buffer
  protocol : Buffer
deriving DecidableEq, Repr

structure ResponseEvent where
  raw : Buffer
  protocol : Buffer
  status : Buffer
  message : Buffer
deriving DecidableEq, Repr

/-- Name/value pair of a header (`Input::header_t`). -/
abbrev header_t := Buffer × Buffer

structure HeaderEvent where
  headers : List header_t
deriving DecidableEq, Repr

/-- Tagged variant of the protocol events of one connection. -/
inductive Event where
  | connection_opened (event : ConnectionEvent)
  | connection_closed (event : NullEvent)
  | connection_data_in (event : DataEvent)
  | connection_data_out (event : DataEvent)
  | request_started (event : RequestEvent)
  | request_header (event : HeaderEvent)
  | request_header_finished (event : NullEvent)
  | request_body (event : DataEvent)
  | request_finished (event : NullEvent)
  | response_started (event : ResponseEvent)
  | response_header (event : HeaderEvent)
  | response_header_finished (event : NullEvent)
  | response_body (event : DataEvent)
  | response_finished (event : NullEvent)
deriving DecidableEq, Repr

/-! ## Engine-side values -/

/-- Bytes seen by the engine. -/
abbrev ByteString := List Nat

/-- View of `length` bytes starting at `data` (`ByteString::create_alias`). -/
def ByteString.create_alias (data : List Nat) (length : Nat) : ByteString :=
  data.take length

/-- C library `strndup`: copy of at most `n` bytes of `s`, ending before the
first NUL byte. -/
def strndup (s : List Nat) (n : Nat) : List Nat :=
  (s.take n).takeWhile (fun b => b != 0)

structure ParsedHeader where
  name : ByteString
  value : ByteString
deriving DecidableEq, Repr

def ParsedHeader.create (name value : ByteString) : ParsedHeader :=
  { name := name, value := value }

structure ParsedRequestLine where
  raw : ByteString
  method : ByteString
  uri : ByteString
  protocol : ByteString
deriving DecidableEq, Repr

def ParsedRequestLine.create_alias
    (raw : List Nat) (raw_length : Nat)
    (method : List Nat) (method_length : Nat)
    (uri : List Nat) (uri_length : Nat)
    (protocol : List Nat) (protocol_length : Nat) : ParsedRequestLine :=
  { raw := ByteString.create_alias raw raw_length
    method := ByteString.create_alias method method_length
    uri := ByteString.create_alias uri uri_length
    protocol := ByteString.create_alias protocol protocol_length }

structure ParsedResponseLine where
  raw : ByteString
  protocol : ByteString
  status : ByteString
  message : ByteString
deriving DecidableEq, Repr

def ParsedResponseLine.create_alias
    (raw : List Nat) (raw_length : Nat)
    (protocol : List Nat) (protocol_length : Nat)
    (status : List Nat) (status_length : Nat)
    (message : List Nat) (message_length : Nat) : ParsedResponseLine :=
  { raw := ByteString.create_alias raw raw_length
    protocol := ByteString.create_alias protocol protocol_length
    status := ByteString.create_alias status status_length
    message := ByteString.create_alias message message_length }

/-- Engine connection: the value behind a non-singular `IronBee::Connection`
handle.  `id` tells the connections of one engine apart. -/
structure Connection where
  id : Nat
  local_ip_string : List Nat
  local_port : Nat
  remote_ip_string : List Nat
  remote_port : Nat
deriving DecidableEq, Repr

def Connection.set_local_ip_string (c : Connection) (s : List Nat) : Connection :=
  { c with local_ip_string := s }

def Connection.set_local_port (c : Connection) (p : Nat) : Connection :=
  { c with local_port := p }

def Connection.set_remote_ip_string (c : Connection) (s : List Nat) : Connection :=
  { c with remote_ip_string := s }

def Connection.set_remote_port (c : Connection) (p : Nat) : Connection :=
  { c with remote_port := p }

/-- Engine transaction: the value behind a non-singular
`IronBee::Transaction` handle, created on a connection. -/
structure Transaction where
  id : Nat
  connection : Connection
deriving DecidableEq, Repr

/-- One call of the engine notification API (`m_engine.notify().…`). -/
inductive Notification where
  | connection_opened (c : Connection)
  | connection_closed (c : Connection)
  | request_started (tx : Transaction) (prl : ParsedRequestLine)
  | request_header_data (tx : Transaction) (headers : List ParsedHeader)
  | request_header_finished (tx : Transaction)
  | request_body_data (tx : Transaction) (data : ByteString)
  | request_finished (tx : Transaction)
  | response_started (tx : Transaction) (prl : ParsedResponseLine)
  | response_header_data (tx : Transaction) (headers : List ParsedHeader)
  | response_header_finished (tx : Transaction)
  | response_body_data (tx : Transaction) (data : ByteString)
  | response_finished (tx : Transaction)
deriving DecidableEq, Repr

/-! ## Action outcome and errors -/

inductive action_e where
  | ACTION_ALLOW
  | ACTION_BLOCK
  | ACTION_BREAK
deriving DecidableEq, Repr

/-- Body of the registered action callback: stores the requested outcome. -/
def clipp_action_instance (which : action_e) (_to : action_e) : action_e :=
  which

/-- What a C++ call can throw.  `runtime_error` is what the tracker throws,
`ib_error` is a non-success status of the engine. -/
inductive Error where
  | runtime_error (what : String)
  | logic_error (what : String)
  | ib_error (status : Nat)
  | clipp_break
deriving DecidableEq, Repr

/-! ## The inspection engine as a collaborator -/

/-- What the engine does while it processes one notification: the action
instances it fires, in order, and the status it returns (`none` is success). -/
structure Reply where
  fired : List action_e
  status : Option Nat
deriving DecidableEq, Repr

/-- Modelled from the spec: the inspection engine is an external collaborator
with a fixed notification API; its behaviour is any function of the
notifications received so far and the current one. -/
structure Engine where
  reply : List Notification → Notification → Reply

/-- Observable record of the engine and its handles. -/
structure World where
  /-- notifications sent to the engine, oldest first -/
  trace : List Notification
  /-- number of connections created so far -/
  conn_created : Nat
  /-- ids of the connections destroyed so far, oldest first -/
  conn_destroyed : List Nat
  /-- number of transactions created so far -/
  tx_created : Nat
  /-- ids of the transactions destroyed so far, oldest first -/
  tx_destroyed : List Nat
  /-- the resolver the registered action callback writes to -/
  current_action : action_e
deriving DecidableEq, Repr

/-- `IronBee::Connection::create(engine)`. -/
def Connection.create (w : World) : Connection × World :=
  ({ id := w.conn_created, local_ip_string := [], local_port := 0,
     remote_ip_string := [], remote_port := 0 },
   { w with conn_created := w.conn_created + 1 })

/-- `connection.destroy()`. -/
def Connection.destroy (c : Connection) (w : World) : World :=
  { w with conn_destroyed := w.conn_destroyed ++ [c.id] }

/-- `IronBee::Transaction::create(connection)`. -/
def Transaction.create (c : Connection) (w : World) : Transaction × World :=
  ({ id := w.tx_created, connection := c },
   { w with tx_created := w.tx_created + 1 })

/-- `transaction.destroy()`. -/
def Transaction.destroy (tx : Transaction) (w : World) : World :=
  { w with tx_destroyed := w.tx_destroyed ++ [tx.id] }

/-- Modelled from the spec: one call `engine.notify().n`.  The notification
reaches the engine, the engine may fire registered action instances, and a
non-success status is propagated as an error. -/
def notify (engine : Engine) (n : Notification) (w : World) : Option Error × World :=
  let r := engine.reply w.trace n
  (r.status.map Error.ib_error,
   { w with
     trace := w.trace ++ [n]
     current_action :=
       r.fired.foldl (fun cur which => clipp_action_instance which cur) w.current_action })

/-! ## `adapt_header` -/

/-- `adapt_header::operator()`. -/
def adapt_header (header : header_t) : ParsedHeader :=
  ParsedHeader.create
    (ByteString.create_alias header.1.data header.1.length)
    (ByteString.create_alias header.2.data header.2.length)

/-! ## `IronBeeDelegate` -/

/-- Members of `IronBeeDelegate`; a singular handle is `none`. -/
structure IronBeeDelegate where
  m_engine : Engine
  m_connection : Option Connection
  m_transaction : Option Transaction

/-- Constructor `IronBeeDelegate(engine)`. -/
def IronBeeDelegate.new (engine : Engine) : IronBeeDelegate :=
  { m_engine := engine, m_connection := none, m_transaction := none }

/-- Result of running a member function: the exception thrown, if any, and
the state at the return or at the throw. -/
structure Step where
  thrown : Option Error
  delegate : IronBeeDelegate
  world : World

namespace IronBeeDelegate

def connection_opened (d : IronBeeDelegate) (event : ConnectionEvent) (w : World) : Step :=
  let w1 := match d.m_connection with
    | some c => c.destroy w
    | none => w
  let (c0, w2) := Connection.create w1
  let local_ip := strndup event.local_ip.data event.local_ip.length
  let remote_ip := strndup event.remote_ip.data event.remote_ip.length
  let c := (((c0.set_local_ip_string local_ip).set_local_port event.local_port
              ).set_remote_ip_string remote_ip).set_remote_port event.remote_port
  let d1 := { d with m_connection := some c }
  let (err, w3) := notify d.m_engine (Notification.connection_opened c) w2
  { thrown := err, delegate := d1, world := w3 }

def connection_closed (d : IronBeeDelegate) (_event : NullEvent) (w : World) : Step :=
  match d.m_connection with
  | none =>
    { thrown := some (Error.runtime_error
        "CONNECTION_CLOSED event fired outside of connection lifetime.")
      delegate := d, world := w }
  | some c =>
    let (err, w1) := notify d.m_engine (Notification.connection_closed c) w
    match err with
    | some e => { thrown := some e, delegate := d, world := w1 }
    | none =>
      { thrown := none
        delegate := { d with m_connection := none }
        world := c.destroy w1 }

def connection_data_in (d : IronBeeDelegate) (_event : DataEvent) (w : World) : Step :=
  { thrown := some (Error.runtime_error
      "IronBee no longer supports connection data.  Use @parse.")
    delegate := d, world := w }

def connection_data_out (d : IronBeeDelegate) (_event : DataEvent) (w : World) : Step :=
  { thrown := some (Error.runtime_error
      "IronBee no longer supports connection data.  Use @parse.")
    delegate := d, world := w }

def request_started (d : IronBeeDelegate) (event : RequestEvent) (w : World) : Step :=
  match d.m_connection with
  | none =>
    { thrown := some (Error.runtime_error
        "REQUEST_STARTED event fired outside of connection lifetime.")
      delegate := d, world := w }
  | some c =>
    let w1 := match d.m_transaction with
      | some tx => tx.destroy w
      | none => w
    let (tx, w2) := Transaction.create c w1
    let prl := ParsedRequestLine.create_alias
      event.raw.data event.raw.length
      event.method.data event.method.length
      event.uri.data event.uri.length
      event.protocol.data event.protocol.length
    let (err, w3) := notify d.m_engine (Notification.request_started tx prl) w2
    { thrown := err, delegate := { d with m_transaction := some tx }, world := w3 }

def request_header (d : IronBeeDelegate) (event : HeaderEvent) (w : World) : Step :=
  match d.m_transaction with
  | none =>
    { thrown := some (Error.runtime_error
        "REQUEST_HEADER_FINISHED event fired outside of connection lifetime.")
      delegate := d, world := w }
  | some tx =>
    let (err, w1) := notify d.m_engine
      (Notification.request_header_data tx (event.headers.map adapt_header)) w
    { thrown := err, delegate := d, world := w1 }

def request_header_finished (d : IronBeeDelegate) (_event : NullEvent) (w : World) : Step :=
  match d.m_transaction with
  | none =>
    { thrown := some (Error.runtime_error
        "REQUEST_HEADER_FINISHED event fired outside of connection lifetime.")
      delegate := d, world := w }
  | some tx =>
    let (err, w1) := notify d.m_engine (Notification.request_header_finished tx) w
    { thrown := err, delegate := d, world := w1 }

def request_body (d : IronBeeDelegate) (event : DataEvent) (w : World) : Step :=
  match d.m_transaction with
  | none =>
    { thrown := some (Error.runtime_error
        "REQUEST_BODY event fired outside of connection lifetime.")
      delegate := d, world := w }
  | some tx =>
    if event.data.length = 0 then
      { thrown := none, delegate := d, world := w }
    else
      let (err, w1) := notify d.m_engine
        (Notification.request_body_data tx
          (ByteString.create_alias event.data.data event.data.length)) w
      { thrown := err, delegate := d, world := w1 }

def request_finished (d : IronBeeDelegate) (_event : NullEvent) (w : World) : Step :=
  match d.m_transaction with
  | none =>
    { thrown := some (Error.runtime_error
        "REQUEST_FINISHED event fired outside of transaction lifetime.")
      delegate := d, world := w }
  | some tx =>
    let (err, w1) := notify d.m_engine (Notification.request_finished tx) w
    { thrown := err, delegate := d, world := w1 }

def response_started (d : IronBeeDelegate) (event : ResponseEvent) (w : World) : Step :=
  match d.m_transaction with
  | none =>
    { thrown := some (Error.runtime_error
        "RESPONSE_STARTED event fired outside of transaction lifetime.")
      delegate := d, world := w }
  | some tx =>
    let prl := ParsedResponseLine.create_alias
      event.raw.data event.raw.length
      event.protocol.data event.protocol.length
      event.status.data event.status.length
      event.message.data event.message.length
    let (err, w1) := notify d.m_engine (Notification.response_started tx prl) w
    { thrown := err, delegate := d, world := w1 }

def response_header (d : IronBeeDelegate) (event : HeaderEvent) (w : World) : Step :=
  match d.m_transaction with
  | none =>
    { thrown := some (Error.runtime_error
        "RESPONSE_HEADER event fired outside of connection lifetime.")
      delegate := d, world := w }
  | some tx =>
    let (err, w1) := notify d.m_engine
      (Notification.response_header_data tx (event.headers.map adapt_header)) w
    { thrown := err, delegate := d, world := w1 }

def response_header_finished (d : IronBeeDelegate) (_event : NullEvent) (w : World) : Step :=
  match d.m_transaction with
  | none =>
    { thrown := some (Error.runtime_error
        "RESPONSE_HEADER_FINISHED event fired outside of connection lifetime.")
      delegate := d, world := w }
  | some tx =>
    let (err, w1) := notify d.m_engine (Notification.response_header_finished tx) w
    { thrown := err, delegate := d, world := w1 }

def response_body (d : IronBeeDelegate) (event : DataEvent) (w : World) : Step :=
  match d.m_transaction with
  | none =>
    { thrown := some (Error.runtime_error
        "RESPONSE_BODY event fired outside of connection lifetime.")
      delegate := d, world := w }
  | some tx =>
    if event.data.length = 0 then
      { thrown := none, delegate := d, world := w }
    else
      let (err, w1) := notify d.m_engine
        (Notification.response_body_data tx
          (ByteString.create_alias event.data.data event.data.length)) w
      { thrown := err, delegate := d, world := w1 }

def response_finished (d : IronBeeDelegate) (_event : NullEvent) (w : World) : Step :=
  match d.m_transaction with
  | none =>
    { thrown := some (Error.runtime_error
        "RESPONSE_FINISHED event fired outside of connection lifetime.")
      delegate := d, world := w }
  | some tx =>
    let (err, w1) := notify d.m_engine (Notification.response_finished tx) w
    match err with
    | some e => { thrown := some e, delegate := d, world := w1 }
    | none =>
      { thrown := none
        delegate := { d with m_transaction := none }
        world := tx.destroy w1 }

/-- Destructor `~IronBeeDelegate()`. -/
def teardown (d : IronBeeDelegate) (w : World) : World :=
  match d.m_connection with
  | some c => c.destroy w
  | none => w

end IronBeeDelegate

/-! ## Dispatch -/

/-- Modelled from the spec: per-event dispatch, one exhaustive match from the
event variant to the delegate member function of the same name. -/
def Event.dispatch (ev : Event) (d : IronBeeDelegate) (w : World) : Step :=
  match ev with
  | Event.connection_opened e => d.connection_opened e w
  | Event.connection_closed e => d.connection_closed e w
  | Event.connection_data_in e => d.connection_data_in e w
  | Event.connection_data_out e => d.connection_data_out e w
  | Event.request_started e => d.request_started e w
  | Event.request_header e => d.request_header e w
  | Event.request_header_finished e => d.request_header_finished e w
  | Event.request_body e => d.request_body e w
  | Event.request_finished e => d.request_finished e w
  | Event.response_started e => d.response_started e w
  | Event.response_header e => d.response_header e w
  | Event.response_header_finished e => d.response_header_finished e w
  | Event.response_body e => d.response_body e w
  | Event.response_finished e => d.response_finished e w

/-- Modelled from the spec: dispatch of an ordered event sequence, feeding
the events to the delegate in order; the first error ends the dispatch. -/
def dispatch : List Event → IronBeeDelegate → World → Step
  | [], d, w => { thrown := none, delegate := d, world := w }
  | ev :: rest, d, w =>
    let s := ev.dispatch d w
    match s.thrown with
    | some e => { thrown := some e, delegate := s.delegate, world := s.world }
    | none => dispatch rest s.delegate s.world


/-! ## Specification-side vocabulary -/

/-- An engine that returns success for every notification. -/
def Engine.accepts (engine : Engine) : Prop :=
  ∀ t n, (engine.reply t n).status = none

/-- The engine that fires nothing and returns success. -/
def Engine.quiet : Engine :=
  { reply := fun _ _ => { fired := [], status := none } }

/-- A world in which nothing has happened yet. -/
def World.fresh : World :=
  { trace := [], conn_created := 0, conn_destroyed := [],
    tx_created := 0, tx_destroyed := [],
    current_action := action_e.ACTION_ALLOW }

/-- The event sequence of Scenario B; the response body is the two bytes
of "OK". -/
def scenario_B (co : ConnectionEvent) (rq : RequestEvent) (h1 : header_t)
    (rs : ResponseEvent) : List Event :=
  [ Event.connection_opened co,
    Event.request_started rq,
    Event.request_header { headers := [h1] },
    Event.request_header_finished {},
    Event.request_body { data := { data := [] } },
    Event.request_finished {},
    Event.response_started rs,
    Event.response_header_finished {},
    Event.response_body { data := { data := [79, 75] } },
    Event.response_finished {},
    Event.connection_closed {} ]

/-- The connection a ConnectionOpened event creates in world `w`: the next
free id, the addresses copied as C strings, the ports as given. -/
def opened_connection (w : World) (co : ConnectionEvent) : Connection :=
  { id := w.conn_created
    local_ip_string := strndup co.local_ip.data co.local_ip.length
    local_port := co.local_port
    remote_ip_string := strndup co.remote_ip.data co.remote_ip.length
    remote_port := co.remote_port }

/-- The transaction Scenario B starts when started in world `w`. -/
def scenario_B_transaction (w : World) (co : ConnectionEvent) : Transaction :=
  { id := w.tx_created, connection := opened_connection w co }

/-- The ten notifications of Scenario B, in order. -/
def scenario_B_notifications (w : World) (co : ConnectionEvent) (rq : RequestEvent)
    (h1 : header_t) (rs : ResponseEvent) : List Notification :=
  let c := opened_connection w co
  let tx := scenario_B_transaction w co
  [ Notification.connection_opened c,
    Notification.request_started tx
      { raw := rq.raw.data, method := rq.method.data,
        uri := rq.uri.data, protocol := rq.protocol.data },
    Notification.request_header_data tx [{ name := h1.1.data, value := h1.2.data }],
    Notification.request_header_finished tx,
    Notification.request_finished tx,
    Notification.response_started tx
      { raw := rs.raw.data, protocol := rs.protocol.data,
        status := rs.status.data, message := rs.message.data },
    Notification.response_header_finished tx,
    Notification.response_body_data tx [79, 75],
    Notification.response_finished tx,
    Notification.connection_closed c ]

/-- The twelve entry points of the engine notification API. -/
inductive NotificationKind where
  | connection_opened
  | connection_closed
  | request_started
  | request_header_data
  | request_header_finished
  | request_body_data
  | request_finished
  | response_started
  | response_header_data
  | response_header_finished
  | response_body_data
  | response_finished
deriving DecidableEq, Repr

/-- Which entry point a notification went to. -/
def Notification.kind : Notification → NotificationKind
  | Notification.connection_opened _ => NotificationKind.connection_opened
  | Notification.connection_closed _ => NotificationKind.connection_closed
  | Notification.request_started _ _ => NotificationKind.request_started
  | Notification.request_header_data _ _ => NotificationKind.request_header_data
  | Notification.request_header_finished _ => NotificationKind.request_header_finished
  | Notification.request_body_data _ _ => NotificationKind.request_body_data
  | Notification.request_finished _ => NotificationKind.request_finished
  | Notification.response_started _ _ => NotificationKind.response_started
  | Notification.response_header_data _ _ => NotificationKind.response_header_data
  | Notification.response_header_finished _ => NotificationKind.response_header_finished
  | Notification.response_body_data _ _ => NotificationKind.response_body_data
  | Notification.response_finished _ => NotificationKind.response_finished

/-- The name/value pairs a header notification carries, in order; `none` for
the other notifications. -/
def Notification.header_pairs : Notification → Option (List (List Nat × List Nat))
  | Notification.request_header_data _ hs => some (hs.map (fun h => (h.name, h.value)))
  | Notification.response_header_data _ hs => some (hs.map (fun h => (h.name, h.value)))
  | _ => none

/-- A request or response body event with a payload of length 0. -/
def Event.zero_length_body : Event → Bool
  | Event.request_body e => e.data.length == 0
  | Event.response_body e => e.data.length == 0
  | _ => false

/-- The notification kind that belongs to an event (section 4.1 of the
specification); the raw connection data events have none. -/
def Event.notification_kind : Event → Option NotificationKind
  | Event.connection_opened _ => some NotificationKind.connection_opened
  | Event.connection_closed _ => some NotificationKind.connection_closed
  | Event.connection_data_in _ => none
  | Event.connection_data_out _ => none
  | Event.request_started _ => some NotificationKind.request_started
  | Event.request_header _ => some NotificationKind.request_header_data
  | Event.request_header_finished _ => some NotificationKind.request_header_finished
  | Event.request_body _ => some NotificationKind.request_body_data
  | Event.request_finished _ => some NotificationKind.request_finished
  | Event.response_started _ => some NotificationKind.response_started
  | Event.response_header _ => some NotificationKind.response_header_data
  | Event.response_header_finished _ => some NotificationKind.response_header_finished
  | Event.response_body _ => some NotificationKind.response_body_data
  | Event.response_finished _ => some NotificationKind.response_finished

/-- The name/value pairs of a header event, in order; `none` for the other
events. -/
def Event.header_pairs : Event → Option (List (List Nat × List Nat))
  | Event.request_header e => some (e.headers.map (fun h => (h.1.data, h.2.data)))
  | Event.response_header e => some (e.headers.map (fun h => (h.1.data, h.2.data)))
  | _ => none

/-- The events that reach the engine: all but the zero-length bodies. -/
def forwarded (evs : List Event) : List Event :=
  evs.filter (fun e => !e.zero_length_body)

/-- The events that need a live transaction (section 4.1 of the
specification). -/
def Event.transaction_scoped : Event → Bool
  | Event.request_header _ => true
  | Event.request_header_finished _ => true
  | Event.request_body _ => true
  | Event.request_finished _ => true
  | Event.response_started _ => true
  | Event.response_header _ => true
  | Event.response_header_finished _ => true
  | Event.response_body _ => true
  | Event.response_finished _ => true
  | _ => false

/-- Sample connection event used in concrete evaluations. -/
def sample_connection_event : ConnectionEvent :=
  { local_ip := { data := [49, 46, 50] }, local_port := 80,
    remote_ip := { data := [51, 46, 52] }, remote_port := 1234 }

/-- Sample request line used in concrete evaluations. -/
def sample_request_event : RequestEvent :=
  { raw := { data := [71, 32, 47, 32, 72] }, method := { data := [71] },
    uri := { data := [47] }, protocol := { data := [72] } }

/-- Sample response line used in concrete evaluations. -/
def sample_response_event : ResponseEvent :=
  { raw := { data := [72, 32, 50, 32, 79] }, protocol := { data := [72] },
    status := { data := [50] }, message := { data := [79] } }

/-- Sample header pair used in concrete evaluations. -/
def sample_header : header_t := ({ data := [65] }, { data := [66, 67] })

/-- Sample live connection used in concrete evaluations. -/
def sample_connection : Connection :=
  { id := 0, local_ip_string := [49, 46, 50], local_port := 80,
    remote_ip_string := [51, 46, 52], remote_port := 1234 }

/-- Sample live transaction used in concrete evaluations. -/
def sample_transaction : Transaction :=
  { id := 0, connection := sample_connection }

/-- A delegate on the quiet engine with the given handles. -/
def sample_delegate (c : Option Connection) (tx : Option Transaction) : IronBeeDelegate :=
  { m_engine := Engine.quiet, m_connection := c, m_transaction := tx }

/-- A world in which connection 0 and transaction 0 have been created. -/
def sample_world : World :=
  { trace := [], conn_created := 1, conn_destroyed := [],
    tx_created := 1, tx_destroyed := [],
    current_action := action_e.ACTION_ALLOW }

/-- Input that reopens the connection in the middle of a transaction and
then continues the transaction. -/
def reopened_input : List Event :=
  [ Event.connection_opened sample_connection_event,
    Event.request_started sample_request_event,
    Event.connection_opened sample_connection_event,
    Event.request_header { headers := [sample_header] } ]

/-- Input that closes the connection in the middle of a transaction. -/
def closed_early_input : List Event :=
  [ Event.connection_opened sample_connection_event,
    Event.request_started sample_request_event,
    Event.connection_closed {} ]

/-- The transaction a RequestStarted event creates in world `w` on the live
connection `c`. -/
def started_transaction (w : World) (c : Connection) : Transaction :=
  { id := w.tx_created, connection := c }

/-- The request-line view built from a RequestStarted event. -/
def request_line_view (event : RequestEvent) : ParsedRequestLine :=
  { raw := event.raw.data, method := event.method.data,
    uri := event.uri.data, protocol := event.protocol.data }

/-- Ids of the handle that a lifecycle-start event destroys first. -/
def stale_ids {α : Type} (h : Option α) (id : α → Nat) : List Nat :=
  match h with
  | some x => [id x]
  | none => []

/-- Modelled from the spec: an input is one self-contained unit holding the
ordered event sequence of one connection (`Input::Input`; its `connection`
member is what the drivers dispatch). -/
structure Input where
  connection : List Event
deriving DecidableEq, Repr

/-- Shared pointer to an input (`Input::input_p`); `none` is the absent
input. -/
abbrev input_p := Option Input

/-- Modelled from the spec: the default behaviour for an unspecified action,
Allow or Block (`IronBeeModifier::behavior_e`). -/
inductive behavior_e where
  | ALLOW
  | BLOCK
deriving DecidableEq, Repr

/-- How a call ends: it returns a value or it throws. -/
inductive Outcome (α : Type) where
  | returned (value : α)
  | thrown (e : Error)
deriving DecidableEq, Repr

/-- Members of `IronBeeModifier::State`.  Its `current_action` member is
`World.current_action`: the registered action callback holds a reference to it
and writes it while the engine processes a notification. -/
structure IronBeeModifier where
  behavior : behavior_e
  engine : Engine

/-- Result of a driver call: how it ended, the caller's input handle after
the call, and the world after the call. -/
structure Call where
  outcome : Outcome Bool
  input : input_p
  world : World

namespace IronBeeModifier

/-- The first `switch` of `operator()`: the resolver is set from the
configured behaviour.  `behavior_e` has two values, so the `default` branch
that throws `logic_error` is never taken. -/
def reset (m : IronBeeModifier) (w : World) : World :=
  match m.behavior with
  | behavior_e.ALLOW => { w with current_action := action_e.ACTION_ALLOW }
  | behavior_e.BLOCK => { w with current_action := action_e.ACTION_BLOCK }

/-- The dispatch inside `operator()`: a new delegate on the engine, the
resolver reset, then `input->connection.dispatch(delegate, true)`. -/
def dispatched (m : IronBeeModifier) (inp : Input) (w : World) : Step :=
  dispatch inp.connection (IronBeeDelegate.new m.engine) (m.reset w)

/-- `IronBeeModifier::operator()(input)`.  The delegate is a local: its
destructor runs when the call returns and when it throws. -/
def call (m : IronBeeModifier) (input : input_p) (w : World) : Call :=
  match input with
  | none => { outcome := Outcome.returned true, input := input, world := w }
  | some inp =>
    let s := m.dispatched inp w
    match s.thrown with
    | some e =>
      { outcome := Outcome.thrown e, input := input, world := s.delegate.teardown s.world }
    | none =>
      match s.world.current_action with
      | action_e.ACTION_ALLOW =>
        { outcome := Outcome.returned true, input := input
          world := s.delegate.teardown s.world }
      | action_e.ACTION_BLOCK =>
        { outcome := Outcome.returned false, input := input
          world := s.delegate.teardown s.world }
      | action_e.ACTION_BREAK =>
        { outcome := Outcome.thrown Error.clipp_break, input := input
          world := s.delegate.teardown s.world }

end IronBeeModifier

/-- Members of `IronBeeConsumer::State`: the modifier the consumer wraps. -/
structure IronBeeConsumer where
  modifier : IronBeeModifier

/-- `IronBeeConsumer::operator()(input)`: the modifier runs on a copy of the
handle; whatever it returns, the consumer returns true. -/
def IronBeeConsumer.call (c : IronBeeConsumer) (input : input_p) (w : World) : Call :=
  let copy := input
  let r := c.modifier.call copy w
  match r.outcome with
  | Outcome.thrown e => { outcome := Outcome.thrown e, input := input, world := r.world }
  | Outcome.returned _ => { outcome := Outcome.returned true, input := input, world := r.world }

/-- `IronBeeThreadedConsumer::State::process_input(input)`: the task function
of the threaded driver, on the shared engine. -/
def IronBeeThreadedConsumer.process_input (engine : Engine) (input : input_p) (w : World) :
    Option Error × World :=
  match input with
  | none => (none, w)
  | some inp =>
    let s := dispatch inp.connection (IronBeeDelegate.new engine) w
    (s.thrown, s.delegate.teardown s.world)

/-- An engine that never fires an action instance. -/
def Engine.silent (engine : Engine) : Prop :=
  ∀ t n, (engine.reply t n).fired = []

/-- The engine that fires the action `which` on every notification and
returns success. -/
def Engine.firing (which : action_e) : Engine :=
  { reply := fun _ _ => { fired := [which], status := none } }

/-- The engine that returns the status `code` for every connection_closed
notification and success for the others, and fires nothing. -/
def Engine.failing_on_close (code : Nat) : Engine :=
  { reply := fun _ n =>
      match n with
      | Notification.connection_closed _ => { fired := [], status := some code }
      | _ => { fired := [], status := none } }

/-- Sample input: a connection opened and closed. -/
def sample_input : Input :=
  { connection := [Event.connection_opened sample_connection_event,
                   Event.connection_closed {}] }

/-- Sample input that the tracker rejects after its first event. -/
def sample_bad_input : Input :=
  { connection := [Event.connection_opened sample_connection_event,
                   Event.connection_data_in { data := { data := [1] } }] }

/-- The world reached from the fresh one when the sample connection has been
opened. -/
def sample_open_world : World :=
  { trace := [Notification.connection_opened sample_connection],
    conn_created := 1, conn_destroyed := [],
    tx_created := 0, tx_destroyed := [],
    current_action := action_e.ACTION_ALLOW }

/-- A delegate with the sample connection live, on the engine that fails on
connection_closed with status 7. -/
def sample_failing_delegate : IronBeeDelegate :=
  { m_engine := Engine.failing_on_close 7, m_connection := some sample_connection,
    m_transaction := none }

/-- A connection with its handle identity erased. -/
def Connection.anonymous (c : Connection) : Connection :=
  { c with id := 0 }

/-- A transaction with the handle identities erased. -/
def Transaction.anonymous (tx : Transaction) : Transaction :=
  { id := 0, connection := tx.connection.anonymous }

/-- A notification with the handle identities erased: what the tracker tells
the engine, apart from which handle it is about. -/
def Notification.anonymous : Notification → Notification
  | Notification.connection_opened c => Notification.connection_opened c.anonymous
  | Notification.connection_closed c => Notification.connection_closed c.anonymous
  | Notification.request_started tx prl => Notification.request_started tx.anonymous prl
  | Notification.request_header_data tx hs => Notification.request_header_data tx.anonymous hs
  | Notification.request_header_finished tx =>
    Notification.request_header_finished tx.anonymous
  | Notification.request_body_data tx data => Notification.request_body_data tx.anonymous data
  | Notification.request_finished tx => Notification.request_finished tx.anonymous
  | Notification.response_started tx prl => Notification.response_started tx.anonymous prl
  | Notification.response_header_data tx hs =>
    Notification.response_header_data tx.anonymous hs
  | Notification.response_header_finished tx =>
    Notification.response_header_finished tx.anonymous
  | Notification.response_body_data tx data =>
    Notification.response_body_data tx.anonymous data
  | Notification.response_finished tx => Notification.response_finished tx.anonymous

/-- An engine whose status for a notification depends only on what the
notification says, not on earlier notifications nor on handle identities. -/
def Engine.memoryless (engine : Engine) : Prop :=
  ∀ t t1 n n1, n.anonymous = n1.anonymous →
    (engine.reply t n).status = (engine.reply t1 n1).status

/-- The status an engine returns for a notification when it has seen nothing
before. -/
def Engine.first_status (engine : Engine) (n : Notification) : Option Nat :=
  (engine.reply [] n).status

/-! ## `FunctionWorkerPool`

The pool is a set of threads.  It is embedded as a transition system: the
state holds the members of the pool and the place of every thread in its
function; a step is what one thread does while it holds the mutex, or one call
outside the mutex.  A condition-variable wait releases the mutex and blocks;
the waiting thread goes on when a notify picks it or, as the thread library
permits, spuriously.  The pool runs the work function without a handler: an
exception that leaves it leaves the thread function, the thread library calls
`std::terminate`, and no thread of the process takes another step. -/

/-- A thread that takes part in the acceptance barrier. -/
inductive ThreadId where
  | worker (i : Nat)
  | submitter (j : Nat)
deriving DecidableEq, Repr

/-- A thread that can wait on `m_worker_available_cv`. -/
inductive Waiter where
  | submitter (j : Nat)
  | shutdown
deriving DecidableEq, Repr

/-- Where a worker thread stands in `do_work`. -/
inductive WorkerState (WorkType : Type) where
  /-- top of the loop, before `++m_num_workers_available` -/
  | idle_mark
  /-- before `m_worker_available_cv.notify_one()` -/
  | idle_signal
  /-- before locking and testing `! m_work_available` -/
  | work_check
  /-- inside `m_work_available_cv.wait(lock)` -/
  | work_wait
  /-- the wait has ended; before the test of `m_shutdown` -/
  | work_woken
  /-- holds its copy of the work; before `m_work_accepted_barrier.wait()` -/
  | accept (local_work : WorkType)
  /-- inside `m_work_accepted_barrier.wait()` -/
  | accept_wait (local_work : WorkType)
  /-- before `m_work_function(local_work)` -/
  | run (local_work : WorkType)
  /-- returned from `do_work` -/
  | exited
  /-- the work function threw: the exception has left the thread function and
  `std::terminate` has ended the process -/
  | terminated (e : Error)
deriving DecidableEq, Repr

/-- Where a thread stands in `FunctionWorkerPool::operator()(work)`. -/
inductive SubmitterState (WorkType : Type) where
  /-- before locking and testing `m_num_workers_available == 0` -/
  | publish_check (work : WorkType)
  /-- inside `m_worker_available_cv.wait(lock)` -/
  | publish_wait (work : WorkType)
  /-- has published; before `m_work_accepted_barrier.wait()` -/
  | accept (work : WorkType)
  /-- inside `m_work_accepted_barrier.wait()` -/
  | accept_wait (work : WorkType)
  /-- the call has returned -/
  | returned (work : WorkType)
deriving DecidableEq, Repr

/-- Where the thread that calls `shutdown()` stands. -/
inductive ShutdownState where
  | not_called
  /-- before locking and testing `m_num_workers_available < m_num_workers` -/
  | idle_check
  /-- inside `m_worker_available_cv.wait(lock)` -/
  | idle_wait
  /-- before `m_shutdown = true` -/
  | set_flag
  /-- before `m_work_available_cv.notify_all()` -/
  | wake_all
  /-- inside `m_thread_group.join_all()` -/
  | join
  | returned
deriving DecidableEq, Repr

/-- Members of `FunctionWorkerPool<WorkType>` and the threads around it.
`env` is what the work function acts on. -/
structure FunctionWorkerPool (WorkType : Type) (σ : Type) where
  m_num_workers : Nat
  m_num_workers_available : Nat
  m_work_available : Bool
  m_shutdown : Bool
  m_work : WorkType
  /-- the thread blocked in the two-party barrier, if any -/
  barrier_waiting : Option ThreadId
  /-- the threads of `m_thread_group`, by index -/
  workers : List (WorkerState WorkType)
  /-- the threads that have entered `operator()`, by order of entry -/
  submitters : List (SubmitterState WorkType)
  shutdown : ShutdownState
  env : σ
deriving DecidableEq, Repr

/-- What one thread or caller does next.  `wake` names the thread a
`notify_one` unblocks (`none`: nobody is waiting). -/
inductive PoolAction (WorkType : Type) where
  /-- a caller enters `operator()(work)` -/
  | submit (work : WorkType)
  /-- a caller enters `shutdown()` -/
  | call_shutdown
  | worker (i : Nat) (wake : Option Waiter)
  | submitter (j : Nat) (wake : Option Nat)
  | shutdown
  /-- a spurious end of the wait of worker `i` -/
  | spurious_worker (i : Nat)
  /-- a spurious end of the wait of a thread on `m_worker_available_cv` -/
  | spurious_waiter (t : Waiter)
deriving DecidableEq, Repr

/-- `++n` on a `size_t` counter (64 bits). -/
def size_t_increment (n : Nat) : Nat := (n + 1) % 18446744073709551616

/-- `--n` on a `size_t` counter (64 bits); 0 wraps around. -/
def size_t_decrement (n : Nat) : Nat := (n + 18446744073709551615) % 18446744073709551616

namespace FunctionWorkerPool

variable {WorkType σ : Type}

/-- Constructor `FunctionWorkerPool(num_workers, work_function)`: the members
are initialised and `num_workers` threads are created, each at the top of
`do_work`.  There is no test of `num_workers`. -/
def new [Inhabited WorkType] (num_workers : Nat) (env : σ) : FunctionWorkerPool WorkType σ :=
  { m_num_workers := num_workers
    m_num_workers_available := 0
    m_work_available := false
    m_shutdown := false
    m_work := default
    barrier_waiting := none
    workers := List.replicate num_workers WorkerState.idle_mark
    submitters := []
    shutdown := ShutdownState.not_called
    env := env }

/-- The worker is blocked on `m_work_available_cv`. -/
def worker_waits : WorkerState WorkType → Bool
  | WorkerState.work_wait => true
  | _ => false

/-- The submitter is blocked on `m_worker_available_cv`. -/
def submitter_waits : SubmitterState WorkType → Bool
  | SubmitterState.publish_wait _ => true
  | _ => false

/-- The worker thread has ended: it has returned from `do_work`. -/
def worker_ended : WorkerState WorkType → Bool
  | WorkerState.exited => true
  | _ => false

/-- The work function has thrown in this thread. -/
def worker_terminated : WorkerState WorkType → Bool
  | WorkerState.terminated _ => true
  | _ => false

/-- The process has been ended by `std::terminate`: the work function has
thrown in some worker thread. -/
def aborted (s : FunctionWorkerPool WorkType σ) : Bool :=
  s.workers.any worker_terminated

/-- End of the wait of thread `t` on `m_worker_available_cv`; `none` if `t`
is not waiting there. -/
def end_wait (s : FunctionWorkerPool WorkType σ) (t : Waiter) :
    Option (FunctionWorkerPool WorkType σ) :=
  match t with
  | Waiter.submitter j =>
    match s.submitters.get? j with
    | some (SubmitterState.publish_wait work) =>
      some { s with submitters := s.submitters.set j (SubmitterState.publish_check work) }
    | _ => none
  | Waiter.shutdown =>
    match s.shutdown with
    | ShutdownState.idle_wait => some { s with shutdown := ShutdownState.idle_check }
    | _ => none

/-- End of the wait of worker `i` on `m_work_available_cv`; `none` if it is
not waiting there. -/
def end_work_wait (s : FunctionWorkerPool WorkType σ) (i : Nat) :
    Option (FunctionWorkerPool WorkType σ) :=
  match s.workers.get? i with
  | some WorkerState.work_wait =>
    some { s with workers := s.workers.set i WorkerState.work_woken }
  | _ => none

/-- `m_worker_available_cv.notify_one()`. -/
def notify_worker_available (s : FunctionWorkerPool WorkType σ) (wake : Option Waiter) :
    Option (FunctionWorkerPool WorkType σ) :=
  match wake with
  | some t => s.end_wait t
  | none =>
    if s.submitters.any submitter_waits || s.shutdown == ShutdownState.idle_wait then none
    else some s

/-- `m_work_available_cv.notify_one()`. -/
def notify_work_available (s : FunctionWorkerPool WorkType σ) (wake : Option Nat) :
    Option (FunctionWorkerPool WorkType σ) :=
  match wake with
  | some i => s.end_work_wait i
  | none => if s.workers.any worker_waits then none else some s

/-- `m_work_available_cv.notify_all()`. -/
def notify_all_work_available (s : FunctionWorkerPool WorkType σ) :
    FunctionWorkerPool WorkType σ :=
  { s with workers := s.workers.map (fun ws =>
      match ws with
      | WorkerState.work_wait => WorkerState.work_woken
      | other => other) }

/-- The end of the critical section of `do_work`: `local_work = m_work;
m_work_available = false; --m_num_workers_available`. -/
def take_work (s : FunctionWorkerPool WorkType σ) (i : Nat) : FunctionWorkerPool WorkType σ :=
  { s with
    m_work_available := false
    m_num_workers_available := size_t_decrement s.m_num_workers_available
    workers := s.workers.set i (WorkerState.accept s.m_work) }

/-- The thread blocked in the barrier goes on. -/
def release (s : FunctionWorkerPool WorkType σ) (t : ThreadId) : FunctionWorkerPool WorkType σ :=
  match t with
  | ThreadId.worker k =>
    match s.workers.get? k with
    | some (WorkerState.accept_wait local_work) =>
      { s with workers := s.workers.set k (WorkerState.run local_work) }
    | _ => s
  | ThreadId.submitter j =>
    match s.submitters.get? j with
    | some (SubmitterState.accept_wait work) =>
      { s with submitters := s.submitters.set j (SubmitterState.returned work) }
    | _ => s

/-- One step of worker `i` in `do_work`. -/
def worker_step (m_work_function : WorkType → σ → Option Error × σ)
    (s : FunctionWorkerPool WorkType σ) (i : Nat) (wake : Option Waiter) :
    Option (FunctionWorkerPool WorkType σ) :=
  match s.workers.get? i with
  | none => none
  | some WorkerState.idle_mark =>
    some { s with
      m_num_workers_available := size_t_increment s.m_num_workers_available
      workers := s.workers.set i WorkerState.idle_signal }
  | some WorkerState.idle_signal =>
    match s.notify_worker_available wake with
    | none => none
    | some s1 => some { s1 with workers := s1.workers.set i WorkerState.work_check }
  | some WorkerState.work_check =>
    if s.m_work_available then some (s.take_work i)
    else some { s with workers := s.workers.set i WorkerState.work_wait }
  | some WorkerState.work_wait => none
  | some WorkerState.work_woken =>
    if s.m_shutdown then some { s with workers := s.workers.set i WorkerState.exited }
    else if s.m_work_available then some (s.take_work i)
    else some { s with workers := s.workers.set i WorkerState.work_wait }
  | some (WorkerState.accept local_work) =>
    match s.barrier_waiting with
    | none =>
      some { s with
        workers := s.workers.set i (WorkerState.accept_wait local_work)
        barrier_waiting := some (ThreadId.worker i) }
    | some t =>
      some { s.release t with
        workers := (s.release t).workers.set i (WorkerState.run local_work)
        barrier_waiting := none }
  | some (WorkerState.accept_wait _) => none
  | some (WorkerState.run local_work) =>
    match m_work_function local_work s.env with
    | (none, env1) =>
      some { s with workers := s.workers.set i WorkerState.idle_mark, env := env1 }
    | (some e, env1) =>
      some { s with workers := s.workers.set i (WorkerState.terminated e), env := env1 }
  | some WorkerState.exited => none
  | some (WorkerState.terminated _) => none

/-- One step of submitter `j` in `operator()(work)`. -/
def submitter_step (s : FunctionWorkerPool WorkType σ) (j : Nat) (wake : Option Nat) :
    Option (FunctionWorkerPool WorkType σ) :=
  match s.submitters.get? j with
  | none => none
  | some (SubmitterState.publish_check work) =>
    if s.m_num_workers_available = 0 then
      some { s with submitters := s.submitters.set j (SubmitterState.publish_wait work) }
    else
      match ({ s with m_work := work, m_work_available := true } :
          FunctionWorkerPool WorkType σ).notify_work_available wake with
      | none => none
      | some s1 => some { s1 with submitters := s1.submitters.set j (SubmitterState.accept work) }
  | some (SubmitterState.publish_wait _) => none
  | some (SubmitterState.accept work) =>
    match s.barrier_waiting with
    | none =>
      some { s with
        submitters := s.submitters.set j (SubmitterState.accept_wait work)
        barrier_waiting := some (ThreadId.submitter j) }
    | some t =>
      some { s.release t with
        submitters := (s.release t).submitters.set j (SubmitterState.returned work)
        barrier_waiting := none }
  | some (SubmitterState.accept_wait _) => none
  | some (SubmitterState.returned _) => none

/-- One step of the thread inside `shutdown()`.  `join_all` returns when
every worker thread has ended. -/
def shutdown_step (s : FunctionWorkerPool WorkType σ) :
    Option (FunctionWorkerPool WorkType σ) :=
  match s.shutdown with
  | ShutdownState.not_called => none
  | ShutdownState.idle_check =>
    if s.m_num_workers_available < s.m_num_workers then
      some { s with shutdown := ShutdownState.idle_wait }
    else some { s with shutdown := ShutdownState.set_flag }
  | ShutdownState.idle_wait => none
  | ShutdownState.set_flag =>
    some { s with m_shutdown := true, shutdown := ShutdownState.wake_all }
  | ShutdownState.wake_all =>
    some { s.notify_all_work_available with shutdown := ShutdownState.join }
  | ShutdownState.join =>
    if s.workers.all worker_ended then some { s with shutdown := ShutdownState.returned }
    else none
  | ShutdownState.returned => none

/-- One step of a thread or caller while the process runs; `none` when the
action is not possible in `s`. -/
def thread_step (m_work_function : WorkType → σ → Option Error × σ)
    (s : FunctionWorkerPool WorkType σ) (a : PoolAction WorkType) :
    Option (FunctionWorkerPool WorkType σ) :=
  match a with
  | PoolAction.submit work =>
    some { s with submitters := s.submitters ++ [SubmitterState.publish_check work] }
  | PoolAction.call_shutdown =>
    match s.shutdown with
    | ShutdownState.not_called => some { s with shutdown := ShutdownState.idle_check }
    | _ => none
  | PoolAction.worker i wake => s.worker_step m_work_function i wake
  | PoolAction.submitter j wake => s.submitter_step j wake
  | PoolAction.shutdown => s.shutdown_step
  | PoolAction.spurious_worker i => s.end_work_wait i
  | PoolAction.spurious_waiter t => s.end_wait t

/-- One step of the pool; `none` when the action is not possible in `s`.
Once the work function has thrown in a worker thread the process has ended and
no action is possible. -/
def step (m_work_function : WorkType → σ → Option Error × σ)
    (s : FunctionWorkerPool WorkType σ) (a : PoolAction WorkType) :
    Option (FunctionWorkerPool WorkType σ) :=
  if s.aborted then none else s.thread_step m_work_function a

/-- A sequence of steps; `none` when one of them is not possible. -/
def run (m_work_function : WorkType → σ → Option Error × σ) :
    FunctionWorkerPool WorkType σ → List (PoolAction WorkType) →
    Option (FunctionWorkerPool WorkType σ)
  | s, [] => some s
  | s, a :: rest =>
    match s.step m_work_function a with
    | none => none
    | some s1 => run m_work_function s1 rest

end FunctionWorkerPool

/-- Members of `IronBeeThreadedConsumer::State`: the shared engine and the
worker pool, whose work function is `process_input` on that engine and whose
environment is the world. -/
structure IronBeeThreadedConsumer where
  engine : Engine
  worker_pool : FunctionWorkerPool input_p World

namespace IronBeeThreadedConsumer

/-- Constructor `IronBeeThreadedConsumer(config_path, num_workers)`: the
state with a pool of `num_workers` workers, then `load_configuration`.
`loaded` is how the loading of the configuration ended (the parser is part of
the engine); its error, if any, is the only way the constructor fails. -/
def new (engine : Engine) (loaded : Option Error) (num_workers : Nat) (w : World) :
    Except Error IronBeeThreadedConsumer :=
  let state : IronBeeThreadedConsumer :=
    { engine := engine, worker_pool := FunctionWorkerPool.new num_workers w }
  match loaded with
  | some e => Except.error e
  | none => Except.ok state

/-- One step of the pool of the threaded driver. -/
def step (c : IronBeeThreadedConsumer) (a : PoolAction input_p) :
    Option IronBeeThreadedConsumer :=
  match c.worker_pool.step (process_input c.engine) a with
  | none => none
  | some p => some { c with worker_pool := p }

/-- A sequence of steps of the pool of the threaded driver. -/
def run (c : IronBeeThreadedConsumer) (actions : List (PoolAction input_p)) :
    Option IronBeeThreadedConsumer :=
  match c.worker_pool.run (process_input c.engine) actions with
  | none => none
  | some p => some { c with worker_pool := p }

/-- `IronBeeThreadedConsumer::operator()(input)` as seen by its `j`-th caller:
`m_state->worker_pool(input); return true;`.  The value is there once the pool
call has returned; `none` while the caller is still inside the pool call. -/
def call (c : IronBeeThreadedConsumer) (j : Nat) : Option Bool :=
  match c.worker_pool.submitters.get? j with
  | some (SubmitterState.returned _) => some true
  | _ => none

end IronBeeThreadedConsumer

/-- The steps by which a pool of one worker, freshly built, accepts and runs
one submission: the worker marks itself idle and waits, the caller publishes
and wakes it, both meet at the barrier, the worker runs the task. -/
def one_submission (work : input_p) : List (PoolAction input_p) :=
  [ PoolAction.worker 0 none,
    PoolAction.worker 0 none,
    PoolAction.worker 0 none,
    PoolAction.submit work,
    PoolAction.submitter 0 (some 0),
    PoolAction.submitter 0 none,
    PoolAction.worker 0 none,
    PoolAction.worker 0 none,
    PoolAction.worker 0 none ]

/-- The threaded driver with one worker on the quiet engine in the fresh
world, after it has accepted and run one absent input. -/
def sample_threaded_after_one : Option IronBeeThreadedConsumer :=
  IronBeeThreadedConsumer.run
    { engine := Engine.quiet, worker_pool := FunctionWorkerPool.new 1 World.fresh }
    (one_submission none)

/-- The submitter has not published its work yet: it is still before or
inside the wait for an idle worker. -/
def FunctionWorkerPool.unpublished {WorkType : Type} : SubmitterState WorkType → Bool
  | SubmitterState.publish_check _ => true
  | SubmitterState.publish_wait _ => true
  | _ => false

/-- What holds of a pool without worker threads. -/
def FunctionWorkerPool.no_workers {WorkType σ : Type} (s : FunctionWorkerPool WorkType σ) :
    Prop :=
  s.workers = [] ∧ s.m_num_workers_available = 0 ∧
    ∀ st ∈ s.submitters, FunctionWorkerPool.unpublished st = true

/-- Steps on a pool without workers: a caller submits an absent input and
blocks, then `shutdown()` is called and runs to its end. -/
def submit_to_empty_pool : List (PoolAction input_p) :=
  [ PoolAction.submit none,
    PoolAction.submitter 0 none,
    PoolAction.call_shutdown,
    PoolAction.shutdown,
    PoolAction.shutdown,
    PoolAction.shutdown,
    PoolAction.shutdown,
    PoolAction.spurious_waiter (Waiter.submitter 0),
    PoolAction.submitter 0 none ]

/-- The connections are in balance relative to a starting point with
destroyed ids `D0` and `c0` connections created: every connection created
since then has been destroyed once, in order of creation, except the one the
delegate holds, which is the last one created. -/
def conn_balanced (D0 : List Nat) (c0 : Nat) (d : IronBeeDelegate) (w : World) : Prop :=
  c0 ≤ w.conn_created ∧
  w.conn_destroyed ++ stale_ids d.m_connection Connection.id
    = D0 ++ List.range' c0 (w.conn_created - c0)

/-! ## Status codes and the action generator -/

/-- Modelled from the spec: status code of the engine (`ib_status_t`).  The
enumeration is declared in the engine's headers; the values below follow its
order, and the theorems use only that the four codes differ. -/
abbrev ib_status_t := Nat

/-- Status `IB_OK`. -/
def IB_OK : ib_status_t := 0

/-- Status `IB_EALLOC`. -/
def IB_EALLOC : ib_status_t := 5

/-- Status `IB_EINVAL`. -/
def IB_EINVAL : ib_status_t := 6

/-- Status `IB_ENOENT`. -/
def IB_ENOENT : ib_status_t := 7

/-- The exception `einval`: the error class of status `IB_EINVAL`. -/
def einval : Error := Error.ib_error IB_EINVAL

/-- `clipp_action_generator(parameters, to)`: the action instance for the
parameter of a `clipp` action, or the exception it throws, and the resolver
`to` after the call.  The generator only binds a reference to `to`. -/
def clipp_action_generator (parameters : String) (to_ : action_e) :
    Except Error (action_e → action_e) × action_e :=
  if parameters = "allow" then
    (Except.ok (clipp_action_instance action_e.ACTION_ALLOW), to_)
  else if parameters = "block" then
    (Except.ok (clipp_action_instance action_e.ACTION_BLOCK), to_)
  else if parameters = "break" then
    (Except.ok (clipp_action_instance action_e.ACTION_BREAK), to_)
  else
    (Except.error einval, to_)

/-- The action instances the engine fires while it processes the
notifications `sent`, one after the other, having seen `seen` before. -/
def fired_during (engine : Engine) : List Notification → List Notification → List action_e
  | _, [] => []
  | seen, n :: rest => (engine.reply seen n).fired ++ fired_during engine (seen ++ [n]) rest

/-- The resolver after the action instances `fired` have run on it in
order. -/
def resolve (fired : List action_e) (current : action_e) : action_e :=
  fired.foldl (fun cur which => clipp_action_instance which cur) current

/-- What the modifier does with the final value of the resolver. -/
def action_outcome : action_e → Outcome Bool
  | action_e.ACTION_ALLOW => Outcome.returned true
  | action_e.ACTION_BLOCK => Outcome.returned false
  | action_e.ACTION_BREAK => Outcome.thrown Error.clipp_break

/-- The engine that fires the three action instances Block, Break, Allow in
this order on every notification and returns success. -/
def Engine.firing_three : Engine :=
  { reply := fun _ _ =>
      { fired := [action_e.ACTION_BLOCK, action_e.ACTION_BREAK, action_e.ACTION_ALLOW],
        status := none } }

end CLIPP

/-! ## Engine modules: the Lua rule driver and the pattern-match operator -/

namespace Modules

open CLIPP

/-- Bytes of a C string literal before its terminating NUL. -/
def c_str (s : String) : List Nat := s.data.map Char.toNat

/-- C library `strncmp` on C strings given by their bytes; the end of the
list, like a 0 byte, is the terminating NUL.  At most `n` bytes are compared
and the comparison stops after a NUL. -/
def strncmp : List Nat → List Nat → Nat → Int
  | _, _, 0 => 0
  | s1, s2, n + 1 =>
    if s1.headD 0 ≠ s2.headD 0 then (s1.headD 0 : Int) - (s2.headD 0 : Int)
    else if s1.headD 0 = 0 then 0
    else strncmp s1.tail s2.tail n

/-- C library `strlen`: number of bytes before the first NUL. -/
def strlen (s : List Nat) : Nat := (s.takeWhile (fun b => b != 0)).length

/-- What `modlua_rule_driver` calls, in order. -/
inductive DriverCall where
  | ib_cfg_log_error (format : String)
  | ib_cfg_log_debug3 (format : String)
  | ib_cfgparser_context_current
  | modlua_cfg_get
  | ib_lua_load_func (location : String)
  | modlua_record_reload (location : String)
  | ib_operator_create_and_register (name : String)
  | ib_operator_inst_create
  | ib_rule_set_operator
deriving DecidableEq, Repr

/-- Statuses returned by the functions `modlua_rule_driver` calls. -/
structure DriverEnv where
  ib_cfgparser_context_current : ib_status_t
  modlua_cfg_get : ib_status_t
  ib_lua_load_func : ib_status_t
  modlua_record_reload : ib_status_t
  ib_operator_create_and_register : ib_status_t
  ib_operator_inst_create : ib_status_t
  ib_rule_set_operator : ib_status_t
deriving DecidableEq, Repr

/-- What follows the last '/' of `location`, or all of it (`strrchr`). -/
def operator_name (location : String) : String :=
  String.mk (location.data.reverse.takeWhile (fun c => c != '/')).reverse

/-- `modlua_rule_driver(cp, rule, tag, location, cbdata)`: the status
returned and the calls made, in order. -/
def modlua_rule_driver (env : DriverEnv) (tag : String) (location : String) :
    ib_status_t × List DriverCall :=
  if strncmp (c_str tag) (c_str "lua") 3 ≠ 0 then
    (IB_EINVAL,
      [DriverCall.ib_cfg_log_error "Lua rule driver called for non-lua tag."])
  else if env.ib_cfgparser_context_current ≠ IB_OK then
    (env.ib_cfgparser_context_current,
      [DriverCall.ib_cfgparser_context_current,
       DriverCall.ib_cfg_log_error "Failed to retrieve current context."])
  else if env.modlua_cfg_get ≠ IB_OK then
    (env.modlua_cfg_get,
      [DriverCall.ib_cfgparser_context_current, DriverCall.modlua_cfg_get])
  else if env.ib_lua_load_func ≠ IB_OK then
    (env.ib_lua_load_func,
      [DriverCall.ib_cfgparser_context_current, DriverCall.modlua_cfg_get,
       DriverCall.ib_lua_load_func location,
       DriverCall.ib_cfg_log_error "Failed to load lua file \"%s\""])
  else if env.modlua_record_reload ≠ IB_OK then
    (env.modlua_record_reload,
      [DriverCall.ib_cfgparser_context_current, DriverCall.modlua_cfg_get,
       DriverCall.ib_lua_load_func location, DriverCall.modlua_record_reload location,
       DriverCall.ib_cfg_log_error "Failed to record  lua file \"%s\" to reload"])
  else if env.ib_operator_create_and_register ≠ IB_OK then
    (env.ib_operator_create_and_register,
      [DriverCall.ib_cfgparser_context_current, DriverCall.modlua_cfg_get,
       DriverCall.ib_lua_load_func location, DriverCall.modlua_record_reload location,
       DriverCall.ib_cfg_log_debug3 "Loaded lua file \"%s\"",
       DriverCall.ib_operator_create_and_register (operator_name location),
       DriverCall.ib_cfg_log_error "Failed to register lua operator \"%s\": %s"])
  else if env.ib_operator_inst_create ≠ IB_OK then
    (env.ib_operator_inst_create,
      [DriverCall.ib_cfgparser_context_current, DriverCall.modlua_cfg_get,
       DriverCall.ib_lua_load_func location, DriverCall.modlua_record_reload location,
       DriverCall.ib_cfg_log_debug3 "Loaded lua file \"%s\"",
       DriverCall.ib_operator_create_and_register (operator_name location),
       DriverCall.ib_operator_inst_create,
       DriverCall.ib_cfg_log_error
         "Failed to instantiate lua operator for rule \"%s\": %s"])
  else if env.ib_rule_set_operator ≠ IB_OK then
    (env.ib_rule_set_operator,
      [DriverCall.ib_cfgparser_context_current, DriverCall.modlua_cfg_get,
       DriverCall.ib_lua_load_func location, DriverCall.modlua_record_reload location,
       DriverCall.ib_cfg_log_debug3 "Loaded lua file \"%s\"",
       DriverCall.ib_operator_create_and_register (operator_name location),
       DriverCall.ib_operator_inst_create, DriverCall.ib_rule_set_operator,
       DriverCall.ib_cfg_log_error
         "Failed to associate lua operator \"%s\" with rule \"%s\": %s"])
  else
    (IB_OK,
      [DriverCall.ib_cfgparser_context_current, DriverCall.modlua_cfg_get,
       DriverCall.ib_lua_load_func location, DriverCall.modlua_record_reload location,
       DriverCall.ib_cfg_log_debug3 "Loaded lua file \"%s\"",
       DriverCall.ib_operator_create_and_register (operator_name location),
       DriverCall.ib_operator_inst_create, DriverCall.ib_rule_set_operator,
       DriverCall.ib_cfg_log_debug3 "Set operator \"%s\" for rule \"%s\""])

/-- The environment in which every call succeeds. -/
def DriverEnv.all_ok : DriverEnv :=
  { ib_cfgparser_context_current := IB_OK, modlua_cfg_get := IB_OK,
    ib_lua_load_func := IB_OK, modlua_record_reload := IB_OK,
    ib_operator_create_and_register := IB_OK, ib_operator_inst_create := IB_OK,
    ib_rule_set_operator := IB_OK }

/-- A field as `pm_operator_execute` sees it: its type, and its value for
the two string types. -/
inductive ib_field_t where
  | IB_FTYPE_NULSTR (value : List Nat)
  | IB_FTYPE_BYTESTR (value : List Nat)
  | other (type : Nat)
deriving DecidableEq, Repr

/-- What a call of `pm_operator_execute` leaves: the status returned, the
number at `*result` after the call, and the subjects given to
`ib_ac_consume`. -/
structure PmExecution where
  status : ib_status_t
  result : Int
  searched : List (List Nat)
deriving DecidableEq, Repr

/-- The search of `pm_operator_execute` on `subject[0 .. subject_len)` and
the mapping of its status.  `ib_ac_consume` gives the status of the search and
the match count of the context after it. -/
def pm_search (ib_ac_consume : List Nat → ib_status_t × Nat) (subject : List Nat)
    (subject_len : Nat) (result : Int) : PmExecution :=
  let rc := (ib_ac_consume (subject.take subject_len)).1
  let match_cnt := (ib_ac_consume (subject.take subject_len)).2
  if rc = IB_ENOENT then
    { status := IB_OK, result := 0, searched := [subject.take subject_len] }
  else if rc = IB_OK then
    { status := IB_OK, result := if match_cnt > 0 then 1 else 0
      searched := [subject.take subject_len] }
  else
    { status := rc, result := result, searched := [subject.take subject_len] }

/-- `pm_operator_execute(ib, tx, data, field, result)`; `result` is the
number at `*result` before the call. -/
def pm_operator_execute (ib_ac_consume : List Nat → ib_status_t × Nat) (field : ib_field_t)
    (result : Int) : PmExecution :=
  match field with
  | ib_field_t.IB_FTYPE_NULSTR subject =>
    pm_search ib_ac_consume subject (strlen subject) result
  | ib_field_t.IB_FTYPE_BYTESTR bytestr =>
    pm_search ib_ac_consume bytestr bytestr.length result
  | ib_field_t.other _ =>
    { status := IB_EALLOC, result := result, searched := [] }

/-- The bytes `pm_operator_execute` searches for a field: a C string up to
its first NUL, a byte string in full, nothing for the other types. -/
def pm_subject : ib_field_t → Option (List Nat)
  | ib_field_t.IB_FTYPE_NULSTR subject => some (subject.take (strlen subject))
  | ib_field_t.IB_FTYPE_BYTESTR bytestr => some bytestr
  | ib_field_t.other _ => none

/-- A search that reports `rc` and `match_cnt` for every subject. -/
def constant_search (rc : ib_status_t) (match_cnt : Nat) : List Nat → ib_status_t × Nat :=
  fun _ => (rc, match_cnt)

end Modules

namespace CLIPP

/-- The worker counts in `m_num_workers_available`: it has marked itself
idle and has not taken work since (a worker that has exited on shutdown never
took its mark back). -/
def FunctionWorkerPool.idle_counted {WorkType : Type} : WorkerState WorkType → Bool
  | WorkerState.idle_signal => true
  | WorkerState.work_check => true
  | WorkerState.work_wait => true
  | WorkerState.work_woken => true
  | WorkerState.exited => true
  | _ => false

/-- Number of values of a `size_t` (64 bits). -/
def size_t_range : Nat := 18446744073709551616

/-- Bookkeeping of a pool: as many threads as `m_num_workers`, fewer than
2^64, and an idle count equal to the number of workers that count as idle. -/
def FunctionWorkerPool.bookkeeping {WorkType σ : Type} (s : FunctionWorkerPool WorkType σ) :
    Prop :=
  s.workers.length = s.m_num_workers ∧ s.m_num_workers < size_t_range ∧
    s.m_num_workers_available = s.workers.countP FunctionWorkerPool.idle_counted

/-- A pool of one worker whose worker has accepted the rejected sample input
and is about to run the task on it: the state that the first eight steps of
`one_submission` reach from the fresh pool. -/
def pool_before_bad_task : FunctionWorkerPool input_p World :=
  { m_num_workers := 1
    m_num_workers_available := 0
    m_work_available := false
    m_shutdown := false
    m_work := some sample_bad_input
    barrier_waiting := none
    workers := [WorkerState.run (some sample_bad_input)]
    submitters := [SubmitterState.returned (some sample_bad_input)]
    shutdown := ShutdownState.not_called
    env := World.fresh }

/-- After the task: `shutdown()` is called and tests the idle count. -/
def shutdown_after_task : List (PoolAction input_p) :=
  [PoolAction.call_shutdown, PoolAction.shutdown]

/-- The task function of Scenario A: the item is appended to the log. -/
def scenario_A_task (item : Nat) (log : List Nat) : Option Error × List Nat :=
  (none, log ++ [item])

/-- Scenario A with two calling threads.  Both workers mark themselves idle
and wait for work; both callers enter `operator()`; the first publishes 1 and
wakes worker 0; the second gets the mutex before worker 0, finds the idle
count still 2, publishes 2 over 1 and wakes worker 1; the two callers meet
each other at the barrier and return; worker 0 copies 2; worker 1 finds no
work and waits again; worker 0 enters the barrier; `shutdown()` is called and
tests the idle count. -/
def scenario_A_overwrite : List (PoolAction Nat) :=
  [ PoolAction.worker 0 none, PoolAction.worker 0 none, PoolAction.worker 0 none,
    PoolAction.worker 1 none, PoolAction.worker 1 none, PoolAction.worker 1 none,
    PoolAction.submit 1,
    PoolAction.submit 2,
    PoolAction.submitter 0 (some 0),
    PoolAction.submitter 1 (some 1),
    PoolAction.submitter 0 none,
    PoolAction.submitter 1 none,
    PoolAction.worker 0 none,
    PoolAction.worker 1 none,
    PoolAction.worker 0 none,
    PoolAction.call_shutdown,
    PoolAction.shutdown ]

/-- One worker and two calling threads: the worker waits for work; the first
caller publishes 1 and wakes the worker; the second caller gets the mutex
first, finds the idle count still 1 and publishes 2. -/
def two_callers_publish : List (PoolAction Nat) :=
  [ PoolAction.worker 0 none, PoolAction.worker 0 none, PoolAction.worker 0 none,
    PoolAction.submit 1,
    PoolAction.submit 2,
    PoolAction.submitter 0 (some 0),
    PoolAction.submitter 1 none ]

/-- The two callers then meet each other at the barrier. -/
def two_callers_meet : List (PoolAction Nat) :=
  [ PoolAction.submitter 0 none,
    PoolAction.submitter 1 none ]

/-- One worker and three calling threads: all three publish before the
worker has the mutex; callers 0 and 1 meet each other at the barrier; the
worker copies the slot (item 3), meets caller 2 at the barrier, runs the task
and becomes idle again. -/
def three_callers_one_accepted : List (PoolAction Nat) :=
  [ PoolAction.worker 0 none, PoolAction.worker 0 none, PoolAction.worker 0 none,
    PoolAction.submit 1,
    PoolAction.submit 2,
    PoolAction.submit 3,
    PoolAction.submitter 0 (some 0),
    PoolAction.submitter 1 none,
    PoolAction.submitter 2 none,
    PoolAction.submitter 0 none,
    PoolAction.submitter 1 none,
    PoolAction.submitter 2 none,
    PoolAction.worker 0 none,
    PoolAction.worker 0 none,
    PoolAction.worker 0 none,
    PoolAction.worker 0 none,
    PoolAction.worker 0 none,
    PoolAction.worker 0 none ]

/-- A call of `shutdown()` that finds the single worker waiting for work:
the test passes, the flag is set, the worker is woken and returns, the join
ends. -/
def shutdown_one_worker : List (PoolAction Nat) :=
  [ PoolAction.call_shutdown,
    PoolAction.shutdown,
    PoolAction.shutdown,
    PoolAction.shutdown,
    PoolAction.worker 0 none,
    PoolAction.shutdown ]

/-- The item of a call of `operator()(work)`. -/
def SubmitterState.work {WorkType : Type} : SubmitterState WorkType → WorkType
  | SubmitterState.publish_check work => work
  | SubmitterState.publish_wait work => work
  | SubmitterState.accept work => work
  | SubmitterState.accept_wait work => work
  | SubmitterState.returned work => work

/-- The item a worker has copied and holds before it has passed the
barrier. -/
def FunctionWorkerPool.held_work {WorkType : Type} : WorkerState WorkType → Option WorkType
  | WorkerState.accept local_work => some local_work
  | WorkerState.accept_wait local_work => some local_work
  | _ => none

/-- The worker holds a copy of an item and has not yet passed the barrier. -/
def FunctionWorkerPool.holds_work {WorkType : Type} (ws : WorkerState WorkType) : Bool :=
  (FunctionWorkerPool.held_work ws).isSome

/-- The call has published its item and has not yet passed the barrier. -/
def FunctionWorkerPool.published {WorkType : Type} : SubmitterState WorkType → Bool
  | SubmitterState.accept _ => true
  | SubmitterState.accept_wait _ => true
  | _ => false

/-- The call of `operator()` has not returned yet. -/
def FunctionWorkerPool.in_call {WorkType : Type} : SubmitterState WorkType → Bool
  | SubmitterState.returned _ => false
  | _ => true

/-- One step of a pool that is called from one thread: a call of
`operator()` starts only when the earlier calls have returned.  The threads
of the pool and the thread in `shutdown()` step as they do in `step`. -/
def FunctionWorkerPool.step_one_caller {WorkType σ : Type}
    (m_work_function : WorkType → σ → Option Error × σ)
    (s : FunctionWorkerPool WorkType σ) (a : PoolAction WorkType) :
    Option (FunctionWorkerPool WorkType σ) :=
  match a with
  | PoolAction.submit work =>
    if s.submitters.countP FunctionWorkerPool.in_call = 0 then
      s.step m_work_function (PoolAction.submit work)
    else none
  | other => s.step m_work_function other

/-- A sequence of steps of a pool that is called from one thread. -/
def FunctionWorkerPool.run_one_caller {WorkType σ : Type}
    (m_work_function : WorkType → σ → Option Error × σ) :
    FunctionWorkerPool WorkType σ → List (PoolAction WorkType) →
    Option (FunctionWorkerPool WorkType σ)
  | s, [] => some s
  | s, a :: rest =>
    match s.step_one_caller m_work_function a with
    | none => none
    | some s1 => FunctionWorkerPool.run_one_caller m_work_function s1 rest

/-- The hand-off of a pool called from one thread: at most one call is in
progress; the item it has published is in the slot or with one worker that has
not passed the barrier, and nothing else is; the thread named as waiting in
the barrier is waiting there; and the slot and that worker hold the very item
of the call. -/
def FunctionWorkerPool.handoff {WorkType σ : Type} (s : FunctionWorkerPool WorkType σ) :
    Prop :=
  s.submitters.countP FunctionWorkerPool.in_call ≤ 1 ∧
  (if s.m_work_available = true then 1 else 0)
      + s.workers.countP FunctionWorkerPool.holds_work
    = s.submitters.countP FunctionWorkerPool.published ∧
  (∀ i, s.barrier_waiting = some (ThreadId.worker i) →
    ∃ lw, s.workers.get? i = some (WorkerState.accept_wait lw)) ∧
  (∀ j, s.barrier_waiting = some (ThreadId.submitter j) →
    ∃ w, s.submitters.get? j = some (SubmitterState.accept_wait w)) ∧
  (∀ st ∈ s.submitters, FunctionWorkerPool.published st = true →
    (s.m_work_available = true → s.m_work = st.work) ∧
    (∀ ws ∈ s.workers, ∀ lw, FunctionWorkerPool.held_work ws = some lw → lw = st.work))

/-- In the step from `s` to `s1` a call returns only together with a worker
that had copied the item of that call: the worker held the item before the
step and goes on to run the task on it after the step. -/
def FunctionWorkerPool.returns_with_worker {WorkType σ : Type}
    (s s1 : FunctionWorkerPool WorkType σ) : Prop :=
  ∀ j st w, s.submitters.get? j = some st → FunctionWorkerPool.in_call st = true →
    s1.submitters.get? j = some (SubmitterState.returned w) →
    st.work = w ∧
    ∃ i, (s.workers.get? i = some (WorkerState.accept w) ∨
        s.workers.get? i = some (WorkerState.accept_wait w)) ∧
      s1.workers.get? i = some (WorkerState.run w)

/-- The worker carries item `x`: it has copied it and the task has not ended
on it. -/
def FunctionWorkerPool.carries (x : Nat) : WorkerState Nat → Bool
  | WorkerState.accept local_work => local_work == x
  | WorkerState.accept_wait local_work => local_work == x
  | WorkerState.run local_work => local_work == x
  | _ => false

/-- The call has item `x` and has not published it yet. -/
def FunctionWorkerPool.awaits (x : Nat) : SubmitterState Nat → Bool
  | SubmitterState.publish_check work => work == x
  | SubmitterState.publish_wait work => work == x
  | _ => false

/-- The call was made with item `x`. -/
def FunctionWorkerPool.submitted (x : Nat) (st : SubmitterState Nat) : Bool :=
  st.work == x

/-- In how many places item `x` is in a pool whose task appends to the log:
in the log, with a worker, in the slot, with a call that has not published. -/
def FunctionWorkerPool.occurrences (s : FunctionWorkerPool Nat (List Nat)) (x : Nat) : Nat :=
  s.env.count x + s.workers.countP (FunctionWorkerPool.carries x)
    + (if s.m_work_available = true ∧ s.m_work = x then 1 else 0)
    + s.submitters.countP (FunctionWorkerPool.awaits x)

/-- Item `x` is in as many places as calls were made with it. -/
def FunctionWorkerPool.balance (s : FunctionWorkerPool Nat (List Nat)) (x : Nat) : Prop :=
  s.occurrences x = s.submitters.countP (FunctionWorkerPool.submitted x)

/-- Scenario A with one calling thread: both workers wait for work; the
caller submits 1, which worker 0 accepts; after that call has returned the
caller submits 2, which worker 1 accepts; both tasks run; both workers become
idle again; `shutdown()` is called, finds both idle, sets the flag, wakes
them and joins them. -/
def scenario_A_sequential : List (PoolAction Nat) :=
  [ PoolAction.worker 0 none, PoolAction.worker 0 none, PoolAction.worker 0 none,
    PoolAction.worker 1 none, PoolAction.worker 1 none, PoolAction.worker 1 none,
    PoolAction.submit 1,
    PoolAction.submitter 0 (some 0),
    PoolAction.submitter 0 none,
    PoolAction.worker 0 none,
    PoolAction.worker 0 none,
    PoolAction.submit 2,
    PoolAction.submitter 1 (some 1),
    PoolAction.worker 1 none,
    PoolAction.worker 1 none,
    PoolAction.submitter 1 none,
    PoolAction.worker 0 none,
    PoolAction.worker 1 none,
    PoolAction.worker 0 none, PoolAction.worker 0 none, PoolAction.worker 0 none,
    PoolAction.worker 1 none, PoolAction.worker 1 none, PoolAction.worker 1 none,
    PoolAction.call_shutdown,
    PoolAction.shutdown,
    PoolAction.shutdown,
    PoolAction.shutdown,
    PoolAction.worker 0 none,
    PoolAction.worker 1 none,
    PoolAction.shutdown ]

/-- The action is the start of a call of `operator()`. -/
def PoolAction.is_submit {WorkType : Type} : PoolAction WorkType → Bool
  | PoolAction.submit _ => true
  | _ => false

/-- Nothing is in flight: no call is in progress, the slot is empty and
every worker counts as idle. -/
def FunctionWorkerPool.quiescent {WorkType σ : Type} (s : FunctionWorkerPool WorkType σ) :
    Prop :=
  s.submitters.countP FunctionWorkerPool.in_call = 0 ∧
  s.m_work_available = false ∧
  ∀ ws ∈ s.workers, FunctionWorkerPool.idle_counted ws = true

/-- Scenario A with one calling thread at the all-idle test of `shutdown()`:
the state that the first 25 steps of `scenario_A_sequential` reach. -/
def pool_at_shutdown_test : FunctionWorkerPool Nat (List Nat) :=
  { m_num_workers := 2
    m_num_workers_available := 2
    m_work_available := false
    m_shutdown := false
    m_work := 2
    barrier_waiting := none
    workers := [WorkerState.work_wait, WorkerState.work_wait]
    submitters := [SubmitterState.returned 1, SubmitterState.returned 2]
    shutdown := ShutdownState.idle_check
    env := [1, 2] }

/-- The state after the all-idle test has passed. -/
def pool_after_shutdown_test : FunctionWorkerPool Nat (List Nat) :=
  { pool_at_shutdown_test with shutdown := ShutdownState.set_flag }

/-- A call of `shutdown()` that overtakes a worker: the single worker has
marked itself idle and signalled, but has not yet tested for work; the
all-idle test passes, the flag is set and `notify_all` finds nobody waiting;
then the worker finds no work and starts to wait. -/
def shutdown_overtakes_worker : List (PoolAction Nat) :=
  [ PoolAction.worker 0 none,
    PoolAction.worker 0 none,
    PoolAction.call_shutdown,
    PoolAction.shutdown,
    PoolAction.shutdown,
    PoolAction.shutdown,
    PoolAction.worker 0 none ]

/-- During the dispatch of `inp` by the modifier from world `w` the engine
fires no action instance: none is fired for any of the notifications that the
dispatch adds to the trace. -/
def IronBeeModifier.fires_nothing (m : IronBeeModifier) (inp : Input) (w : World) : Prop :=
  fired_during m.engine w.trace ((m.dispatched inp w).world.trace.drop w.trace.length) = []

/-- The engine with one rule: it fires the action Break on every
request_started notification, fires nothing on the others and returns
success. -/
def Engine.break_on_request : Engine :=
  { reply := fun _ n =>
      match n with
      | Notification.request_started _ _ => { fired := [action_e.ACTION_BREAK], status := none }
      | _ => { fired := [], status := none } }

/-- Sample input with a request: the connection is opened, a request starts,
the connection is closed. -/
def sample_request_input : Input :=
  { connection := [Event.connection_opened sample_connection_event,
                   Event.request_started sample_request_event,
                   Event.connection_closed {}] }

/-- The world after the modifier with the given default, on the engine with
the Break rule, has handled the sample input with a request from the fresh
world; that call ended with clipp_break. -/
def world_after_break (behavior : behavior_e) : World :=
  (IronBeeModifier.call { behavior := behavior, engine := Engine.break_on_request }
    (some sample_request_input) World.fresh).world

/-! ## Basic facts -/

/-- A step of the pool is a step of a thread of a process that has not been
ended. -/
theorem thread_step_of_step {WorkType σ : Type} (f : WorkType → σ → Option Error × σ)
    (s s1 : FunctionWorkerPool WorkType σ) (a : PoolAction WorkType)
    (h : s.step f a = some s1) : s.aborted = false ∧ s.thread_step f a = some s1 := by
  unfold FunctionWorkerPool.step at h
  split at h
  · simp at h
  · rename_i hn
    exact ⟨by simpa using hn, h⟩


theorem create_alias_buffer (b : Buffer) :
    ByteString.create_alias b.data b.length = b.data := by
  simp [ByteString.create_alias, Buffer.length]

theorem adapt_header_eq (h : header_t) :
    adapt_header h = { name := h.1.data, value := h.2.data } := by
  simp [adapt_header, ParsedHeader.create, create_alias_buffer]

theorem notify_trace (engine : Engine) (n : Notification) (w : World) :
    (notify engine n w).2.trace = w.trace ++ [n] := rfl

theorem notify_accepts (engine : Engine) (h : engine.accepts) (n : Notification)
    (w : World) : (notify engine n w).1 = none := by
  simp [notify, h w.trace n]

/-- C1. Scenario B dispatched into a fresh delegate on an engine that accepts
every notification: no error, exactly the ten notifications in order, and no
live connection or transaction afterwards (both handles singular, both
objects destroyed). -/
theorem scenario_B_dispatch (engine : Engine) (hE : engine.accepts) (w : World)
    (co : ConnectionEvent) (rq : RequestEvent) (h1 : header_t) (rs : ResponseEvent) :
    (dispatch (scenario_B co rq h1 rs) (IronBeeDelegate.new engine) w).thrown = none ∧
    (dispatch (scenario_B co rq h1 rs) (IronBeeDelegate.new engine) w).world.trace
      = w.trace ++ scenario_B_notifications w co rq h1 rs ∧
    (scenario_B_notifications w co rq h1 rs).length = 10 ∧
    (dispatch (scenario_B co rq h1 rs) (IronBeeDelegate.new engine) w).delegate.m_connection
      = none ∧
    (dispatch (scenario_B co rq h1 rs) (IronBeeDelegate.new engine) w).delegate.m_transaction
      = none ∧
    (dispatch (scenario_B co rq h1 rs) (IronBeeDelegate.new engine) w).world.conn_destroyed
      = w.conn_destroyed ++ [w.conn_created] ∧
    (dispatch (scenario_B co rq h1 rs) (IronBeeDelegate.new engine) w).world.tx_destroyed
      = w.tx_destroyed ++ [w.tx_created] := by
  have hs : ∀ t n, (engine.reply t n).status = none := hE
  simp [scenario_B, dispatch, Event.dispatch, IronBeeDelegate.new,
    IronBeeDelegate.connection_opened, IronBeeDelegate.connection_closed,
    IronBeeDelegate.request_started, IronBeeDelegate.request_header,
    IronBeeDelegate.request_header_finished, IronBeeDelegate.request_body,
    IronBeeDelegate.request_finished, IronBeeDelegate.response_started,
    IronBeeDelegate.response_header_finished, IronBeeDelegate.response_body,
    IronBeeDelegate.response_finished, notify, hs, Connection.create,
    Connection.destroy, Transaction.create, Transaction.destroy,
    Connection.set_local_ip_string, Connection.set_local_port,
    Connection.set_remote_ip_string, Connection.set_remote_port,
    ParsedRequestLine.create_alias, ParsedResponseLine.create_alias,
    adapt_header_eq, create_alias_buffer, Buffer.length, ByteString.create_alias,
    scenario_B_notifications, opened_connection, scenario_B_transaction]

theorem quiet_accepts : Engine.quiet.accepts := fun _ _ => rfl

/-- Witness for C1: Scenario B on the quiet engine in a fresh world. -/
theorem scenario_B_dispatch_witness :
    Engine.quiet.accepts ∧
    ((dispatch (scenario_B sample_connection_event sample_request_event sample_header
        sample_response_event) (IronBeeDelegate.new Engine.quiet) World.fresh).thrown = none ∧
    (dispatch (scenario_B sample_connection_event sample_request_event sample_header
        sample_response_event) (IronBeeDelegate.new Engine.quiet) World.fresh).world.trace
      = World.fresh.trace ++ scenario_B_notifications World.fresh sample_connection_event
          sample_request_event sample_header sample_response_event ∧
    (scenario_B_notifications World.fresh sample_connection_event
          sample_request_event sample_header sample_response_event).length = 10 ∧
    (dispatch (scenario_B sample_connection_event sample_request_event sample_header
        sample_response_event) (IronBeeDelegate.new Engine.quiet)
        World.fresh).delegate.m_connection = none ∧
    (dispatch (scenario_B sample_connection_event sample_request_event sample_header
        sample_response_event) (IronBeeDelegate.new Engine.quiet)
        World.fresh).delegate.m_transaction = none ∧
    (dispatch (scenario_B sample_connection_event sample_request_event sample_header
        sample_response_event) (IronBeeDelegate.new Engine.quiet)
        World.fresh).world.conn_destroyed
      = World.fresh.conn_destroyed ++ [World.fresh.conn_created] ∧
    (dispatch (scenario_B sample_connection_event sample_request_event sample_header
        sample_response_event) (IronBeeDelegate.new Engine.quiet)
        World.fresh).world.tx_destroyed
      = World.fresh.tx_destroyed ++ [World.fresh.tx_created]) :=
  ⟨fun _ _ => rfl,
   scenario_B_dispatch Engine.quiet (fun _ _ => rfl) World.fresh sample_connection_event
     sample_request_event sample_header sample_response_event⟩

theorem forwarded_cons (ev : Event) (evs : List Event) :
    forwarded (ev :: evs) = forwarded [ev] ++ forwarded evs := by
  simp [forwarded, List.filter_cons]
  split <;> simp

theorem request_body_trace (d : IronBeeDelegate) (e : DataEvent) (w : World)
    (h : (d.request_body e w).thrown = none) :
    (d.request_body e w).world.trace = w.trace ++
      (match d.m_transaction with
        | some tx => if e.data.length = 0 then [] else [Notification.request_body_data tx e.data.data]
        | none => []) := by
  obtain ⟨E, mc, mt⟩ := d
  cases mt with
  | none => simp [IronBeeDelegate.request_body] at h
  | some tx =>
    by_cases hz : e.data.length = 0
    · simp [IronBeeDelegate.request_body, hz]
    · simp [IronBeeDelegate.request_body, hz, notify, create_alias_buffer]

theorem response_body_trace (d : IronBeeDelegate) (e : DataEvent) (w : World)
    (h : (d.response_body e w).thrown = none) :
    (d.response_body e w).world.trace = w.trace ++
      (match d.m_transaction with
        | some tx => if e.data.length = 0 then [] else [Notification.response_body_data tx e.data.data]
        | none => []) := by
  obtain ⟨E, mc, mt⟩ := d
  cases mt with
  | none => simp [IronBeeDelegate.response_body] at h
  | some tx =>
    by_cases hz : e.data.length = 0
    · simp [IronBeeDelegate.response_body, hz]
    · simp [IronBeeDelegate.response_body, hz, notify, create_alias_buffer]

/-- One event that is handled without error sends the notifications the
specification assigns to it. -/
theorem event_dispatch_trace (ev : Event) (d : IronBeeDelegate) (w : World)
    (h : (ev.dispatch d w).thrown = none) :
    ∃ sent, (ev.dispatch d w).world.trace = w.trace ++ sent ∧
      sent.map (fun n => some n.kind) = (forwarded [ev]).map Event.notification_kind ∧
      sent.map Notification.header_pairs = (forwarded [ev]).map Event.header_pairs := by
  cases ev with
  | request_body e =>
    refine ⟨_, request_body_trace d e w h, ?_⟩
    obtain ⟨E, mc, mt⟩ := d
    cases mt with
    | none => simp [Event.dispatch, IronBeeDelegate.request_body] at h
    | some tx =>
      by_cases hz : e.data.length = 0 <;>
        simp [hz, forwarded, Event.zero_length_body, Event.notification_kind,
          Event.header_pairs, Notification.kind, Notification.header_pairs]
  | response_body e =>
    refine ⟨_, response_body_trace d e w h, ?_⟩
    obtain ⟨E, mc, mt⟩ := d
    cases mt with
    | none => simp [Event.dispatch, IronBeeDelegate.response_body] at h
    | some tx =>
      by_cases hz : e.data.length = 0 <;>
        simp [hz, forwarded, Event.zero_length_body, Event.notification_kind,
          Event.header_pairs, Notification.kind, Notification.header_pairs]
  | _ =>
    obtain ⟨E, mc, mt⟩ := d
    cases mc <;> cases mt <;>
    simp [Event.dispatch, IronBeeDelegate.connection_opened,
      IronBeeDelegate.connection_closed, IronBeeDelegate.connection_data_in,
      IronBeeDelegate.connection_data_out,
      IronBeeDelegate.request_started, IronBeeDelegate.request_header,
      IronBeeDelegate.request_header_finished,
      IronBeeDelegate.request_finished, IronBeeDelegate.response_started,
      IronBeeDelegate.response_header,
      IronBeeDelegate.response_header_finished,
      IronBeeDelegate.response_finished, notify, forwarded, Event.zero_length_body,
      Event.notification_kind, Event.header_pairs, Connection.create, Connection.destroy,
      Transaction.create, Transaction.destroy, Notification.kind,
      Notification.header_pairs, adapt_header_eq] at h ⊢
    all_goals first
      | done
      | (cases hst : (E.reply _ _).status <;>
          simp_all [Notification.kind, Notification.header_pairs])

/-- A dispatch that ends without error sends, in order, the notifications the
specification assigns to the forwarded events. -/
theorem dispatch_trace (evs : List Event) (d : IronBeeDelegate) (w : World)
    (h : (dispatch evs d w).thrown = none) :
    ∃ sent, (dispatch evs d w).world.trace = w.trace ++ sent ∧
      sent.map (fun n => some n.kind) = (forwarded evs).map Event.notification_kind ∧
      sent.map Notification.header_pairs = (forwarded evs).map Event.header_pairs := by
  induction evs generalizing d w with
  | nil => exact ⟨[], by simp [dispatch], by simp [forwarded], by simp [forwarded]⟩
  | cons ev rest ih =>
    rw [forwarded_cons]
    cases hs : (ev.dispatch d w).thrown with
    | some e => simp [dispatch, hs] at h
    | none =>
      have hd : dispatch (ev :: rest) d w
          = dispatch rest (ev.dispatch d w).delegate (ev.dispatch d w).world := by
        simp [dispatch, hs]
      rw [hd] at h ⊢
      obtain ⟨s1, h1, k1, p1⟩ := event_dispatch_trace ev d w hs
      obtain ⟨s2, h2, k2, p2⟩ := ih _ _ h
      refine ⟨s1 ++ s2, ?_, ?_, ?_⟩
      · rw [h2, h1, List.append_assoc]
      · rw [List.map_append, List.map_append, k1, k2]
      · rw [List.map_append, List.map_append, p1, p2]

/-- C2. When dispatch into a fresh delegate ends without error, the
notifications sent are, in order, one per event other than the zero-length
bodies, each of the kind of its event, and every header notification carries
the name/value pairs of its event in the same order. -/
theorem dispatch_preserves_order (engine : Engine) (evs : List Event) (w : World)
    (h : (dispatch evs (IronBeeDelegate.new engine) w).thrown = none) :
    ∃ sent, (dispatch evs (IronBeeDelegate.new engine) w).world.trace = w.trace ++ sent ∧
      sent.map (fun n => some n.kind) = (forwarded evs).map Event.notification_kind ∧
      sent.map Notification.header_pairs = (forwarded evs).map Event.header_pairs :=
  dispatch_trace evs (IronBeeDelegate.new engine) w h

/-- Witness for C2: a short exchange with an empty request body. -/
theorem dispatch_preserves_order_witness :
    (dispatch [Event.connection_opened sample_connection_event,
        Event.request_started sample_request_event,
        Event.request_header { headers := [sample_header, sample_header] },
        Event.request_body { data := { data := [] } },
        Event.response_body { data := { data := [79, 75] } },
        Event.response_finished {},
        Event.connection_closed {}]
      (IronBeeDelegate.new Engine.quiet) World.fresh).thrown = none ∧
    ∃ sent, (dispatch [Event.connection_opened sample_connection_event,
        Event.request_started sample_request_event,
        Event.request_header { headers := [sample_header, sample_header] },
        Event.request_body { data := { data := [] } },
        Event.response_body { data := { data := [79, 75] } },
        Event.response_finished {},
        Event.connection_closed {}]
      (IronBeeDelegate.new Engine.quiet) World.fresh).world.trace = World.fresh.trace ++ sent ∧
      sent.map (fun n => some n.kind) =
        (forwarded [Event.connection_opened sample_connection_event,
          Event.request_started sample_request_event,
          Event.request_header { headers := [sample_header, sample_header] },
          Event.request_body { data := { data := [] } },
          Event.response_body { data := { data := [79, 75] } },
          Event.response_finished {},
          Event.connection_closed {}]).map Event.notification_kind ∧
      sent.map Notification.header_pairs =
        (forwarded [Event.connection_opened sample_connection_event,
          Event.request_started sample_request_event,
          Event.request_header { headers := [sample_header, sample_header] },
          Event.request_body { data := { data := [] } },
          Event.response_body { data := { data := [79, 75] } },
          Event.response_finished {},
          Event.connection_closed {}]).map Event.header_pairs :=
  ⟨by decide, dispatch_preserves_order Engine.quiet _ World.fresh (by decide)⟩

/-- C3. With a live transaction, a request or response body event of length
0 sends nothing and changes nothing, and one of length greater than 0 sends
exactly one body-data notification carrying the payload. -/
theorem body_event_notification (d : IronBeeDelegate) (tx : Transaction)
    (event : DataEvent) (w : World) (h : d.m_transaction = some tx) :
    (event.data.length = 0 →
      d.request_body event w = { thrown := none, delegate := d, world := w } ∧
      d.response_body event w = { thrown := none, delegate := d, world := w }) ∧
    (0 < event.data.length →
      (d.request_body event w).world.trace
        = w.trace ++ [Notification.request_body_data tx event.data.data] ∧
      (d.request_body event w).delegate = d ∧
      (d.response_body event w).world.trace
        = w.trace ++ [Notification.response_body_data tx event.data.data] ∧
      (d.response_body event w).delegate = d) := by
  constructor
  · intro hz
    simp [IronBeeDelegate.request_body, IronBeeDelegate.response_body, h, hz]
  · intro hz
    have hz0 : ¬ event.data.length = 0 := by omega
    simp [IronBeeDelegate.request_body, IronBeeDelegate.response_body, h, hz0, notify,
      create_alias_buffer]

/-- Witness for C3: an empty body and the body "OK" on a live transaction. -/
theorem body_event_notification_witness :
    (sample_delegate (some sample_connection) (some sample_transaction)).m_transaction
      = some sample_transaction ∧
    ((sample_delegate (some sample_connection) (some sample_transaction)).request_body
        { data := { data := [] } } sample_world
      = { thrown := none
          delegate := sample_delegate (some sample_connection) (some sample_transaction)
          world := sample_world } ∧
     (sample_delegate (some sample_connection) (some sample_transaction)).response_body
        { data := { data := [] } } sample_world
      = { thrown := none
          delegate := sample_delegate (some sample_connection) (some sample_transaction)
          world := sample_world }) ∧
    (((sample_delegate (some sample_connection) (some sample_transaction)).request_body
        { data := { data := [79, 75] } } sample_world).world.trace
      = sample_world.trace ++ [Notification.request_body_data sample_transaction [79, 75]] ∧
     ((sample_delegate (some sample_connection) (some sample_transaction)).request_body
        { data := { data := [79, 75] } } sample_world).delegate
      = sample_delegate (some sample_connection) (some sample_transaction) ∧
     ((sample_delegate (some sample_connection) (some sample_transaction)).response_body
        { data := { data := [79, 75] } } sample_world).world.trace
      = sample_world.trace ++ [Notification.response_body_data sample_transaction [79, 75]] ∧
     ((sample_delegate (some sample_connection) (some sample_transaction)).response_body
        { data := { data := [79, 75] } } sample_world).delegate
      = sample_delegate (some sample_connection) (some sample_transaction)) :=
  ⟨rfl,
   (body_event_notification _ sample_transaction { data := { data := [] } } sample_world rfl).1
     (by decide),
   (body_event_notification _ sample_transaction { data := { data := [79, 75] } }
     sample_world rfl).2 (by decide)⟩

/-- C4. A transaction-scoped event handled while no transaction is live
throws a runtime_error, sends nothing to the engine and changes nothing. -/
theorem transaction_scoped_needs_transaction (ev : Event) (d : IronBeeDelegate) (w : World)
    (hs : ev.transaction_scoped = true) (hn : d.m_transaction = none) :
    (∃ what, (ev.dispatch d w).thrown = some (Error.runtime_error what)) ∧
    (ev.dispatch d w).world = w ∧
    (ev.dispatch d w).delegate = d := by
  cases ev <;> simp [Event.transaction_scoped] at hs <;>
    simp [Event.dispatch, IronBeeDelegate.request_header,
      IronBeeDelegate.request_header_finished, IronBeeDelegate.request_body,
      IronBeeDelegate.request_finished, IronBeeDelegate.response_started,
      IronBeeDelegate.response_header, IronBeeDelegate.response_header_finished,
      IronBeeDelegate.response_body, IronBeeDelegate.response_finished, hn]

/-- Witness for C4: a zero-length request body on a live connection without
a transaction. -/
theorem transaction_scoped_needs_transaction_witness :
    (Event.request_body { data := { data := [] } }).transaction_scoped = true ∧
    (sample_delegate (some sample_connection) none).m_transaction = none ∧
    ((∃ what, ((Event.request_body { data := { data := [] } }).dispatch
        (sample_delegate (some sample_connection) none) sample_world).thrown
        = some (Error.runtime_error what)) ∧
     ((Event.request_body { data := { data := [] } }).dispatch
        (sample_delegate (some sample_connection) none) sample_world).world = sample_world ∧
     ((Event.request_body { data := { data := [] } }).dispatch
        (sample_delegate (some sample_connection) none) sample_world).delegate
        = sample_delegate (some sample_connection) none) :=
  ⟨rfl, rfl,
   transaction_scoped_needs_transaction (Event.request_body { data := { data := [] } })
     (sample_delegate (some sample_connection) none) sample_world rfl rfl⟩

/-- C6. ConnectionDataIn and ConnectionDataOut always throw the
unsupported-operation runtime_error, whatever the state and the payload, send
nothing and leave the connection and the transaction as they were. -/
theorem connection_data_rejected (d : IronBeeDelegate) (event : DataEvent) (w : World) :
    d.connection_data_in event w
      = { thrown := some (Error.runtime_error
            "IronBee no longer supports connection data.  Use @parse.")
          delegate := d, world := w } ∧
    d.connection_data_out event w
      = { thrown := some (Error.runtime_error
            "IronBee no longer supports connection data.  Use @parse.")
          delegate := d, world := w } ∧
    (Event.dispatch (Event.connection_data_in event) d w).thrown
      = some (Error.runtime_error "IronBee no longer supports connection data.  Use @parse.") ∧
    (Event.dispatch (Event.connection_data_out event) d w).thrown
      = some (Error.runtime_error "IronBee no longer supports connection data.  Use @parse.") :=
  ⟨rfl, rfl, rfl, rfl⟩

/-- C8, evaluated on the code: `connection_opened` never touches the
transaction handle, so on the input that reopens the connection in the middle
of a transaction the following RequestHeader does not throw; it is forwarded
to the engine for transaction 0, whose connection 0 has been destroyed. -/
theorem connection_opened_keeps_transaction :
    (∀ (d : IronBeeDelegate) (event : ConnectionEvent) (w : World),
      (d.connection_opened event w).delegate.m_transaction = d.m_transaction) ∧
    (dispatch (reopened_input.take 3) (IronBeeDelegate.new Engine.quiet)
        World.fresh).delegate.m_transaction
      = some (started_transaction World.fresh
          (opened_connection World.fresh sample_connection_event)) ∧
    (dispatch reopened_input (IronBeeDelegate.new Engine.quiet) World.fresh).thrown = none ∧
    (dispatch reopened_input (IronBeeDelegate.new Engine.quiet) World.fresh).world.trace.getLast?
      = some (Notification.request_header_data
          (started_transaction World.fresh
            (opened_connection World.fresh sample_connection_event))
          [{ name := [65], value := [66, 67] }]) ∧
    (dispatch reopened_input (IronBeeDelegate.new Engine.quiet) World.fresh).world.conn_destroyed
      = [(opened_connection World.fresh sample_connection_event).id] := by
  refine ⟨?_, by decide, by decide, by decide, by decide⟩
  intro d event w
  rfl

/-- C9, evaluated on the code: `connection_closed` never touches the
transaction handle, so after the input that closes the connection in the
middle of a transaction the transaction handle is live while the connection
handle is singular, and a following RequestHeaderFinished is forwarded to the
engine for transaction 0, whose connection 0 has been destroyed. -/
theorem connection_closed_keeps_transaction :
    (dispatch closed_early_input (IronBeeDelegate.new Engine.quiet)
        World.fresh).thrown = none ∧
    (dispatch closed_early_input (IronBeeDelegate.new Engine.quiet)
        World.fresh).delegate.m_connection = none ∧
    (dispatch closed_early_input (IronBeeDelegate.new Engine.quiet)
        World.fresh).delegate.m_transaction
      = some (started_transaction World.fresh
          (opened_connection World.fresh sample_connection_event)) ∧
    (dispatch (closed_early_input ++ [Event.request_header_finished {}])
        (IronBeeDelegate.new Engine.quiet) World.fresh).thrown = none ∧
    (dispatch (closed_early_input ++ [Event.request_header_finished {}])
        (IronBeeDelegate.new Engine.quiet) World.fresh).world.trace.getLast?
      = some (Notification.request_header_finished
          (started_transaction World.fresh
            (opened_connection World.fresh sample_connection_event))) ∧
    (dispatch (closed_early_input ++ [Event.request_header_finished {}])
        (IronBeeDelegate.new Engine.quiet) World.fresh).world.conn_destroyed
      = [(opened_connection World.fresh sample_connection_event).id] := by
  decide

/-- C10. RequestStarted throws a runtime_error exactly when no connection is
live, and then changes nothing.  With a live connection it destroys the stale
transaction if there is one, creates a new transaction on the live connection,
sends exactly one request_started notification whose request-line view holds
the event's raw, method, uri and protocol bytes unchanged, and leaves the new
transaction as the one live transaction. -/
theorem request_started_lifecycle (d : IronBeeDelegate) (event : RequestEvent) (w : World) :
    ((∃ what, (d.request_started event w).thrown = some (Error.runtime_error what))
      ↔ d.m_connection = none) ∧
    (d.m_connection = none →
      (d.request_started event w).world = w ∧ (d.request_started event w).delegate = d) ∧
    (∀ c, d.m_connection = some c →
      (d.request_started event w).world.tx_destroyed
        = w.tx_destroyed ++ stale_ids d.m_transaction Transaction.id ∧
      (d.request_started event w).world.tx_created = w.tx_created + 1 ∧
      (d.request_started event w).delegate.m_transaction = some (started_transaction w c) ∧
      (d.request_started event w).delegate.m_connection = some c ∧
      (d.request_started event w).world.trace
        = w.trace ++ [Notification.request_started (started_transaction w c)
            (request_line_view event)] ∧
      (request_line_view event).raw = event.raw.data ∧
      (request_line_view event).method = event.method.data ∧
      (request_line_view event).uri = event.uri.data ∧
      (request_line_view event).protocol = event.protocol.data) := by
  obtain ⟨E, mc, mt⟩ := d
  cases mc with
  | none => simp [IronBeeDelegate.request_started]
  | some c =>
    have hth : ({ m_engine := E, m_connection := some c, m_transaction := mt } :
        IronBeeDelegate).request_started event w
        = { thrown := (E.reply w.trace
              (Notification.request_started (started_transaction w c)
                (request_line_view event))).status.map Error.ib_error
            delegate := { m_engine := E, m_connection := some c,
                          m_transaction := some (started_transaction w c) }
            world := (notify E (Notification.request_started (started_transaction w c)
                (request_line_view event))
              { w with tx_created := w.tx_created + 1
                       tx_destroyed := w.tx_destroyed ++ stale_ids mt Transaction.id }).2 } := by
      cases mt <;>
        simp [IronBeeDelegate.request_started, notify, Transaction.create,
          Transaction.destroy, ParsedRequestLine.create_alias, create_alias_buffer,
          started_transaction, request_line_view, stale_ids]
    rw [hth]
    refine ⟨?_, by simp, ?_⟩
    · cases (E.reply w.trace (Notification.request_started (started_transaction w c)
          (request_line_view event))).status <;> simp
    · intro c1 hc
      simp only [Option.some.injEq] at hc
      subst hc
      exact ⟨rfl, rfl, rfl, rfl, rfl, rfl, rfl, rfl, rfl⟩

/-- Witness for C10: a RequestStarted on the live sample connection while the
sample transaction is still live. -/
theorem request_started_lifecycle_witness :
    (sample_delegate (some sample_connection) (some sample_transaction)).m_connection
      = some sample_connection ∧
    ((sample_delegate (some sample_connection) (some sample_transaction)).request_started
        sample_request_event sample_world).world.tx_destroyed
      = sample_world.tx_destroyed ++ stale_ids (some sample_transaction) Transaction.id ∧
    ((sample_delegate (some sample_connection) (some sample_transaction)).request_started
        sample_request_event sample_world).delegate.m_transaction
      = some (started_transaction sample_world sample_connection) ∧
    ((sample_delegate (some sample_connection) (some sample_transaction)).request_started
        sample_request_event sample_world).world.trace
      = sample_world.trace ++ [Notification.request_started
          (started_transaction sample_world sample_connection)
          (request_line_view sample_request_event)] :=
  ⟨rfl,
   ((request_started_lifecycle
      (sample_delegate (some sample_connection) (some sample_transaction))
      sample_request_event sample_world).2.2 sample_connection rfl).1,
   ((request_started_lifecycle
      (sample_delegate (some sample_connection) (some sample_transaction))
      sample_request_event sample_world).2.2 sample_connection rfl).2.2.1,
   ((request_started_lifecycle
      (sample_delegate (some sample_connection) (some sample_transaction))
      sample_request_event sample_world).2.2 sample_connection rfl).2.2.2.2.1⟩

/-- Handling an event never changes the engine the delegate is bound to, and
on an engine that fires nothing it leaves the resolver as it was. -/
theorem event_silent_action (ev : Event) (d : IronBeeDelegate) (w : World) :
    (ev.dispatch d w).delegate.m_engine = d.m_engine ∧
    (d.m_engine.silent → (ev.dispatch d w).world.current_action = w.current_action) := by
  obtain ⟨E, mc, mt⟩ := d
  constructor
  · cases ev <;> cases mc <;> cases mt <;>
      simp [Event.dispatch, IronBeeDelegate.connection_opened,
        IronBeeDelegate.connection_closed, IronBeeDelegate.connection_data_in,
        IronBeeDelegate.connection_data_out, IronBeeDelegate.request_started,
        IronBeeDelegate.request_header,
        IronBeeDelegate.request_header_finished, IronBeeDelegate.request_body,
        IronBeeDelegate.request_finished, IronBeeDelegate.response_started,
        IronBeeDelegate.response_header, IronBeeDelegate.response_header_finished,
        IronBeeDelegate.response_body, IronBeeDelegate.response_finished] <;>
      (repeat' split) <;> rfl
  · intro hs
    have hf : ∀ t n, (E.reply t n).fired = [] := hs
    cases ev <;> cases mc <;> cases mt <;>
      simp [Event.dispatch, IronBeeDelegate.connection_opened,
        IronBeeDelegate.connection_closed, IronBeeDelegate.connection_data_in,
        IronBeeDelegate.connection_data_out, IronBeeDelegate.request_started,
        IronBeeDelegate.request_header,
        IronBeeDelegate.request_header_finished, IronBeeDelegate.request_body,
        IronBeeDelegate.request_finished, IronBeeDelegate.response_started,
        IronBeeDelegate.response_header, IronBeeDelegate.response_header_finished,
        IronBeeDelegate.response_body, IronBeeDelegate.response_finished, notify, hf,
        Connection.create, Connection.destroy, Transaction.create, Transaction.destroy] <;>
      (repeat' split) <;> rfl

/-- On an engine that fires nothing a dispatch leaves the resolver as it
was. -/
theorem dispatch_silent_action (evs : List Event) (d : IronBeeDelegate) (w : World)
    (hs : d.m_engine.silent) :
    (dispatch evs d w).world.current_action = w.current_action := by
  induction evs generalizing d w with
  | nil => simp [dispatch]
  | cons ev rest ih =>
    have h1 := event_silent_action ev d w
    cases hth : (ev.dispatch d w).thrown with
    | some e => simpa [dispatch, hth] using h1.2 hs
    | none =>
      have hd : dispatch (ev :: rest) d w
          = dispatch rest (ev.dispatch d w).delegate (ev.dispatch d w).world := by
        simp [dispatch, hth]
      rw [hd, ih _ _ (by rw [h1.1]; exact hs)]
      exact h1.2 hs

/-- C12. For a non-absent input whose dispatch completes, the modifier maps
the final value of the resolver: Allow returns true, Block returns false,
Break returns nothing and throws clipp_break, which is none of the ordinary
errors (runtime_error, logic_error, engine status). -/
theorem modifier_maps_action (m : IronBeeModifier) (inp : Input) (w : World)
    (h : (m.dispatched inp w).thrown = none) :
    ((m.dispatched inp w).world.current_action = action_e.ACTION_ALLOW →
      (m.call (some inp) w).outcome = Outcome.returned true) ∧
    ((m.dispatched inp w).world.current_action = action_e.ACTION_BLOCK →
      (m.call (some inp) w).outcome = Outcome.returned false) ∧
    ((m.dispatched inp w).world.current_action = action_e.ACTION_BREAK →
      (m.call (some inp) w).outcome = Outcome.thrown Error.clipp_break ∧
      ∀ b, (m.call (some inp) w).outcome ≠ Outcome.returned b) ∧
    (∀ what, Error.clipp_break ≠ Error.runtime_error what) ∧
    (∀ what, Error.clipp_break ≠ Error.logic_error what) ∧
    (∀ status, Error.clipp_break ≠ Error.ib_error status) := by
  refine ⟨?_, ?_, ?_, by simp, by simp, by simp⟩
  · intro ha
    simp [IronBeeModifier.call, h, ha]
  · intro ha
    simp [IronBeeModifier.call, h, ha]
  · intro ha
    simp [IronBeeModifier.call, h, ha]

/-- Witness for C12: the sample input on engines that fire Break and
Block. -/
theorem modifier_maps_action_witness :
    (IronBeeModifier.dispatched
        { behavior := behavior_e.ALLOW, engine := Engine.firing action_e.ACTION_BREAK }
        sample_input World.fresh).thrown = none ∧
    (IronBeeModifier.dispatched
        { behavior := behavior_e.ALLOW, engine := Engine.firing action_e.ACTION_BREAK }
        sample_input World.fresh).world.current_action = action_e.ACTION_BREAK ∧
    (IronBeeModifier.call
        { behavior := behavior_e.ALLOW, engine := Engine.firing action_e.ACTION_BREAK }
        (some sample_input) World.fresh).outcome = Outcome.thrown Error.clipp_break ∧
    (IronBeeModifier.dispatched
        { behavior := behavior_e.ALLOW, engine := Engine.firing action_e.ACTION_BLOCK }
        sample_input World.fresh).world.current_action = action_e.ACTION_BLOCK ∧
    (IronBeeModifier.call
        { behavior := behavior_e.ALLOW, engine := Engine.firing action_e.ACTION_BLOCK }
        (some sample_input) World.fresh).outcome = Outcome.returned false :=
  ⟨by decide, by decide,
   ((modifier_maps_action
      { behavior := behavior_e.ALLOW, engine := Engine.firing action_e.ACTION_BREAK }
      sample_input World.fresh (by decide)).2.2.1 (by decide)).1,
   by decide,
   (modifier_maps_action
      { behavior := behavior_e.ALLOW, engine := Engine.firing action_e.ACTION_BLOCK }
      sample_input World.fresh (by decide)).2.1 (by decide)⟩

/-- What the modifier returns when the engine fires nothing and the dispatch
completes: the configured behaviour decides. -/
theorem modifier_silent_outcome (m : IronBeeModifier) (inp : Input) (w : World)
    (hs : m.engine.silent) (h : (m.dispatched inp w).thrown = none) :
    (m.call (some inp) w).outcome
      = (match m.behavior with
         | behavior_e.ALLOW => Outcome.returned true
         | behavior_e.BLOCK => Outcome.returned false) := by
  have ha : (m.dispatched inp w).world.current_action = (m.reset w).current_action :=
    dispatch_silent_action inp.connection (IronBeeDelegate.new m.engine) (m.reset w) hs
  obtain ⟨b, E⟩ := m
  cases b <;> simp [IronBeeModifier.reset] at ha <;>
    simp [IronBeeModifier.call, h, ha]

/-- The modifier call does not depend on the value the resolver held before
the call. -/
theorem modifier_call_ignores_previous (m : IronBeeModifier) (input : input_p) (w : World)
    (a : action_e) (hin : input ≠ none) :
    m.call input { w with current_action := a } = m.call input w := by
  obtain ⟨b, E⟩ := m
  cases input with
  | none => exact absurd rfl hin
  | some inp =>
    cases b <;> simp [IronBeeModifier.call, IronBeeModifier.dispatched, IronBeeModifier.reset]

/-- C13 as stated fails: a driver configured with default Block, on an engine
that fires nothing and an input whose dispatch completes, does not return
accept. -/
theorem reset_to_allow_refuted :
    ¬ (∀ (m : IronBeeModifier) (inp : Input) (w : World),
        m.engine.silent → (m.dispatched inp w).thrown = none →
        (m.call (some inp) w).outcome = Outcome.returned true) := by
  intro hall
  have h := hall { behavior := behavior_e.BLOCK, engine := Engine.quiet } sample_input
    World.fresh (fun _ _ => rfl) (by decide)
  revert h
  decide

/-- C16. A tracker error is never swallowed: when the dispatch of an input
throws the tracker's runtime_error, the modifier and the consumer fail with
that same error and return neither accept nor reject, whatever the resolver
holds at that point. -/
theorem tracker_error_propagates (c : IronBeeConsumer) (inp : Input) (w : World)
    (what : String)
    (h : (c.modifier.dispatched inp w).thrown = some (Error.runtime_error what)) :
    (c.modifier.call (some inp) w).outcome = Outcome.thrown (Error.runtime_error what) ∧
    (c.call (some inp) w).outcome = Outcome.thrown (Error.runtime_error what) ∧
    (∀ b, (c.modifier.call (some inp) w).outcome ≠ Outcome.returned b) ∧
    (∀ b, (c.call (some inp) w).outcome ≠ Outcome.returned b) := by
  have hm : (c.modifier.call (some inp) w).outcome
      = Outcome.thrown (Error.runtime_error what) := by
    simp [IronBeeModifier.call, h]
  have hc : (c.call (some inp) w).outcome = Outcome.thrown (Error.runtime_error what) := by
    simp [IronBeeConsumer.call, hm]
  refine ⟨hm, hc, ?_, ?_⟩
  · intro b
    rw [hm]
    simp
  · intro b
    rw [hc]
    simp

/-- Witness for C16: an input whose first event makes the engine set Break
and whose second event is rejected by the tracker. -/
theorem tracker_error_propagates_witness :
    (IronBeeModifier.dispatched
        { behavior := behavior_e.ALLOW, engine := Engine.firing action_e.ACTION_BREAK }
        sample_bad_input World.fresh).thrown
      = some (Error.runtime_error "IronBee no longer supports connection data.  Use @parse.") ∧
    (IronBeeModifier.dispatched
        { behavior := behavior_e.ALLOW, engine := Engine.firing action_e.ACTION_BREAK }
        sample_bad_input World.fresh).world.current_action = action_e.ACTION_BREAK ∧
    (IronBeeModifier.call
        { behavior := behavior_e.ALLOW, engine := Engine.firing action_e.ACTION_BREAK }
        (some sample_bad_input) World.fresh).outcome
      = Outcome.thrown
          (Error.runtime_error "IronBee no longer supports connection data.  Use @parse.") ∧
    (IronBeeConsumer.call
        { modifier :=
            { behavior := behavior_e.ALLOW, engine := Engine.firing action_e.ACTION_BREAK } }
        (some sample_bad_input) World.fresh).outcome
      = Outcome.thrown
          (Error.runtime_error "IronBee no longer supports connection data.  Use @parse.") :=
  ⟨by decide, by decide,
   (tracker_error_propagates
      { modifier :=
          { behavior := behavior_e.ALLOW, engine := Engine.firing action_e.ACTION_BREAK } }
      sample_bad_input World.fresh _ (by decide)).1,
   (tracker_error_propagates
      { modifier :=
          { behavior := behavior_e.ALLOW, engine := Engine.firing action_e.ACTION_BREAK } }
      sample_bad_input World.fresh _ (by decide)).2.1⟩

/-- A handler sends at most one notification.  If it sends none it returns
or throws a runtime_error of its own; if it sends one, what it throws is the
status the engine returned for it. -/
theorem event_dispatch_sends (ev : Event) (d : IronBeeDelegate) (w : World) :
    ((ev.dispatch d w).world.trace = w.trace ∧
      ((ev.dispatch d w).thrown = none ∨
        ∃ what, (ev.dispatch d w).thrown = some (Error.runtime_error what))) ∨
    ∃ n, (ev.dispatch d w).world.trace = w.trace ++ [n] ∧
      (ev.dispatch d w).thrown = (d.m_engine.reply w.trace n).status.map Error.ib_error := by
  obtain ⟨E, mc, mt⟩ := d
  cases ev with
  | request_body e =>
    cases mt with
    | none => left; simp [Event.dispatch, IronBeeDelegate.request_body]
    | some tx =>
      by_cases hz : e.data.length = 0
      · left; simp [Event.dispatch, IronBeeDelegate.request_body, hz]
      · right; simp [Event.dispatch, IronBeeDelegate.request_body, hz, notify]
  | response_body e =>
    cases mt with
    | none => left; simp [Event.dispatch, IronBeeDelegate.response_body]
    | some tx =>
      by_cases hz : e.data.length = 0
      · left; simp [Event.dispatch, IronBeeDelegate.response_body, hz]
      · right; simp [Event.dispatch, IronBeeDelegate.response_body, hz, notify]
  | connection_closed e =>
    cases mc with
    | none => left; simp [Event.dispatch, IronBeeDelegate.connection_closed]
    | some c =>
      right
      refine ⟨Notification.connection_closed c, ?_⟩
      cases hst : (E.reply w.trace (Notification.connection_closed c)).status <;>
        simp [Event.dispatch, IronBeeDelegate.connection_closed, notify, hst,
          Connection.destroy]
  | response_finished e =>
    cases mt with
    | none => left; simp [Event.dispatch, IronBeeDelegate.response_finished]
    | some tx =>
      right
      refine ⟨Notification.response_finished tx, ?_⟩
      cases hst : (E.reply w.trace (Notification.response_finished tx)).status <;>
        simp [Event.dispatch, IronBeeDelegate.response_finished, notify, hst,
          Transaction.destroy]
  | connection_opened e =>
    right
    cases mc <;>
      simp [Event.dispatch, IronBeeDelegate.connection_opened, notify, Connection.create,
        Connection.destroy]
  | request_started e =>
    cases mc with
    | none => left; simp [Event.dispatch, IronBeeDelegate.request_started]
    | some c =>
      right
      cases mt <;>
        simp [Event.dispatch, IronBeeDelegate.request_started, notify, Transaction.create,
          Transaction.destroy]
  | connection_data_in e => left; simp [Event.dispatch, IronBeeDelegate.connection_data_in]
  | connection_data_out e => left; simp [Event.dispatch, IronBeeDelegate.connection_data_out]
  | request_header e =>
    cases mt with
    | none => left; simp [Event.dispatch, IronBeeDelegate.request_header]
    | some tx => right; simp [Event.dispatch, IronBeeDelegate.request_header, notify]
  | request_header_finished e =>
    cases mt with
    | none => left; simp [Event.dispatch, IronBeeDelegate.request_header_finished]
    | some tx => right; simp [Event.dispatch, IronBeeDelegate.request_header_finished, notify]
  | request_finished e =>
    cases mt with
    | none => left; simp [Event.dispatch, IronBeeDelegate.request_finished]
    | some tx => right; simp [Event.dispatch, IronBeeDelegate.request_finished, notify]
  | response_started e =>
    cases mt with
    | none => left; simp [Event.dispatch, IronBeeDelegate.response_started]
    | some tx => right; simp [Event.dispatch, IronBeeDelegate.response_started, notify]
  | response_header e =>
    cases mt with
    | none => left; simp [Event.dispatch, IronBeeDelegate.response_header]
    | some tx => right; simp [Event.dispatch, IronBeeDelegate.response_header, notify]
  | response_header_finished e =>
    cases mt with
    | none => left; simp [Event.dispatch, IronBeeDelegate.response_header_finished]
    | some tx => right; simp [Event.dispatch, IronBeeDelegate.response_header_finished, notify]

/-- Dispatch of a concatenation: the second part runs where the first part
ended, unless the first part threw. -/
theorem dispatch_append (pre rest : List Event) (d : IronBeeDelegate) (w : World) :
    dispatch (pre ++ rest) d w
      = (match (dispatch pre d w).thrown with
         | some e =>
           { thrown := some e, delegate := (dispatch pre d w).delegate
             world := (dispatch pre d w).world }
         | none => dispatch rest (dispatch pre d w).delegate (dispatch pre d w).world) := by
  induction pre generalizing d w with
  | nil => simp [dispatch]
  | cons ev pre ih =>
    cases hth : (ev.dispatch d w).thrown with
    | some e => simp [dispatch, hth]
    | none => simp [dispatch, hth, ih]

/-- C17. When the notification a handler issues fails in the engine with a
status, the handler throws exactly that status and has sent nothing else; the
dispatch stops there with the same error and no further notification, and the
modifier and the consumer fail with the same error. -/
theorem engine_error_propagates (ev : Event) (d : IronBeeDelegate) (w : World)
    (n : Notification) (code : Nat)
    (hn : (ev.dispatch d w).world.trace = w.trace ++ [n])
    (hfail : (d.m_engine.reply w.trace n).status = some code) :
    (ev.dispatch d w).thrown = some (Error.ib_error code) ∧
    (∀ rest, (dispatch (ev :: rest) d w).thrown = some (Error.ib_error code) ∧
      (dispatch (ev :: rest) d w).world.trace = w.trace ++ [n]) ∧
    (∀ (c : IronBeeConsumer) (pre rest : List Event) (w0 : World),
      (c.modifier.dispatched { connection := pre } w0).thrown = none →
      (c.modifier.dispatched { connection := pre } w0).delegate = d →
      (c.modifier.dispatched { connection := pre } w0).world = w →
      (c.modifier.dispatched { connection := pre ++ ev :: rest } w0).world.trace
        = w.trace ++ [n] ∧
      (c.modifier.call (some { connection := pre ++ ev :: rest }) w0).outcome
        = Outcome.thrown (Error.ib_error code) ∧
      (c.call (some { connection := pre ++ ev :: rest }) w0).outcome
        = Outcome.thrown (Error.ib_error code)) := by
  have hth : (ev.dispatch d w).thrown = some (Error.ib_error code) := by
    rcases event_dispatch_sends ev d w with ⟨h0, _⟩ | ⟨n0, h1, h2⟩
    · rw [h0] at hn
      simp at hn
    · rw [h1] at hn
      have hnn : n0 = n := by simpa using hn
      rw [h2, hnn, hfail]
      rfl
  have hdis : ∀ rest, dispatch (ev :: rest) d w
      = { thrown := some (Error.ib_error code), delegate := (ev.dispatch d w).delegate
          world := (ev.dispatch d w).world } := by
    intro rest
    simp [dispatch, hth]
  refine ⟨hth, ?_, ?_⟩
  · intro rest
    rw [hdis rest]
    exact ⟨rfl, hn⟩
  · intro c pre rest w0 hpre hd hw
    have hall : c.modifier.dispatched { connection := pre ++ ev :: rest } w0
        = { thrown := some (Error.ib_error code), delegate := (ev.dispatch d w).delegate
            world := (ev.dispatch d w).world } := by
      have hpre1 : (dispatch pre (IronBeeDelegate.new c.modifier.engine)
          (c.modifier.reset w0)).thrown = none := hpre
      have hd1 : (dispatch pre (IronBeeDelegate.new c.modifier.engine)
          (c.modifier.reset w0)).delegate = d := hd
      have hw1 : (dispatch pre (IronBeeDelegate.new c.modifier.engine)
          (c.modifier.reset w0)).world = w := hw
      simp only [IronBeeModifier.dispatched]
      rw [dispatch_append, hpre1, hd1, hw1]
      exact hdis rest
    have hm : (c.modifier.call (some { connection := pre ++ ev :: rest }) w0).outcome
        = Outcome.thrown (Error.ib_error code) := by
      simp [IronBeeModifier.call, hall]
    refine ⟨?_, hm, ?_⟩
    · rw [hall]
      exact hn
    · simp [IronBeeConsumer.call, hm]

/-- Witness for C17: the engine fails on connection_closed with status 7;
the input opens and closes a connection and then goes on. -/
theorem engine_error_propagates_witness :
    ((Event.connection_closed {}).dispatch sample_failing_delegate
        sample_open_world).world.trace
      = sample_open_world.trace ++ [Notification.connection_closed sample_connection] ∧
    (sample_failing_delegate.m_engine.reply sample_open_world.trace
        (Notification.connection_closed sample_connection)).status = some 7 ∧
    ((Event.connection_closed {}).dispatch sample_failing_delegate
        sample_open_world).thrown = some (Error.ib_error 7) ∧
    (IronBeeModifier.call
        { behavior := behavior_e.ALLOW, engine := Engine.failing_on_close 7 }
        (some { connection := [Event.connection_opened sample_connection_event]
                  ++ Event.connection_closed {}
                  :: [Event.connection_opened sample_connection_event] })
        World.fresh).outcome = Outcome.thrown (Error.ib_error 7) :=
  ⟨by decide, rfl,
   (engine_error_propagates (Event.connection_closed {}) sample_failing_delegate
      sample_open_world (Notification.connection_closed sample_connection) 7
      (by decide) rfl).1,
   ((engine_error_propagates (Event.connection_closed {}) sample_failing_delegate
      sample_open_world (Notification.connection_closed sample_connection) 7
      (by decide) rfl).2.2
      { modifier := { behavior := behavior_e.ALLOW, engine := Engine.failing_on_close 7 } }
      [Event.connection_opened sample_connection_event]
      [Event.connection_opened sample_connection_event] World.fresh
      (by decide) rfl rfl).2.1⟩

theorem Connection.anonymous_idem (c : Connection) :
    c.anonymous.anonymous = c.anonymous := rfl

theorem Notification.anonymous_twice (n : Notification) :
    n.anonymous.anonymous = n.anonymous := by
  cases n <;> rfl

/-- On a memoryless engine the status for a notification is the status for
its anonymous form on the engine that has seen nothing. -/
theorem memoryless_status (engine : Engine) (hm : engine.memoryless) (t : List Notification)
    (n : Notification) : (engine.reply t n).status = engine.first_status n.anonymous :=
  hm t [] n n.anonymous (Notification.anonymous_twice n).symm

/-- Two runs of one event from delegates that agree up to handle identity,
on a memoryless engine: same error, same notifications up to handle identity,
and the delegates agree again. -/
theorem event_dispatch_memoryless (ev : Event) (E : Engine) (hm : E.memoryless)
    (mc mc1 : Option Connection) (mt mt1 : Option Transaction) (w w1 : World)
    (hc : mc.map Connection.anonymous = mc1.map Connection.anonymous)
    (ht : mt.map Transaction.anonymous = mt1.map Transaction.anonymous) :
    (ev.dispatch { m_engine := E, m_connection := mc, m_transaction := mt } w).thrown
      = (ev.dispatch { m_engine := E, m_connection := mc1, m_transaction := mt1 } w1).thrown ∧
    (∃ sent sent1,
      (ev.dispatch { m_engine := E, m_connection := mc, m_transaction := mt } w).world.trace
        = w.trace ++ sent ∧
      (ev.dispatch { m_engine := E, m_connection := mc1, m_transaction := mt1 } w1).world.trace
        = w1.trace ++ sent1 ∧
      sent.map Notification.anonymous = sent1.map Notification.anonymous) ∧
    (ev.dispatch { m_engine := E, m_connection := mc, m_transaction := mt }
        w).delegate.m_connection.map Connection.anonymous
      = (ev.dispatch { m_engine := E, m_connection := mc1, m_transaction := mt1 }
        w1).delegate.m_connection.map Connection.anonymous ∧
    (ev.dispatch { m_engine := E, m_connection := mc, m_transaction := mt }
        w).delegate.m_transaction.map Transaction.anonymous
      = (ev.dispatch { m_engine := E, m_connection := mc1, m_transaction := mt1 }
        w1).delegate.m_transaction.map Transaction.anonymous := by
  have key := memoryless_status E hm
  cases ev with
  | connection_closed e =>
    cases mc <;> cases mc1 <;> simp at hc
    · simp [Event.dispatch, IronBeeDelegate.connection_closed, ht]
    · rename_i c c1
      simp only [Event.dispatch, IronBeeDelegate.connection_closed, notify, key,
        Notification.anonymous, hc]
      cases E.first_status (Notification.connection_closed c1.anonymous) <;>
        simp [Connection.destroy, Notification.anonymous, hc, ht]
  | response_finished e =>
    cases mt <;> cases mt1 <;> simp at ht
    · simp [Event.dispatch, IronBeeDelegate.response_finished, hc]
    · rename_i tx tx1
      simp only [Event.dispatch, IronBeeDelegate.response_finished, notify, key,
        Notification.anonymous, ht]
      cases E.first_status (Notification.response_finished tx1.anonymous) <;>
        simp [Transaction.destroy, Notification.anonymous, hc, ht]
  | request_body e =>
    cases mt <;> cases mt1 <;> simp at ht
    · simp [Event.dispatch, IronBeeDelegate.request_body, hc]
    · by_cases hz : e.data.length = 0 <;>
        simp [Event.dispatch, IronBeeDelegate.request_body, notify, key,
          Notification.anonymous, ht, hc, hz]
  | response_body e =>
    cases mt <;> cases mt1 <;> simp at ht
    · simp [Event.dispatch, IronBeeDelegate.response_body, hc]
    · by_cases hz : e.data.length = 0 <;>
        simp [Event.dispatch, IronBeeDelegate.response_body, notify, key,
          Notification.anonymous, ht, hc, hz]
  | _ =>
    cases mc <;> cases mc1 <;> simp at hc <;>
      cases mt <;> cases mt1 <;> simp at ht <;>
      simp [Event.dispatch, IronBeeDelegate.connection_opened,
          IronBeeDelegate.connection_data_in,
          IronBeeDelegate.connection_data_out, IronBeeDelegate.request_started,
          IronBeeDelegate.request_header,
          IronBeeDelegate.request_header_finished,
          IronBeeDelegate.request_finished, IronBeeDelegate.response_started,
          IronBeeDelegate.response_header, IronBeeDelegate.response_header_finished,
          notify, key,
          Connection.create, Connection.destroy, Transaction.create, Transaction.destroy,
          Notification.anonymous, Connection.set_local_ip_string, Connection.set_local_port,
          Connection.set_remote_ip_string, Connection.set_remote_port] <;>
      simp_all [Connection.anonymous, Transaction.anonymous]

/-- Two runs of one event sequence from delegates that agree up to handle
identity, on a memoryless engine: same error and same notifications up to
handle identity. -/
theorem dispatch_memoryless (evs : List Event) (E : Engine) (hm : E.memoryless)
    (d d1 : IronBeeDelegate) (w w1 : World) (hE : d.m_engine = E) (hE1 : d1.m_engine = E)
    (hc : d.m_connection.map Connection.anonymous = d1.m_connection.map Connection.anonymous)
    (ht : d.m_transaction.map Transaction.anonymous
      = d1.m_transaction.map Transaction.anonymous) :
    (dispatch evs d w).thrown = (dispatch evs d1 w1).thrown ∧
    ∃ sent sent1,
      (dispatch evs d w).world.trace = w.trace ++ sent ∧
      (dispatch evs d1 w1).world.trace = w1.trace ++ sent1 ∧
      sent.map Notification.anonymous = sent1.map Notification.anonymous := by
  induction evs generalizing d d1 w w1 with
  | nil => exact ⟨rfl, [], [], by simp [dispatch], by simp [dispatch], rfl⟩
  | cons ev rest ih =>
    obtain ⟨E0, mc, mt⟩ := d
    obtain ⟨E1, mc1, mt1⟩ := d1
    simp only at hE hE1 hc ht
    subst hE
    subst hE1
    obtain ⟨hth, ⟨s, s1, hs, hs1, hss⟩, hc2, ht2⟩ :=
      event_dispatch_memoryless ev E1 hm mc mc1 mt mt1 w w1 hc ht
    cases hx : (ev.dispatch { m_engine := E1, m_connection := mc, m_transaction := mt }
        w).thrown with
    | some e =>
      have hx1 := hx
      rw [hth] at hx1
      refine ⟨by simp [dispatch, hx, hx1], s, s1, ?_, ?_, hss⟩
      · simpa [dispatch, hx] using hs
      · simpa [dispatch, hx1] using hs1
    | none =>
      have hx1 := hx
      rw [hth] at hx1
      have hd : dispatch (ev :: rest) { m_engine := E1, m_connection := mc, m_transaction := mt } w
          = dispatch rest
              (ev.dispatch { m_engine := E1, m_connection := mc, m_transaction := mt } w).delegate
              (ev.dispatch { m_engine := E1, m_connection := mc, m_transaction := mt }
                w).world := by
        simp [dispatch, hx]
      have hd1 : dispatch (ev :: rest)
            { m_engine := E1, m_connection := mc1, m_transaction := mt1 } w1
          = dispatch rest
              (ev.dispatch { m_engine := E1, m_connection := mc1, m_transaction := mt1 }
                w1).delegate
              (ev.dispatch { m_engine := E1, m_connection := mc1, m_transaction := mt1 }
                w1).world := by
        simp [dispatch, hx1]
      obtain ⟨hth2, r, r1, hr, hr1, hrr⟩ := ih _ _ _ _
        (event_silent_action ev _ w).1 (event_silent_action ev _ w1).1 hc2 ht2
      rw [hd, hd1]
      refine ⟨hth2, s ++ r, s1 ++ r1, ?_, ?_, ?_⟩
      · rw [hr, hs, List.append_assoc]
      · rw [hr1, hs1, List.append_assoc]
      · rw [List.map_append, List.map_append, hss, hrr]

/-- C18. Tracker state never leaks between inputs.  The tracker used for an
input B is a new delegate with no live connection and no live transaction,
whatever input A was processed before and however A ended.  Hence, on an
engine whose status depends only on what a notification says, the error of
B's dispatch and the notifications sent for B (up to handle identity) are the
same after A as without A, in the single-threaded driver and in the task
function of the threaded driver; and on every engine a B that starts with
RequestStarted throws the tracker's runtime_error at once. -/
theorem tracker_state_does_not_leak (m : IronBeeModifier) (A : input_p) (B : Input)
    (w : World) (hm : m.engine.memoryless) :
    (IronBeeDelegate.new m.engine).m_connection = none ∧
    (IronBeeDelegate.new m.engine).m_transaction = none ∧
    m.dispatched B (m.call A w).world
      = dispatch B.connection (IronBeeDelegate.new m.engine) (m.reset (m.call A w).world) ∧
    (m.dispatched B (m.call A w).world).thrown = (m.dispatched B w).thrown ∧
    (∃ sent sent1,
      (m.dispatched B (m.call A w).world).world.trace
        = (m.call A w).world.trace ++ sent ∧
      (m.dispatched B w).world.trace = w.trace ++ sent1 ∧
      sent.map Notification.anonymous = sent1.map Notification.anonymous) ∧
    (IronBeeThreadedConsumer.process_input m.engine (some B)
        (IronBeeThreadedConsumer.process_input m.engine A w).2).1
      = (IronBeeThreadedConsumer.process_input m.engine (some B) w).1 ∧
    (∀ (engine : Engine) (rq : RequestEvent) (rest : List Event) (w0 : World),
      (dispatch (Event.request_started rq :: rest) (IronBeeDelegate.new engine) w0).thrown
        = some (Error.runtime_error
            "REQUEST_STARTED event fired outside of connection lifetime.") ∧
      (dispatch (Event.request_started rq :: rest) (IronBeeDelegate.new engine) w0).world
        = w0) := by
  have hrt : ∀ w0 : World, (m.reset w0).trace = w0.trace := by
    intro w0
    obtain ⟨b, E⟩ := m
    cases b <;> rfl
  refine ⟨rfl, rfl, rfl, ?_, ?_, ?_, ?_⟩
  · exact (dispatch_memoryless B.connection m.engine hm _ _ _ _ rfl rfl rfl rfl).1
  · obtain ⟨_, s, s1, hs, hs1, hss⟩ := dispatch_memoryless B.connection m.engine hm
      (IronBeeDelegate.new m.engine) (IronBeeDelegate.new m.engine)
      (m.reset (m.call A w).world) (m.reset w) rfl rfl rfl rfl
    rw [hrt] at hs hs1
    exact ⟨s, s1, hs, hs1, hss⟩
  · exact (dispatch_memoryless B.connection m.engine hm _ _ _ _ rfl rfl rfl rfl).1
  · intro engine rq rest w0
    simp [dispatch, Event.dispatch, IronBeeDelegate.request_started, IronBeeDelegate.new]

theorem quiet_memoryless : Engine.quiet.memoryless := fun _ _ _ _ _ => rfl

/-- Witness for C18: input A is rejected by the tracker with its connection
still open; input B is the sample input. -/
theorem tracker_state_does_not_leak_witness :
    Engine.quiet.memoryless ∧
    (IronBeeModifier.dispatched { behavior := behavior_e.ALLOW, engine := Engine.quiet }
        sample_input
        (IronBeeModifier.call { behavior := behavior_e.ALLOW, engine := Engine.quiet }
          (some sample_bad_input) World.fresh).world).thrown
      = (IronBeeModifier.dispatched { behavior := behavior_e.ALLOW, engine := Engine.quiet }
          sample_input World.fresh).thrown ∧
    (IronBeeThreadedConsumer.process_input Engine.quiet (some sample_input)
        (IronBeeThreadedConsumer.process_input Engine.quiet (some sample_bad_input)
          World.fresh).2).1
      = (IronBeeThreadedConsumer.process_input Engine.quiet (some sample_input)
          World.fresh).1 :=
  ⟨fun _ _ _ _ _ => rfl,
   (tracker_state_does_not_leak { behavior := behavior_e.ALLOW, engine := Engine.quiet }
      (some sample_bad_input) sample_input World.fresh (fun _ _ _ _ _ => rfl)).2.2.2.1,
   (tracker_state_does_not_leak { behavior := behavior_e.ALLOW, engine := Engine.quiet }
      (some sample_bad_input) sample_input World.fresh
      (fun _ _ _ _ _ => rfl)).2.2.2.2.2.1⟩

/-- C15. For an absent input the modifier returns true at once with the
world (trace, handles, resolver) untouched; the task function of the threaded
driver returns without touching the world; and the threaded driver's call
gives true once the pool call has returned, which a pool of one worker lets it
do, with the world untouched by the task. -/
theorem absent_input_accepted (m : IronBeeModifier) (engine : Engine) (w : World) :
    m.call none w = { outcome := Outcome.returned true, input := none, world := w } ∧
    IronBeeThreadedConsumer.process_input engine none w = (none, w) ∧
    (∀ (c : IronBeeThreadedConsumer) (j : Nat),
      c.worker_pool.submitters.get? j = some (SubmitterState.returned none) →
      c.call j = some true) ∧
    (∃ c c1, IronBeeThreadedConsumer.new engine none 1 w = Except.ok c ∧
      c.run (one_submission none) = some c1 ∧
      c1.worker_pool.submitters.get? 0 = some (SubmitterState.returned none) ∧
      c1.call 0 = some true ∧
      c1.worker_pool.env = w) := by
  refine ⟨rfl, rfl, ?_, ?_⟩
  · intro c j h
    simp only [IronBeeThreadedConsumer.call, h]
  · exact ⟨_, _, rfl, rfl, rfl, rfl, rfl⟩

/-- Witness for C15: the threaded driver with one worker, after one absent
input. -/
theorem absent_input_accepted_witness :
    (∃ c1, sample_threaded_after_one = some c1 ∧
      c1.worker_pool.submitters.get? 0 = some (SubmitterState.returned none) ∧
      c1.call 0 = some true) :=
  ⟨_, rfl, rfl,
   (absent_input_accepted { behavior := behavior_e.ALLOW, engine := Engine.quiet }
      Engine.quiet World.fresh).2.2.1 _ 0 rfl⟩

/-- C19. The consumer drivers do not route the outcome back.  The consumer
returns true whenever the modifier returns, whatever the modifier returned
(false for Block included), never returns false, fails exactly with the
modifier's error, and leaves the caller's input handle as it was.  The
threaded driver's call gives true for every input once the pool call has
returned, and no value before. -/
theorem consumers_return_true (c : IronBeeConsumer) (input : input_p) (w : World) :
    (c.call input w).input = input ∧
    (∀ b, (c.modifier.call input w).outcome = Outcome.returned b →
      (c.call input w).outcome = Outcome.returned true) ∧
    (∀ e, (c.modifier.call input w).outcome = Outcome.thrown e →
      (c.call input w).outcome = Outcome.thrown e) ∧
    (c.call input w).outcome ≠ Outcome.returned false ∧
    (∀ (t : IronBeeThreadedConsumer) (j : Nat) (work : input_p),
      t.worker_pool.submitters.get? j = some (SubmitterState.returned work) →
      t.call j = some true) ∧
    (∀ (t : IronBeeThreadedConsumer) (j : Nat) (b : Bool), t.call j = some b →
      b = true ∧ ∃ work, t.worker_pool.submitters.get? j = some (SubmitterState.returned work)) := by
  refine ⟨?_, ?_, ?_, ?_, ?_, ?_⟩
  · cases h : (c.modifier.call input w).outcome <;> simp [IronBeeConsumer.call, h]
  · intro b h
    simp [IronBeeConsumer.call, h]
  · intro e h
    simp [IronBeeConsumer.call, h]
  · cases h : (c.modifier.call input w).outcome <;> simp [IronBeeConsumer.call, h]
  · intro t j work h
    simp only [IronBeeThreadedConsumer.call, h]
  · intro t j b h
    unfold IronBeeThreadedConsumer.call at h
    split at h
    · rename_i work hw
      simp only [Option.some.injEq] at h
      exact ⟨h.symm, work, hw⟩
    · simp at h

/-- Witness for C19: the engine sets Block on the sample input, the modifier
returns false and the consumer returns true; the threaded driver with one
worker gives true for its first caller. -/
theorem consumers_return_true_witness :
    (IronBeeModifier.call
        { behavior := behavior_e.ALLOW, engine := Engine.firing action_e.ACTION_BLOCK }
        (some sample_input) World.fresh).outcome = Outcome.returned false ∧
    (IronBeeConsumer.call
        { modifier :=
            { behavior := behavior_e.ALLOW, engine := Engine.firing action_e.ACTION_BLOCK } }
        (some sample_input) World.fresh).outcome = Outcome.returned true ∧
    (∃ c1, sample_threaded_after_one = some c1 ∧ c1.call 0 = some true) :=
  ⟨by decide,
   (consumers_return_true
      { modifier :=
          { behavior := behavior_e.ALLOW, engine := Engine.firing action_e.ACTION_BLOCK } }
      (some sample_input) World.fresh).2.1 false (by decide),
   ⟨_, rfl,
    (consumers_return_true
      { modifier :=
          { behavior := behavior_e.ALLOW, engine := Engine.firing action_e.ACTION_BLOCK } }
      (some sample_input) World.fresh).2.2.2.2.1 _ 0 none rfl⟩⟩

/-- A pool without worker threads stays one, and its submitters never get
past the wait for an idle worker. -/
theorem no_workers_step {WorkType σ : Type} (f : WorkType → σ → Option Error × σ)
    (s s1 : FunctionWorkerPool WorkType σ) (a : PoolAction WorkType)
    (hinv : s.no_workers) (hstep : s.step f a = some s1) : s1.no_workers := by
  obtain ⟨hw, ha, hsub⟩ := hinv
  replace hstep := (thread_step_of_step f s s1 a hstep).2
  cases a with
  | submit work =>
    simp only [FunctionWorkerPool.thread_step, Option.some.injEq] at hstep
    subst hstep
    refine ⟨hw, ha, ?_⟩
    intro st hst
    rcases List.mem_append.mp hst with h | h
    · exact hsub st h
    · simp only [List.mem_singleton] at h
      subst h
      rfl
  | call_shutdown =>
    simp only [FunctionWorkerPool.thread_step] at hstep
    split at hstep
    · simp only [Option.some.injEq] at hstep
      subst hstep
      exact ⟨hw, ha, hsub⟩
    · simp at hstep
  | worker i wake =>
    simp [FunctionWorkerPool.thread_step, FunctionWorkerPool.worker_step, hw] at hstep
  | submitter j wake =>
    simp only [FunctionWorkerPool.thread_step, FunctionWorkerPool.submitter_step] at hstep
    split at hstep
    · simp at hstep
    · rename_i work hj
      simp only [ha, if_true, Option.some.injEq] at hstep
      subst hstep
      refine ⟨hw, rfl, ?_⟩
      intro st hst
      rcases List.mem_or_eq_of_mem_set hst with h | h
      · exact hsub st h
      · subst h
        rfl
    · simp at hstep
    · rename_i work hj
      have := hsub _ (List.get?_mem hj)
      simp [FunctionWorkerPool.unpublished] at this
    · simp at hstep
    · simp at hstep
  | shutdown =>
    simp only [FunctionWorkerPool.thread_step, FunctionWorkerPool.shutdown_step] at hstep
    split at hstep
    · simp at hstep
    · split at hstep <;>
      · simp only [Option.some.injEq] at hstep
        subst hstep
        exact ⟨hw, ha, hsub⟩
    · simp at hstep
    · simp only [Option.some.injEq] at hstep
      subst hstep
      exact ⟨hw, ha, hsub⟩
    · simp only [Option.some.injEq] at hstep
      subst hstep
      exact ⟨by simp [FunctionWorkerPool.notify_all_work_available, hw], ha, hsub⟩
    · split at hstep
      · simp only [Option.some.injEq] at hstep
        subst hstep
        exact ⟨hw, ha, hsub⟩
      · simp at hstep
    · simp at hstep
  | spurious_worker i =>
    simp [FunctionWorkerPool.thread_step, FunctionWorkerPool.end_work_wait, hw] at hstep
  | spurious_waiter t =>
    simp only [FunctionWorkerPool.thread_step, FunctionWorkerPool.end_wait] at hstep
    cases t with
    | submitter j =>
      simp only at hstep
      split at hstep
      · rename_i work hj
        simp only [Option.some.injEq] at hstep
        subst hstep
        refine ⟨hw, ha, ?_⟩
        intro st hst
        rcases List.mem_or_eq_of_mem_set hst with h | h
        · exact hsub st h
        · subst h
          rfl
      · simp at hstep
    | shutdown =>
      simp only at hstep
      split at hstep
      · simp only [Option.some.injEq] at hstep
        subst hstep
        exact ⟨hw, ha, hsub⟩
      · simp at hstep

theorem no_workers_run {WorkType σ : Type} (f : WorkType → σ → Option Error × σ)
    (actions : List (PoolAction WorkType)) (s s1 : FunctionWorkerPool WorkType σ)
    (hinv : s.no_workers) (hrun : s.run f actions = some s1) : s1.no_workers := by
  induction actions generalizing s with
  | nil =>
    simp only [FunctionWorkerPool.run, Option.some.injEq] at hrun
    subst hrun
    exact hinv
  | cons a rest ih =>
    simp only [FunctionWorkerPool.run] at hrun
    cases hs : s.step f a with
    | none => simp [hs] at hrun
    | some s2 =>
      simp only [hs] at hrun
      exact ih s2 (no_workers_step f s s2 a hinv hs) hrun

/-- C20 as stated fails: with N = 0 and a configuration that loads, the
construction of the threaded driver is not rejected; it yields a pool with no
worker threads. -/
theorem zero_workers_not_rejected :
    (∃ c, IronBeeThreadedConsumer.new Engine.quiet none 0 World.fresh = Except.ok c ∧
      c.worker_pool.workers = [] ∧ c.worker_pool.m_num_workers = 0) ∧
    (∀ e, IronBeeThreadedConsumer.new Engine.quiet none 0 World.fresh ≠ Except.error e) ∧
    (FunctionWorkerPool.new 0 World.fresh : FunctionWorkerPool input_p World).workers = [] := by
  refine ⟨⟨_, rfl, rfl, rfl⟩, ?_, rfl⟩
  intro e h
  simp [IronBeeThreadedConsumer.new] at h

/-- C20 amended. The worker count is not validated.  When the configuration
loads, the construction of the threaded driver succeeds for every N and gives
a pool with exactly N worker threads; the only failure is the error of the
configuration, for every N alike.  For N = 0 the pool has no workers and no
submission is ever accepted: whatever steps are taken, every caller stays
before or inside the wait for an idle worker and its call gives no value. -/
theorem worker_count_not_validated (engine : Engine) (num_workers : Nat) (w : World) :
    IronBeeThreadedConsumer.new engine none num_workers w
      = Except.ok { engine := engine, worker_pool := FunctionWorkerPool.new num_workers w } ∧
    (∀ e, IronBeeThreadedConsumer.new engine (some e) num_workers w = Except.error e) ∧
    (FunctionWorkerPool.new num_workers w : FunctionWorkerPool input_p World).workers
      = List.replicate num_workers WorkerState.idle_mark ∧
    (FunctionWorkerPool.new num_workers w : FunctionWorkerPool input_p World).m_num_workers
      = num_workers ∧
    (∀ (f : input_p → World → Option Error × World) (actions : List (PoolAction input_p))
        (s : FunctionWorkerPool input_p World),
      (FunctionWorkerPool.new 0 w : FunctionWorkerPool input_p World).run f actions = some s →
      s.workers = [] ∧ ∀ st ∈ s.submitters, FunctionWorkerPool.unpublished st = true) ∧
    (∀ (actions : List (PoolAction input_p)) (c : IronBeeThreadedConsumer),
      IronBeeThreadedConsumer.run
        { engine := engine, worker_pool := FunctionWorkerPool.new 0 w } actions = some c →
      ∀ j, c.call j = none) := by
  have hinit : (FunctionWorkerPool.new 0 w : FunctionWorkerPool input_p World).no_workers :=
    ⟨rfl, rfl, by simp [FunctionWorkerPool.new]⟩
  refine ⟨rfl, fun _ => rfl, rfl, rfl, ?_, ?_⟩
  · intro f actions s hrun
    have h := no_workers_run f actions _ s hinit hrun
    exact ⟨h.1, h.2.2⟩
  · intro actions c hrun j
    unfold IronBeeThreadedConsumer.run at hrun
    split at hrun
    · simp at hrun
    · rename_i p hp
      simp only [Option.some.injEq] at hrun
      subst hrun
      have h := no_workers_run _ actions _ p hinit hp
      unfold IronBeeThreadedConsumer.call
      split
      · rename_i work hj
        have hu := h.2.2 _ (List.get?_mem hj)
        simp [FunctionWorkerPool.unpublished] at hu
      · rfl

/-- Witness for C20 amended: on the pool without workers a caller submits,
blocks, is woken spuriously after a complete shutdown and blocks again. -/
theorem worker_count_not_validated_witness :
    (∃ c, IronBeeThreadedConsumer.run
        { engine := Engine.quiet, worker_pool := FunctionWorkerPool.new 0 World.fresh }
        submit_to_empty_pool = some c ∧
      c.worker_pool.submitters = [SubmitterState.publish_wait none] ∧
      c.worker_pool.shutdown = ShutdownState.returned ∧
      c.call 0 = none) :=
  ⟨_, rfl, rfl, rfl,
   (worker_count_not_validated Engine.quiet 0 World.fresh).2.2.2.2.2
     submit_to_empty_pool _ rfl 0⟩

/-- C28. Rejection by the tracker is atomic: whenever a handler throws the
tracker's runtime_error, the delegate (both handles) and the world (trace,
created and destroyed connections and transactions, resolver) are exactly as
before the call. -/
theorem rejection_is_atomic (ev : Event) (d : IronBeeDelegate) (w : World) (what : String)
    (h : (ev.dispatch d w).thrown = some (Error.runtime_error what)) :
    (ev.dispatch d w).delegate = d ∧
    (ev.dispatch d w).world = w ∧
    (ev.dispatch d w).delegate.m_connection = d.m_connection ∧
    (ev.dispatch d w).delegate.m_transaction = d.m_transaction ∧
    (ev.dispatch d w).world.trace = w.trace ∧
    (ev.dispatch d w).world.conn_created = w.conn_created ∧
    (ev.dispatch d w).world.conn_destroyed = w.conn_destroyed ∧
    (ev.dispatch d w).world.tx_created = w.tx_created ∧
    (ev.dispatch d w).world.tx_destroyed = w.tx_destroyed := by
  have key : (ev.dispatch d w).delegate = d ∧ (ev.dispatch d w).world = w := by
    obtain ⟨E, mc, mt⟩ := d
    cases ev with
    | request_body e =>
      cases mt with
      | none => simp [Event.dispatch, IronBeeDelegate.request_body]
      | some tx =>
        by_cases hz : e.data.length = 0
        · simp [Event.dispatch, IronBeeDelegate.request_body, hz] at h
        · simp [Event.dispatch, IronBeeDelegate.request_body, hz, notify] at h
    | response_body e =>
      cases mt with
      | none => simp [Event.dispatch, IronBeeDelegate.response_body]
      | some tx =>
        by_cases hz : e.data.length = 0
        · simp [Event.dispatch, IronBeeDelegate.response_body, hz] at h
        · simp [Event.dispatch, IronBeeDelegate.response_body, hz, notify] at h
    | connection_closed e =>
      cases mc with
      | none => simp [Event.dispatch, IronBeeDelegate.connection_closed]
      | some c =>
        cases hst : (E.reply w.trace (Notification.connection_closed c)).status <;>
          simp [Event.dispatch, IronBeeDelegate.connection_closed, notify, hst] at h
    | response_finished e =>
      cases mt with
      | none => simp [Event.dispatch, IronBeeDelegate.response_finished]
      | some tx =>
        cases hst : (E.reply w.trace (Notification.response_finished tx)).status <;>
          simp [Event.dispatch, IronBeeDelegate.response_finished, notify, hst] at h
    | connection_opened e =>
      cases mc <;>
        simp [Event.dispatch, IronBeeDelegate.connection_opened, notify] at h
    | request_started e =>
      cases mc with
      | none => simp [Event.dispatch, IronBeeDelegate.request_started]
      | some c =>
        cases mt <;>
          simp [Event.dispatch, IronBeeDelegate.request_started, notify] at h
    | connection_data_in e => simp [Event.dispatch, IronBeeDelegate.connection_data_in]
    | connection_data_out e => simp [Event.dispatch, IronBeeDelegate.connection_data_out]
    | request_header e =>
      cases mt with
      | none => simp [Event.dispatch, IronBeeDelegate.request_header]
      | some tx => simp [Event.dispatch, IronBeeDelegate.request_header, notify] at h
    | request_header_finished e =>
      cases mt with
      | none => simp [Event.dispatch, IronBeeDelegate.request_header_finished]
      | some tx => simp [Event.dispatch, IronBeeDelegate.request_header_finished, notify] at h
    | request_finished e =>
      cases mt with
      | none => simp [Event.dispatch, IronBeeDelegate.request_finished]
      | some tx => simp [Event.dispatch, IronBeeDelegate.request_finished, notify] at h
    | response_started e =>
      cases mt with
      | none => simp [Event.dispatch, IronBeeDelegate.response_started]
      | some tx => simp [Event.dispatch, IronBeeDelegate.response_started, notify] at h
    | response_header e =>
      cases mt with
      | none => simp [Event.dispatch, IronBeeDelegate.response_header]
      | some tx => simp [Event.dispatch, IronBeeDelegate.response_header, notify] at h
    | response_header_finished e =>
      cases mt with
      | none => simp [Event.dispatch, IronBeeDelegate.response_header_finished]
      | some tx =>
        simp [Event.dispatch, IronBeeDelegate.response_header_finished, notify] at h
  obtain ⟨hd, hw⟩ := key
  rw [hd, hw]
  exact ⟨rfl, rfl, rfl, rfl, rfl, rfl, rfl, rfl, rfl⟩

/-- Witness for C28: RequestStarted with no live connection, and
ConnectionDataIn on a live connection and transaction. -/
theorem rejection_is_atomic_witness :
    ((Event.request_started sample_request_event).dispatch
        (sample_delegate none none) sample_world).thrown
      = some (Error.runtime_error
          "REQUEST_STARTED event fired outside of connection lifetime.") ∧
    ((Event.request_started sample_request_event).dispatch
        (sample_delegate none none) sample_world).world = sample_world ∧
    ((Event.connection_data_in { data := { data := [1] } }).dispatch
        (sample_delegate (some sample_connection) (some sample_transaction))
        sample_world).delegate
      = sample_delegate (some sample_connection) (some sample_transaction) :=
  ⟨rfl,
   (rejection_is_atomic (Event.request_started sample_request_event)
      (sample_delegate none none) sample_world _ rfl).2.1,
   (rejection_is_atomic (Event.connection_data_in { data := { data := [1] } })
      (sample_delegate (some sample_connection) (some sample_transaction))
      sample_world _ rfl).1⟩

/-- Handling one event keeps the connections in balance. -/
theorem event_conn_balanced (D0 : List Nat) (c0 : Nat) (ev : Event) (d : IronBeeDelegate)
    (w : World) (h : conn_balanced D0 c0 d w) :
    conn_balanced D0 c0 (ev.dispatch d w).delegate (ev.dispatch d w).world := by
  obtain ⟨E, mc, mt⟩ := d
  obtain ⟨hle, hb⟩ := h
  simp only at hb
  cases ev with
  | connection_opened e =>
    have hk : w.conn_created + 1 - c0 = (w.conn_created - c0) + 1 := by omega
    have hlast : c0 + 1 * (w.conn_created - c0) = w.conn_created := by omega
    cases mc <;>
      simp [Event.dispatch, IronBeeDelegate.connection_opened, notify, Connection.create,
        Connection.destroy, conn_balanced, stale_ids, Connection.set_local_ip_string,
        Connection.set_local_port, Connection.set_remote_ip_string,
        Connection.set_remote_port] at hb ⊢ <;>
      refine ⟨by omega, ?_⟩ <;>
      rw [hk, List.range'_concat, hlast, ← List.append_assoc, ← hb] <;> simp
  | connection_closed e =>
    cases mc with
    | none => simpa [Event.dispatch, IronBeeDelegate.connection_closed, conn_balanced] using
        ⟨hle, hb⟩
    | some c =>
      cases hst : (E.reply w.trace (Notification.connection_closed c)).status <;>
        simp [Event.dispatch, IronBeeDelegate.connection_closed, notify, hst,
          Connection.destroy, conn_balanced, stale_ids] at hb ⊢ <;>
        exact ⟨hle, hb⟩
  | request_body e =>
    cases mt with
    | none => simpa [Event.dispatch, IronBeeDelegate.request_body, conn_balanced] using
        ⟨hle, hb⟩
    | some tx =>
      by_cases hz : e.data.length = 0 <;>
        simpa [Event.dispatch, IronBeeDelegate.request_body, hz, notify, conn_balanced] using
          ⟨hle, hb⟩
  | response_body e =>
    cases mt with
    | none => simpa [Event.dispatch, IronBeeDelegate.response_body, conn_balanced] using
        ⟨hle, hb⟩
    | some tx =>
      by_cases hz : e.data.length = 0 <;>
        simpa [Event.dispatch, IronBeeDelegate.response_body, hz, notify, conn_balanced] using
          ⟨hle, hb⟩
  | response_finished e =>
    cases mt with
    | none => simpa [Event.dispatch, IronBeeDelegate.response_finished, conn_balanced] using
        ⟨hle, hb⟩
    | some tx =>
      cases hst : (E.reply w.trace (Notification.response_finished tx)).status <;>
        simpa [Event.dispatch, IronBeeDelegate.response_finished, notify, hst,
          Transaction.destroy, conn_balanced] using ⟨hle, hb⟩
  | request_started e =>
    cases mc with
    | none => simpa [Event.dispatch, IronBeeDelegate.request_started, conn_balanced] using
        ⟨hle, hb⟩
    | some c =>
      cases mt <;>
        simpa [Event.dispatch, IronBeeDelegate.request_started, notify, Transaction.create,
          Transaction.destroy, conn_balanced] using ⟨hle, hb⟩
  | _ =>
    cases mt <;>
      simpa [Event.dispatch, IronBeeDelegate.connection_data_in,
        IronBeeDelegate.connection_data_out, IronBeeDelegate.request_header,
        IronBeeDelegate.request_header_finished, IronBeeDelegate.request_finished,
        IronBeeDelegate.response_started, IronBeeDelegate.response_header,
        IronBeeDelegate.response_header_finished, notify, conn_balanced] using ⟨hle, hb⟩

/-- A dispatch keeps the connections in balance, whether it ends normally or
at an error. -/
theorem dispatch_conn_balanced (D0 : List Nat) (c0 : Nat) (evs : List Event)
    (d : IronBeeDelegate) (w : World) (h : conn_balanced D0 c0 d w) :
    conn_balanced D0 c0 (dispatch evs d w).delegate (dispatch evs d w).world := by
  induction evs generalizing d w with
  | nil => simpa [dispatch] using h
  | cons ev rest ih =>
    have h1 := event_conn_balanced D0 c0 ev d w h
    cases hth : (ev.dispatch d w).thrown with
    | some e => simpa [dispatch, hth] using h1
    | none =>
      have hd : dispatch (ev :: rest) d w
          = dispatch rest (ev.dispatch d w).delegate (ev.dispatch d w).world := by
        simp [dispatch, hth]
      rw [hd]
      exact ih _ _ h1

/-- C27. Every connection created by a tracker is destroyed exactly once.
For every event sequence, whether its dispatch ends normally or stops at an
error of the tracker or of the engine, after the dispatch and the teardown of
the delegate the connections destroyed since the start are exactly the
connections created since the start, in order of creation: as many
destructions as creations and no id twice. -/
theorem connections_destroyed_once (engine : Engine) (evs : List Event) (w : World) :
    w.conn_created
      ≤ ((dispatch evs (IronBeeDelegate.new engine) w).delegate.teardown
          (dispatch evs (IronBeeDelegate.new engine) w).world).conn_created ∧
    ((dispatch evs (IronBeeDelegate.new engine) w).delegate.teardown
        (dispatch evs (IronBeeDelegate.new engine) w).world).conn_created
      = (dispatch evs (IronBeeDelegate.new engine) w).world.conn_created ∧
    ((dispatch evs (IronBeeDelegate.new engine) w).delegate.teardown
        (dispatch evs (IronBeeDelegate.new engine) w).world).conn_destroyed
      = w.conn_destroyed ++ List.range' w.conn_created
          ((dispatch evs (IronBeeDelegate.new engine) w).world.conn_created
            - w.conn_created) ∧
    (List.range' w.conn_created
        ((dispatch evs (IronBeeDelegate.new engine) w).world.conn_created
          - w.conn_created)).length
      = (dispatch evs (IronBeeDelegate.new engine) w).world.conn_created - w.conn_created ∧
    (List.range' w.conn_created
        ((dispatch evs (IronBeeDelegate.new engine) w).world.conn_created
          - w.conn_created)).Nodup := by
  have h0 : conn_balanced w.conn_destroyed w.conn_created (IronBeeDelegate.new engine) w := by
    simp [conn_balanced, IronBeeDelegate.new, stale_ids]
  obtain ⟨hle, hb⟩ := dispatch_conn_balanced w.conn_destroyed w.conn_created evs _ w h0
  have ht : ∀ (d : IronBeeDelegate) (w1 : World),
      (d.teardown w1).conn_created = w1.conn_created ∧
      (d.teardown w1).conn_destroyed
        = w1.conn_destroyed ++ stale_ids d.m_connection Connection.id := by
    intro d w1
    obtain ⟨E, mc, mt⟩ := d
    cases mc <;> simp [IronBeeDelegate.teardown, Connection.destroy, stale_ids]
  refine ⟨?_, (ht _ _).1, ?_, by simp, List.nodup_range' _ _⟩
  · rw [(ht _ _).1]
    exact hle
  · rw [(ht _ _).2]
    exact hb

theorem resolve_append (a b : List action_e) (c : action_e) :
    resolve (a ++ b) c = resolve b (resolve a c) := by
  simp [resolve, List.foldl_append]

/-- Running action instances in order leaves the resolver at the last one. -/
theorem resolve_last (fired : List action_e) (c : action_e) :
    resolve fired c = fired.getLast?.getD c := by
  induction fired generalizing c with
  | nil => rfl
  | cons a rest ih =>
    have h : resolve (a :: rest) c = resolve rest a := rfl
    rw [h, ih]
    cases rest with
    | nil => rfl
    | cons b more =>
      rw [List.getLast?_cons_cons]
      cases hl : (b :: more).getLast? with
      | none => simp at hl
      | some x => rfl

theorem fired_during_append (engine : Engine) (seen s1 s2 : List Notification) :
    fired_during engine seen (s1 ++ s2)
      = fired_during engine seen s1 ++ fired_during engine (seen ++ s1) s2 := by
  induction s1 generalizing seen with
  | nil => simp [fired_during]
  | cons n rest ih => simp [fired_during, ih, List.append_assoc]

/-- Handling one event leaves the resolver where the action instances fired
for its notifications put it. -/
theorem event_dispatch_resolver (ev : Event) (d : IronBeeDelegate) (w : World) :
    ∃ sent, (ev.dispatch d w).world.trace = w.trace ++ sent ∧
      (ev.dispatch d w).world.current_action
        = resolve (fired_during d.m_engine w.trace sent) w.current_action := by
  obtain ⟨E, mc, mt⟩ := d
  cases ev with
  | request_body e =>
    cases mt with
    | none => exact ⟨[], by simp [Event.dispatch, IronBeeDelegate.request_body], rfl⟩
    | some tx =>
      by_cases hz : e.data.length = 0
      · exact ⟨[], by simp [Event.dispatch, IronBeeDelegate.request_body, hz],
          by simp [Event.dispatch, IronBeeDelegate.request_body, hz, resolve, fired_during]⟩
      · exact ⟨[Notification.request_body_data tx
            (ByteString.create_alias e.data.data e.data.length)],
          by simp [Event.dispatch, IronBeeDelegate.request_body, hz, notify],
          by simp [Event.dispatch, IronBeeDelegate.request_body, hz, notify, resolve,
            fired_during]⟩
  | response_body e =>
    cases mt with
    | none => exact ⟨[], by simp [Event.dispatch, IronBeeDelegate.response_body], rfl⟩
    | some tx =>
      by_cases hz : e.data.length = 0
      · exact ⟨[], by simp [Event.dispatch, IronBeeDelegate.response_body, hz],
          by simp [Event.dispatch, IronBeeDelegate.response_body, hz, resolve, fired_during]⟩
      · exact ⟨[Notification.response_body_data tx
            (ByteString.create_alias e.data.data e.data.length)],
          by simp [Event.dispatch, IronBeeDelegate.response_body, hz, notify],
          by simp [Event.dispatch, IronBeeDelegate.response_body, hz, notify, resolve,
            fired_during]⟩
  | connection_closed e =>
    cases mc with
    | none => exact ⟨[], by simp [Event.dispatch, IronBeeDelegate.connection_closed], rfl⟩
    | some c =>
      refine ⟨[Notification.connection_closed c], ?_, ?_⟩ <;>
        cases hst : (E.reply w.trace (Notification.connection_closed c)).status <;>
        simp [Event.dispatch, IronBeeDelegate.connection_closed, notify, hst,
          Connection.destroy, resolve, fired_during]
  | response_finished e =>
    cases mt with
    | none => exact ⟨[], by simp [Event.dispatch, IronBeeDelegate.response_finished], rfl⟩
    | some tx =>
      refine ⟨[Notification.response_finished tx], ?_, ?_⟩ <;>
        cases hst : (E.reply w.trace (Notification.response_finished tx)).status <;>
        simp [Event.dispatch, IronBeeDelegate.response_finished, notify, hst,
          Transaction.destroy, resolve, fired_during]
  | connection_opened e =>
    cases mc <;>
      exact ⟨[_], rfl,
        by simp [Event.dispatch, IronBeeDelegate.connection_opened, notify,
          Connection.create, Connection.destroy, resolve, fired_during]⟩
  | request_started e =>
    cases mc with
    | none => exact ⟨[], by simp [Event.dispatch, IronBeeDelegate.request_started], rfl⟩
    | some c =>
      cases mt <;>
        exact ⟨[_], rfl,
          by simp [Event.dispatch, IronBeeDelegate.request_started, notify,
            Transaction.create, Transaction.destroy, resolve, fired_during]⟩
  | connection_data_in e =>
    exact ⟨[], by simp [Event.dispatch, IronBeeDelegate.connection_data_in], rfl⟩
  | connection_data_out e =>
    exact ⟨[], by simp [Event.dispatch, IronBeeDelegate.connection_data_out], rfl⟩
  | request_header e =>
    cases mt with
    | none => exact ⟨[], by simp [Event.dispatch, IronBeeDelegate.request_header], rfl⟩
    | some tx =>
      exact ⟨[_], rfl,
        by simp [Event.dispatch, IronBeeDelegate.request_header, notify, resolve,
          fired_during]⟩
  | request_header_finished e =>
    cases mt with
    | none =>
      exact ⟨[], by simp [Event.dispatch, IronBeeDelegate.request_header_finished], rfl⟩
    | some tx =>
      exact ⟨[_], rfl,
        by simp [Event.dispatch, IronBeeDelegate.request_header_finished, notify, resolve,
          fired_during]⟩
  | request_finished e =>
    cases mt with
    | none => exact ⟨[], by simp [Event.dispatch, IronBeeDelegate.request_finished], rfl⟩
    | some tx =>
      exact ⟨[_], rfl,
        by simp [Event.dispatch, IronBeeDelegate.request_finished, notify, resolve,
          fired_during]⟩
  | response_started e =>
    cases mt with
    | none => exact ⟨[], by simp [Event.dispatch, IronBeeDelegate.response_started], rfl⟩
    | some tx =>
      exact ⟨[_], rfl,
        by simp [Event.dispatch, IronBeeDelegate.response_started, notify, resolve,
          fired_during]⟩
  | response_header e =>
    cases mt with
    | none => exact ⟨[], by simp [Event.dispatch, IronBeeDelegate.response_header], rfl⟩
    | some tx =>
      exact ⟨[_], rfl,
        by simp [Event.dispatch, IronBeeDelegate.response_header, notify, resolve,
          fired_during]⟩
  | response_header_finished e =>
    cases mt with
    | none =>
      exact ⟨[], by simp [Event.dispatch, IronBeeDelegate.response_header_finished], rfl⟩
    | some tx =>
      exact ⟨[_], rfl,
        by simp [Event.dispatch, IronBeeDelegate.response_header_finished, notify, resolve,
          fired_during]⟩

/-- A dispatch leaves the resolver where the action instances fired for its
notifications put it. -/
theorem dispatch_resolver (evs : List Event) (d : IronBeeDelegate) (w : World) :
    ∃ sent, (dispatch evs d w).world.trace = w.trace ++ sent ∧
      (dispatch evs d w).world.current_action
        = resolve (fired_during d.m_engine w.trace sent) w.current_action := by
  induction evs generalizing d w with
  | nil => exact ⟨[], by simp [dispatch], rfl⟩
  | cons ev rest ih =>
    obtain ⟨s1, ht1, ha1⟩ := event_dispatch_resolver ev d w
    cases hth : (ev.dispatch d w).thrown with
    | some e =>
      refine ⟨s1, ?_, ?_⟩
      · simpa [dispatch, hth] using ht1
      · simpa [dispatch, hth] using ha1
    | none =>
      have hd : dispatch (ev :: rest) d w
          = dispatch rest (ev.dispatch d w).delegate (ev.dispatch d w).world := by
        simp [dispatch, hth]
      obtain ⟨s2, ht2, ha2⟩ := ih (ev.dispatch d w).delegate (ev.dispatch d w).world
      rw [(event_silent_action ev d w).1] at ha2
      refine ⟨s1 ++ s2, ?_, ?_⟩
      · rw [hd, ht2, ht1, List.append_assoc]
      · rw [hd, ha2, ht1, ha1, fired_during_append, resolve_append]

/-- C25. The registered action callback only stores the requested outcome.
The instances generated for "allow", "block" and "break" set the resolver to
Allow, Block and Break whatever it held; firing them during a notification
changes nothing else in the world; running several in order leaves the
resolver at the last one; and so the resolver after a dispatch is the last
instance fired during it (the reset value if none fired), which alone decides
the driver's outcome when the dispatch completes. -/
theorem action_instance_stores_outcome (m : IronBeeModifier) (inp : Input) (w : World) :
    (∀ to_, ∃ inst, clipp_action_generator "allow" to_ = (Except.ok inst, to_) ∧
      ∀ prev, inst prev = action_e.ACTION_ALLOW) ∧
    (∀ to_, ∃ inst, clipp_action_generator "block" to_ = (Except.ok inst, to_) ∧
      ∀ prev, inst prev = action_e.ACTION_BLOCK) ∧
    (∀ to_, ∃ inst, clipp_action_generator "break" to_ = (Except.ok inst, to_) ∧
      ∀ prev, inst prev = action_e.ACTION_BREAK) ∧
    (∀ (E : Engine) (n : Notification) (w0 : World),
      (notify E n w0).2.current_action = resolve (E.reply w0.trace n).fired w0.current_action ∧
      (notify E n w0).2.conn_created = w0.conn_created ∧
      (notify E n w0).2.conn_destroyed = w0.conn_destroyed ∧
      (notify E n w0).2.tx_created = w0.tx_created ∧
      (notify E n w0).2.tx_destroyed = w0.tx_destroyed) ∧
    (∀ (fired : List action_e) (c : action_e), resolve fired c = fired.getLast?.getD c) ∧
    (∃ sent, (m.dispatched inp w).world.trace = w.trace ++ sent ∧
      (m.dispatched inp w).world.current_action
        = (fired_during m.engine w.trace sent).getLast?.getD (m.reset w).current_action ∧
      ((m.dispatched inp w).thrown = none →
        (m.call (some inp) w).outcome
          = action_outcome
              ((fired_during m.engine w.trace sent).getLast?.getD
                (m.reset w).current_action))) := by
  refine ⟨fun to_ => ⟨clipp_action_instance action_e.ACTION_ALLOW,
      by simp [clipp_action_generator], fun _ => rfl⟩,
    fun to_ => ⟨clipp_action_instance action_e.ACTION_BLOCK,
      by simp [clipp_action_generator], fun _ => rfl⟩,
    fun to_ => ⟨clipp_action_instance action_e.ACTION_BREAK,
      by simp [clipp_action_generator], fun _ => rfl⟩,
    fun E n w0 => ⟨rfl, rfl, rfl, rfl, rfl⟩, resolve_last, ?_⟩
  have hrt : (m.reset w).trace = w.trace := by
    obtain ⟨b, E⟩ := m
    cases b <;> rfl
  obtain ⟨sent, ht, ha⟩ := dispatch_resolver inp.connection (IronBeeDelegate.new m.engine)
    (m.reset w)
  rw [hrt] at ht ha
  rw [resolve_last] at ha
  have ha1 : (m.dispatched inp w).world.current_action
      = (fired_during m.engine w.trace sent).getLast?.getD (m.reset w).current_action := ha
  refine ⟨sent, ht, ha1, ?_⟩
  intro hth
  rw [← ha1]
  cases hca : (m.dispatched inp w).world.current_action <;>
    simp [IronBeeModifier.call, hth, hca, action_outcome]

/-- Witness for C25: on the sample input the engine fires Block, Break and
Allow on every notification; the dispatch completes and the driver
accepts. -/
theorem action_instance_stores_outcome_witness :
    (IronBeeModifier.dispatched { behavior := behavior_e.BLOCK, engine := Engine.firing_three }
        sample_input World.fresh).thrown = none ∧
    (IronBeeModifier.call { behavior := behavior_e.BLOCK, engine := Engine.firing_three }
        (some sample_input) World.fresh).outcome = Outcome.returned true ∧
    (∃ sent,
      (IronBeeModifier.dispatched
          { behavior := behavior_e.BLOCK, engine := Engine.firing_three }
          sample_input World.fresh).world.trace = World.fresh.trace ++ sent ∧
      (IronBeeModifier.dispatched
          { behavior := behavior_e.BLOCK, engine := Engine.firing_three }
          sample_input World.fresh).world.current_action
        = (fired_during Engine.firing_three World.fresh.trace sent).getLast?.getD
            (IronBeeModifier.reset
              { behavior := behavior_e.BLOCK, engine := Engine.firing_three }
              World.fresh).current_action) :=
  ⟨by decide, by decide,
   (action_instance_stores_outcome
      { behavior := behavior_e.BLOCK, engine := Engine.firing_three }
      sample_input World.fresh).2.2.2.2.2.imp (fun _ h => ⟨h.1, h.2.1⟩)⟩

/-- C29. The action generator accepts exactly three parameter strings.  For
every other string, compared exactly and with case, it throws einval, gives no
action instance and leaves the resolver as it was; for "allow", "block" and
"break" it gives an instance. -/
theorem generator_rejects_other_parameters (parameters : String) (to_ : action_e)
    (ha : parameters ≠ "allow") (hb : parameters ≠ "block") (hk : parameters ≠ "break") :
    clipp_action_generator parameters to_ = (Except.error einval, to_) ∧
    (∀ inst, (clipp_action_generator parameters to_).1 ≠ Except.ok inst) ∧
    (clipp_action_generator parameters to_).2 = to_ ∧
    einval = Error.ib_error IB_EINVAL ∧
    (∀ p, p = "allow" ∨ p = "block" ∨ p = "break" →
      ∃ inst, (clipp_action_generator p to_).1 = Except.ok inst) := by
  have hg : clipp_action_generator parameters to_ = (Except.error einval, to_) := by
    simp [clipp_action_generator, ha, hb, hk]
  refine ⟨hg, ?_, ?_, rfl, ?_⟩
  · intro inst
    rw [hg]
    simp
  · rw [hg]
  · intro p hp
    rcases hp with h | h | h
    · subst h
      exact ⟨clipp_action_instance action_e.ACTION_ALLOW, by simp [clipp_action_generator]⟩
    · subst h
      exact ⟨clipp_action_instance action_e.ACTION_BLOCK, by simp [clipp_action_generator]⟩
    · subst h
      exact ⟨clipp_action_instance action_e.ACTION_BREAK, by simp [clipp_action_generator]⟩

/-- Witness for C29: the parameters "Allow", "" and "block " are rejected. -/
theorem generator_rejects_other_parameters_witness :
    clipp_action_generator "Allow" action_e.ACTION_BLOCK
      = (Except.error einval, action_e.ACTION_BLOCK) ∧
    clipp_action_generator "" action_e.ACTION_BLOCK
      = (Except.error einval, action_e.ACTION_BLOCK) ∧
    clipp_action_generator "block " action_e.ACTION_BREAK
      = (Except.error einval, action_e.ACTION_BREAK) :=
  ⟨(generator_rejects_other_parameters "Allow" action_e.ACTION_BLOCK
      (by decide) (by decide) (by decide)).1,
   (generator_rejects_other_parameters "" action_e.ACTION_BLOCK
      (by decide) (by decide) (by decide)).1,
   (generator_rejects_other_parameters "block " action_e.ACTION_BREAK
      (by decide) (by decide) (by decide)).1⟩

end CLIPP

namespace Modules

open CLIPP

/-- C26, evaluated on the code.  The tag test is `strncmp(tag, "lua", 3)`,
which compares three bytes only: a tag whose first three bytes differ from
"lua" gets IB_EINVAL with nothing but the log call made, but the tag "luax",
which is not "lua", passes the test; the driver then reads the configuration
context, loads the Lua code and, when every call succeeds, returns IB_OK. -/
theorem lua_driver_accepts_longer_tag :
    "luax" ≠ "lua" ∧
    strncmp (c_str "luax") (c_str "lua") 3 = 0 ∧
    (modlua_rule_driver DriverEnv.all_ok "luax" "rules/a.lua").1 = IB_OK ∧
    (modlua_rule_driver DriverEnv.all_ok "luax" "rules/a.lua").1 ≠ IB_EINVAL ∧
    DriverCall.ib_cfgparser_context_current
      ∈ (modlua_rule_driver DriverEnv.all_ok "luax" "rules/a.lua").2 ∧
    DriverCall.ib_lua_load_func "rules/a.lua"
      ∈ (modlua_rule_driver DriverEnv.all_ok "luax" "rules/a.lua").2 ∧
    (∀ (env : DriverEnv) (tag location : String),
      strncmp (c_str tag) (c_str "lua") 3 ≠ 0 →
      modlua_rule_driver env tag location
        = (IB_EINVAL,
            [DriverCall.ib_cfg_log_error "Lua rule driver called for non-lua tag."])) ∧
    (modlua_rule_driver DriverEnv.all_ok "perl" "rules/a.lua")
      = (IB_EINVAL,
          [DriverCall.ib_cfg_log_error "Lua rule driver called for non-lua tag."]) := by
  refine ⟨by decide, by decide, by decide, by decide, by decide, by decide, ?_, by decide⟩
  intro env tag location h
  simp [modlua_rule_driver, h]

/-- C30. `pm_operator_execute` maps the status of the search: for a NULSTR
field (searched up to its first NUL) or a BYTESTR field (searched in full),
IB_ENOENT gives result 0 and status IB_OK; IB_OK gives status IB_OK and result
1 exactly when the match count is greater than 0, else 0; any other status is
returned as it is with the result not written.  A field of another type gets
IB_EALLOC with no search and the result not written. -/
theorem pm_operator_maps_status (ib_ac_consume : List Nat → ib_status_t × Nat)
    (field : ib_field_t) (result : Int) :
    (∀ subject, pm_subject field = some subject →
      (pm_operator_execute ib_ac_consume field result).searched = [subject] ∧
      ((ib_ac_consume subject).1 = IB_ENOENT →
        (pm_operator_execute ib_ac_consume field result).status = IB_OK ∧
        (pm_operator_execute ib_ac_consume field result).result = 0) ∧
      ((ib_ac_consume subject).1 = IB_OK →
        (pm_operator_execute ib_ac_consume field result).status = IB_OK ∧
        ((ib_ac_consume subject).2 > 0 →
          (pm_operator_execute ib_ac_consume field result).result = 1) ∧
        (¬ (ib_ac_consume subject).2 > 0 →
          (pm_operator_execute ib_ac_consume field result).result = 0)) ∧
      ((ib_ac_consume subject).1 ≠ IB_ENOENT → (ib_ac_consume subject).1 ≠ IB_OK →
        (pm_operator_execute ib_ac_consume field result).status = (ib_ac_consume subject).1 ∧
        (pm_operator_execute ib_ac_consume field result).result = result)) ∧
    (pm_subject field = none →
      pm_operator_execute ib_ac_consume field result
        = { status := IB_EALLOC, result := result, searched := [] }) ∧
    ((∃ type, field = ib_field_t.other type) ↔ pm_subject field = none) := by
  have hne : IB_ENOENT ≠ IB_OK := by decide
  have key : ∀ (subject : List Nat) (len : Nat),
      (pm_search ib_ac_consume subject len result).searched = [subject.take len] ∧
      ((ib_ac_consume (subject.take len)).1 = IB_ENOENT →
        (pm_search ib_ac_consume subject len result).status = IB_OK ∧
        (pm_search ib_ac_consume subject len result).result = 0) ∧
      ((ib_ac_consume (subject.take len)).1 = IB_OK →
        (pm_search ib_ac_consume subject len result).status = IB_OK ∧
        ((ib_ac_consume (subject.take len)).2 > 0 →
          (pm_search ib_ac_consume subject len result).result = 1) ∧
        (¬ (ib_ac_consume (subject.take len)).2 > 0 →
          (pm_search ib_ac_consume subject len result).result = 0)) ∧
      ((ib_ac_consume (subject.take len)).1 ≠ IB_ENOENT →
        (ib_ac_consume (subject.take len)).1 ≠ IB_OK →
        (pm_search ib_ac_consume subject len result).status
          = (ib_ac_consume (subject.take len)).1 ∧
        (pm_search ib_ac_consume subject len result).result = result) := by
    intro subject len
    refine ⟨?_, ?_, ?_, ?_⟩
    · unfold pm_search
      simp only
      split
      · rfl
      · split <;> rfl
    · intro h
      simp [pm_search, h]
    · intro h
      have h2 : ¬ (ib_ac_consume (List.take len subject)).1 = IB_ENOENT := by
        rw [h]
        exact fun hh => hne hh.symm
      refine ⟨by simp [pm_search, h, h2, Ne.symm hne], ?_, ?_⟩
      · intro hm
        simp [pm_search, h, h2, hm, Ne.symm hne]
      · intro hm
        simp [pm_search, h, h2, hm, Ne.symm hne]
    · intro h1 h2
      simp [pm_search, h1, h2]
  refine ⟨?_, ?_, ?_⟩
  · intro subject hf
    cases field with
    | IB_FTYPE_NULSTR s =>
      simp only [pm_subject, Option.some.injEq] at hf
      subst hf
      exact key s (strlen s)
    | IB_FTYPE_BYTESTR b =>
      simp only [pm_subject, Option.some.injEq] at hf
      subst hf
      have := key b b.length
      simpa [pm_operator_execute] using this
    | other type => simp [pm_subject] at hf
  · intro hf
    cases field with
    | IB_FTYPE_NULSTR s => simp [pm_subject] at hf
    | IB_FTYPE_BYTESTR b => simp [pm_subject] at hf
    | other type => rfl
  · cases field <;> simp [pm_subject]

/-- Witness for C30: a byte-string field on a search that finds two matches,
a C-string field on a search that finds none, and a field of another type. -/
theorem pm_operator_maps_status_witness :
    pm_subject (ib_field_t.IB_FTYPE_BYTESTR [97, 0, 98]) = some [97, 0, 98] ∧
    (pm_operator_execute (constant_search IB_OK 2)
        (ib_field_t.IB_FTYPE_BYTESTR [97, 0, 98]) 7).status = IB_OK ∧
    (pm_operator_execute (constant_search IB_OK 2)
        (ib_field_t.IB_FTYPE_BYTESTR [97, 0, 98]) 7).result = 1 ∧
    pm_subject (ib_field_t.IB_FTYPE_NULSTR [97, 0, 98]) = some [97] ∧
    (pm_operator_execute (constant_search IB_ENOENT 0)
        (ib_field_t.IB_FTYPE_NULSTR [97, 0, 98]) 7).result = 0 ∧
    pm_operator_execute (constant_search IB_OK 2) (ib_field_t.other 1) 7
      = { status := IB_EALLOC, result := 7, searched := [] } :=
  ⟨rfl,
   (((pm_operator_maps_status (constant_search IB_OK 2)
        (ib_field_t.IB_FTYPE_BYTESTR [97, 0, 98]) 7).1 [97, 0, 98] rfl).2.2.1 rfl).1,
   (((pm_operator_maps_status (constant_search IB_OK 2)
        (ib_field_t.IB_FTYPE_BYTESTR [97, 0, 98]) 7).1 [97, 0, 98] rfl).2.2.1 rfl).2.1
      (by decide),
   rfl,
   (((pm_operator_maps_status (constant_search IB_ENOENT 0)
        (ib_field_t.IB_FTYPE_NULSTR [97, 0, 98]) 7).1 [97] rfl).2.1 rfl).2,
   (pm_operator_maps_status (constant_search IB_OK 2) (ib_field_t.other 1) 7).2.1 rfl⟩

end Modules

namespace CLIPP

/-- Count of a predicate after one element of a list is replaced. -/
theorem countP_set_get {α : Type} (p : α → Bool) (l : List α) (i : Nat) (a b : α)
    (h : l.get? i = some a) :
    (l.set i b).countP p + (if p a then 1 else 0)
      = l.countP p + (if p b then 1 else 0) := by
  induction l generalizing i with
  | nil => simp at h
  | cons x l ih =>
    cases i with
    | zero =>
      simp only [List.get?_cons_zero, Option.some.injEq] at h
      subst h
      simp only [List.set_cons_zero, List.countP_cons]
      omega
    | succ i =>
      simp only [List.get?_cons_succ] at h
      have := ih i h
      simp only [List.set_cons_succ, List.countP_cons]
      omega

/-- The element at another place is not touched by a replacement. -/
theorem get_set_other {α : Type} (l : List α) (k i : Nat) (a b c : α)
    (hk : l.get? k = some a) (hi : l.get? i = some c) (hne : a ≠ c) :
    (l.set k b).get? i = some c := by
  have hki : k ≠ i := by
    intro h
    subst h
    rw [hk] at hi
    exact hne (Option.some.inj hi)
  simp only [List.get?_eq_getElem?] at hi ⊢
  rw [List.getElem?_set_ne hki]
  exact hi

/-- An element that does not count keeps the count below the length. -/
theorem countP_lt_length_of_get {α : Type} (p : α → Bool) (l : List α) (i : Nat) (c : α)
    (hi : l.get? i = some c) (hc : p c = false) : l.countP p < l.length := by
  induction l generalizing i with
  | nil => simp at hi
  | cons x l ih =>
    cases i with
    | zero =>
      simp only [List.get?_cons_zero, Option.some.injEq] at hi
      subst hi
      have := List.countP_le_length p (l := l)
      simp only [List.countP_cons, hc, List.length_cons]
      simp
      omega
    | succ i =>
      simp only [List.get?_cons_succ] at hi
      have := ih i hi
      simp only [List.countP_cons, List.length_cons]
      split <;> omega

/-- Replacing a worker state by one that counts the same keeps the count. -/
theorem countP_set_same {WorkType : Type} (l : List (WorkerState WorkType)) (i : Nat)
    (a b : WorkerState WorkType) (h : l.get? i = some a)
    (hab : FunctionWorkerPool.idle_counted a = FunctionWorkerPool.idle_counted b) :
    (l.set i b).countP FunctionWorkerPool.idle_counted
      = l.countP FunctionWorkerPool.idle_counted := by
  have := countP_set_get FunctionWorkerPool.idle_counted l i a b h
  rw [hab] at this
  omega

/-- Releasing the thread blocked in the barrier changes no bookkeeping. -/
theorem release_bookkeeping {WorkType σ : Type} (s : FunctionWorkerPool WorkType σ)
    (t : ThreadId) :
    (s.release t).workers.length = s.workers.length ∧
    (s.release t).workers.countP FunctionWorkerPool.idle_counted
      = s.workers.countP FunctionWorkerPool.idle_counted ∧
    (s.release t).m_num_workers = s.m_num_workers ∧
    (s.release t).m_num_workers_available = s.m_num_workers_available := by
  cases t with
  | worker k =>
    simp only [FunctionWorkerPool.release]
    split
    · rename_i lw hk
      exact ⟨by simp, countP_set_same _ _ _ _ hk rfl, rfl, rfl⟩
    · exact ⟨rfl, rfl, rfl, rfl⟩
  | submitter j =>
    simp only [FunctionWorkerPool.release]
    split <;> exact ⟨rfl, rfl, rfl, rfl⟩

/-- The end of a wait on `m_worker_available_cv` changes no bookkeeping. -/
theorem end_wait_bookkeeping {WorkType σ : Type} (s s1 : FunctionWorkerPool WorkType σ)
    (t : Waiter) (h : s.end_wait t = some s1) :
    s1.workers = s.workers ∧ s1.m_num_workers = s.m_num_workers ∧
    s1.m_num_workers_available = s.m_num_workers_available := by
  cases t with
  | submitter j =>
    simp only [FunctionWorkerPool.end_wait] at h
    split at h
    · simp only [Option.some.injEq] at h
      subst h
      exact ⟨rfl, rfl, rfl⟩
    · simp at h
  | shutdown =>
    simp only [FunctionWorkerPool.end_wait] at h
    split at h
    · simp only [Option.some.injEq] at h
      subst h
      exact ⟨rfl, rfl, rfl⟩
    · simp at h

/-- The end of a wait on `m_work_available_cv` moves one worker that counts
as idle to another state that counts as idle. -/
theorem end_work_wait_bookkeeping {WorkType σ : Type} (s s1 : FunctionWorkerPool WorkType σ)
    (i : Nat) (h : s.end_work_wait i = some s1) :
    s1.workers.length = s.workers.length ∧
    s1.workers.countP FunctionWorkerPool.idle_counted
      = s.workers.countP FunctionWorkerPool.idle_counted ∧
    s1.m_num_workers = s.m_num_workers ∧
    s1.m_num_workers_available = s.m_num_workers_available := by
  simp only [FunctionWorkerPool.end_work_wait] at h
  split at h
  · rename_i hi
    simp only [Option.some.injEq] at h
    subst h
    exact ⟨by simp, countP_set_same _ _ _ _ hi rfl, rfl, rfl⟩
  · simp at h

/-- Carrying the bookkeeping over to a state with the same counts. -/
theorem bookkeeping_of_same {WorkType σ : Type} (s s1 : FunctionWorkerPool WorkType σ)
    (h : s.bookkeeping) (hl : s1.workers.length = s.workers.length)
    (hc : s1.workers.countP FunctionWorkerPool.idle_counted
      = s.workers.countP FunctionWorkerPool.idle_counted)
    (hn : s1.m_num_workers = s.m_num_workers)
    (ha : s1.m_num_workers_available = s.m_num_workers_available) : s1.bookkeeping := by
  obtain ⟨h1, h2, h3⟩ := h
  exact ⟨by rw [hl, hn, h1], by rw [hn]; exact h2, by rw [ha, hc, h3]⟩

/-- Releasing the thread blocked in the barrier leaves every worker that is
not blocked there as it is. -/
theorem release_get_other {WorkType σ : Type} (s : FunctionWorkerPool WorkType σ)
    (t : ThreadId) (i : Nat) (c : WorkerState WorkType) (hi : s.workers.get? i = some c)
    (hc : ∀ lw, c ≠ WorkerState.accept_wait lw) :
    (s.release t).workers.get? i = some c := by
  cases t with
  | worker k =>
    simp only [FunctionWorkerPool.release]
    split
    · rename_i lw hk
      exact get_set_other _ _ _ _ _ _ hk hi (fun h => hc lw h.symm)
    · exact hi
  | submitter j =>
    simp only [FunctionWorkerPool.release]
    split <;> exact hi


/-- The bookkeeping passes to a state with one idle worker less and the
counter decremented: the counter was positive, so it does not wrap. -/
theorem bookkeeping_of_taken {WorkType σ : Type} (s s1 : FunctionWorkerPool WorkType σ)
    (h : s.bookkeeping) (hl : s1.workers.length = s.workers.length)
    (hc : s1.workers.countP FunctionWorkerPool.idle_counted + 1
      = s.workers.countP FunctionWorkerPool.idle_counted)
    (hn : s1.m_num_workers = s.m_num_workers)
    (ha : s1.m_num_workers_available = size_t_decrement s.m_num_workers_available) :
    s1.bookkeeping := by
  obtain ⟨h1, h2, h3⟩ := h
  have hle := List.countP_le_length FunctionWorkerPool.idle_counted (l := s.workers)
  refine ⟨by rw [hl, hn]; exact h1, by rw [hn]; exact h2, ?_⟩
  rw [ha, h3]
  unfold size_t_range at h2
  unfold size_t_decrement
  omega

/-- The bookkeeping passes to a state with one idle worker more and the
counter incremented: there are fewer than 2^64 workers, so it does not wrap. -/
theorem bookkeeping_of_marked {WorkType σ : Type} (s s1 : FunctionWorkerPool WorkType σ)
    (h : s.bookkeeping) (hl : s1.workers.length = s.workers.length)
    (hc : s1.workers.countP FunctionWorkerPool.idle_counted
      = s.workers.countP FunctionWorkerPool.idle_counted + 1)
    (hn : s1.m_num_workers = s.m_num_workers)
    (ha : s1.m_num_workers_available = size_t_increment s.m_num_workers_available) :
    s1.bookkeeping := by
  obtain ⟨h1, h2, h3⟩ := h
  have hle := List.countP_le_length FunctionWorkerPool.idle_counted (l := s1.workers)
  refine ⟨by rw [hl, hn]; exact h1, by rw [hn]; exact h2, ?_⟩
  rw [ha, h3]
  unfold size_t_range at h2
  unfold size_t_increment
  omega

/-- Taking work keeps the bookkeeping: the worker counted as idle, so the
counter is positive and the decrement does not wrap. -/
theorem take_work_bookkeeping {WorkType σ : Type} (s : FunctionWorkerPool WorkType σ)
    (i : Nat) (a : WorkerState WorkType) (h : s.bookkeeping) (hi : s.workers.get? i = some a)
    (ha : FunctionWorkerPool.idle_counted a = true) : (s.take_work i).bookkeeping := by
  have hc : (s.workers.set i (WorkerState.accept s.m_work)).countP
      FunctionWorkerPool.idle_counted + 1
      = s.workers.countP FunctionWorkerPool.idle_counted := by
    have := countP_set_get FunctionWorkerPool.idle_counted s.workers i a
      (WorkerState.accept s.m_work) hi
    rw [ha] at this
    simpa [FunctionWorkerPool.idle_counted] using this
  have hd : (s.take_work i).m_num_workers = s.m_num_workers ∧
      (s.take_work i).m_num_workers_available
        = size_t_decrement s.m_num_workers_available := by
    unfold FunctionWorkerPool.take_work
    exact ⟨Eq.refl _, Eq.refl _⟩
  exact bookkeeping_of_taken s (s.take_work i) h (List.length_set _ _ _) hc hd.1 hd.2


/-- One step of a worker keeps the bookkeeping. -/
theorem worker_step_bookkeeping {WorkType σ : Type} (f : WorkType → σ → Option Error × σ)
    (s s1 : FunctionWorkerPool WorkType σ) (i : Nat) (wake : Option Waiter)
    (h : s.bookkeeping) (hstep : s.worker_step f i wake = some s1) : s1.bookkeeping := by
  unfold FunctionWorkerPool.worker_step at hstep
  split at hstep
  · simp at hstep
  · rename_i hi
    simp only [Option.some.injEq] at hstep
    subst hstep
    have hc := countP_set_get FunctionWorkerPool.idle_counted s.workers i _
      WorkerState.idle_signal hi
    simp [FunctionWorkerPool.idle_counted] at hc
    exact bookkeeping_of_marked s _ h (List.length_set _ _ _) hc rfl rfl
  · rename_i hi
    split at hstep
    · simp at hstep
    · rename_i s2 hn
      simp only [Option.some.injEq] at hstep
      subst hstep
      have hw : s2.workers = s.workers ∧ s2.m_num_workers = s.m_num_workers ∧
          s2.m_num_workers_available = s.m_num_workers_available := by
        unfold FunctionWorkerPool.notify_worker_available at hn
        split at hn
        · exact end_wait_bookkeeping s s2 _ hn
        · split at hn
          · simp at hn
          · simp only [Option.some.injEq] at hn
            subst hn
            exact ⟨rfl, rfl, rfl⟩
      obtain ⟨hw1, hw2, hw3⟩ := hw
      rw [← hw1] at hi
      exact bookkeeping_of_same s _ h (by simp [hw1])
        (by rw [← hw1]; exact countP_set_same _ _ _ _ hi rfl) hw2 hw3
  · rename_i hi
    split at hstep
    · simp only [Option.some.injEq] at hstep
      subst hstep
      exact take_work_bookkeeping s i _ h hi rfl
    · simp only [Option.some.injEq] at hstep
      subst hstep
      exact bookkeeping_of_same s _ h (by simp) (countP_set_same _ _ _ _ hi rfl) rfl rfl
  · simp at hstep
  · rename_i hi
    split at hstep
    · simp only [Option.some.injEq] at hstep
      subst hstep
      exact bookkeeping_of_same s _ h (by simp) (countP_set_same _ _ _ _ hi rfl) rfl rfl
    · split at hstep
      · simp only [Option.some.injEq] at hstep
        subst hstep
        exact take_work_bookkeeping s i _ h hi rfl
      · simp only [Option.some.injEq] at hstep
        subst hstep
        exact bookkeeping_of_same s _ h (by simp) (countP_set_same _ _ _ _ hi rfl) rfl rfl
  · rename_i lw hi
    split at hstep
    · simp only [Option.some.injEq] at hstep
      subst hstep
      exact bookkeeping_of_same s _ h (by simp) (countP_set_same _ _ _ _ hi rfl) rfl rfl
    · rename_i t ht
      simp only [Option.some.injEq] at hstep
      subst hstep
      obtain ⟨r1, r2, r3, r4⟩ := release_bookkeeping s t
      have hi2 := release_get_other s t i _ hi (by intro lw0; simp)
      exact bookkeeping_of_same s _ h (by simp [r1])
        (by rw [← r2]; exact countP_set_same _ _ _ _ hi2 rfl) r3 r4
  · simp at hstep
  · rename_i lw hi
    split at hstep
    · simp only [Option.some.injEq] at hstep
      subst hstep
      exact bookkeeping_of_same s _ h (by simp) (countP_set_same _ _ _ _ hi rfl) rfl rfl
    · simp only [Option.some.injEq] at hstep
      subst hstep
      exact bookkeeping_of_same s _ h (by simp) (countP_set_same _ _ _ _ hi rfl) rfl rfl
  · simp at hstep
  · simp at hstep


/-- The outcome of `notify_one` on `m_worker_available_cv` leaves the workers
and the counters as they are. -/
theorem notify_worker_available_same {WorkType σ : Type}
    (s s2 : FunctionWorkerPool WorkType σ) (wake : Option Waiter)
    (hn : s.notify_worker_available wake = some s2) :
    s2.workers = s.workers ∧ s2.m_num_workers = s.m_num_workers ∧
      s2.m_num_workers_available = s.m_num_workers_available := by
  unfold FunctionWorkerPool.notify_worker_available at hn
  split at hn
  · exact end_wait_bookkeeping s s2 _ hn
  · split at hn
    · simp at hn
    · simp only [Option.some.injEq] at hn
      subst hn
      exact ⟨rfl, rfl, rfl⟩

/-- The outcome of `notify_one` on `m_work_available_cv` keeps the number of
workers, the number of them that count as idle, and the counters. -/
theorem notify_work_available_bookkeeping {WorkType σ : Type}
    (s s2 : FunctionWorkerPool WorkType σ) (wake : Option Nat)
    (hn : s.notify_work_available wake = some s2) :
    s2.workers.length = s.workers.length ∧
    s2.workers.countP FunctionWorkerPool.idle_counted
      = s.workers.countP FunctionWorkerPool.idle_counted ∧
    s2.m_num_workers = s.m_num_workers ∧
    s2.m_num_workers_available = s.m_num_workers_available := by
  unfold FunctionWorkerPool.notify_work_available at hn
  split at hn
  · exact end_work_wait_bookkeeping s s2 _ hn
  · split at hn
    · simp at hn
    · simp only [Option.some.injEq] at hn
      subst hn
      exact ⟨rfl, rfl, rfl, rfl⟩

/-- Waking every waiting worker keeps the number of workers and the number
of them that count as idle. -/
theorem notify_all_bookkeeping {WorkType σ : Type} (s : FunctionWorkerPool WorkType σ) :
    s.notify_all_work_available.workers.length = s.workers.length ∧
    s.notify_all_work_available.workers.countP FunctionWorkerPool.idle_counted
      = s.workers.countP FunctionWorkerPool.idle_counted := by
  refine ⟨by simp [FunctionWorkerPool.notify_all_work_available], ?_⟩
  simp only [FunctionWorkerPool.notify_all_work_available, List.countP_map]
  apply List.countP_congr
  intro x _
  cases x <;> simp [FunctionWorkerPool.idle_counted]

/-- One step of a submitter keeps the bookkeeping. -/
theorem submitter_step_bookkeeping {WorkType σ : Type}
    (s s1 : FunctionWorkerPool WorkType σ) (j : Nat) (wake : Option Nat)
    (h : s.bookkeeping) (hstep : s.submitter_step j wake = some s1) : s1.bookkeeping := by
  unfold FunctionWorkerPool.submitter_step at hstep
  split at hstep
  · simp at hstep
  · split at hstep
    · simp only [Option.some.injEq] at hstep
      subst hstep
      exact bookkeeping_of_same s _ h rfl rfl rfl rfl
    · split at hstep
      · simp at hstep
      · rename_i s2 hn
        simp only [Option.some.injEq] at hstep
        subst hstep
        obtain ⟨n1, n2, n3, n4⟩ := notify_work_available_bookkeeping _ s2 wake hn
        exact bookkeeping_of_same s _ h n1 n2 n3 n4
  · simp at hstep
  · split at hstep
    · simp only [Option.some.injEq] at hstep
      subst hstep
      exact bookkeeping_of_same s _ h rfl rfl rfl rfl
    · rename_i t ht
      simp only [Option.some.injEq] at hstep
      subst hstep
      obtain ⟨r1, r2, r3, r4⟩ := release_bookkeeping s t
      exact bookkeeping_of_same s _ h r1 r2 r3 r4
  · simp at hstep
  · simp at hstep

/-- One step of the thread inside `shutdown()` keeps the bookkeeping. -/
theorem shutdown_step_bookkeeping {WorkType σ : Type}
    (s s1 : FunctionWorkerPool WorkType σ)
    (h : s.bookkeeping) (hstep : s.shutdown_step = some s1) : s1.bookkeeping := by
  unfold FunctionWorkerPool.shutdown_step at hstep
  split at hstep
  · simp at hstep
  · split at hstep
    · simp only [Option.some.injEq] at hstep
      subst hstep
      exact bookkeeping_of_same s _ h rfl rfl rfl rfl
    · simp only [Option.some.injEq] at hstep
      subst hstep
      exact bookkeeping_of_same s _ h rfl rfl rfl rfl
  · simp at hstep
  · simp only [Option.some.injEq] at hstep
    subst hstep
    exact bookkeeping_of_same s _ h rfl rfl rfl rfl
  · simp only [Option.some.injEq] at hstep
    subst hstep
    obtain ⟨a1, a2⟩ := notify_all_bookkeeping s
    exact bookkeeping_of_same s _ h a1 a2 rfl rfl
  · split at hstep
    · simp only [Option.some.injEq] at hstep
      subst hstep
      exact bookkeeping_of_same s _ h rfl rfl rfl rfl
    · simp at hstep
  · simp at hstep

/-- Every step of the pool keeps the bookkeeping. -/
theorem step_bookkeeping {WorkType σ : Type} (f : WorkType → σ → Option Error × σ)
    (s s1 : FunctionWorkerPool WorkType σ) (a : PoolAction WorkType)
    (h : s.bookkeeping) (hstep : s.step f a = some s1) : s1.bookkeeping := by
  replace hstep := (thread_step_of_step f s s1 a hstep).2
  cases a with
  | submit work =>
    simp only [FunctionWorkerPool.thread_step, Option.some.injEq] at hstep
    subst hstep
    exact bookkeeping_of_same s _ h rfl rfl rfl rfl
  | call_shutdown =>
    simp only [FunctionWorkerPool.thread_step] at hstep
    split at hstep
    · simp only [Option.some.injEq] at hstep
      subst hstep
      exact bookkeeping_of_same s _ h rfl rfl rfl rfl
    · simp at hstep
  | worker i wake => exact worker_step_bookkeeping f s s1 i wake h hstep
  | submitter j wake => exact submitter_step_bookkeeping s s1 j wake h hstep
  | shutdown => exact shutdown_step_bookkeeping s s1 h hstep
  | spurious_worker i =>
    obtain ⟨n1, n2, n3, n4⟩ := end_work_wait_bookkeeping s s1 i hstep
    exact bookkeeping_of_same s _ h n1 n2 n3 n4
  | spurious_waiter t =>
    obtain ⟨n1, n2, n3⟩ := end_wait_bookkeeping s s1 t hstep
    exact bookkeeping_of_same s _ h (by rw [n1]) (by rw [n1]) n2 n3

/-- Every sequence of steps keeps the bookkeeping. -/
theorem run_bookkeeping {WorkType σ : Type} (f : WorkType → σ → Option Error × σ)
    (actions : List (PoolAction WorkType)) (s s1 : FunctionWorkerPool WorkType σ)
    (h : s.bookkeeping) (hrun : s.run f actions = some s1) : s1.bookkeeping := by
  induction actions generalizing s with
  | nil =>
    simp only [FunctionWorkerPool.run, Option.some.injEq] at hrun
    subst hrun
    exact h
  | cons a rest ih =>
    simp only [FunctionWorkerPool.run] at hrun
    split at hrun
    · simp at hrun
    · rename_i s2 hs2
      exact ih s2 (step_bookkeeping f s s2 a h hs2) hrun

/-- A freshly built pool of fewer than 2^64 workers has its bookkeeping. -/
theorem new_bookkeeping {WorkType σ : Type} [Inhabited WorkType] (n : Nat) (env : σ)
    (hn : n < size_t_range) :
    (FunctionWorkerPool.new n env : FunctionWorkerPool WorkType σ).bookkeeping := by
  refine ⟨by simp [FunctionWorkerPool.new], hn, ?_⟩
  simp only [FunctionWorkerPool.new]
  symm
  rw [List.countP_eq_zero]
  intro x hx
  rw [List.eq_of_mem_replicate hx]
  simp [FunctionWorkerPool.idle_counted]


/-- Writing at a position that exists puts the value there. -/
theorem get_set_same {α : Type} (l : List α) (k : Nat) (a b : α)
    (hk : l.get? k = some a) : (l.set k b).get? k = some b := by
  induction l generalizing k with
  | nil => simp at hk
  | cons x l ih =>
    cases k with
    | zero => simp
    | succ k =>
      simp only [List.get?_cons_succ] at hk
      simp only [List.set_cons_succ, List.get?_cons_succ]
      exact ih k hk

/-- C22, counterexample. Scenario A with two calling threads: in this
interleaving item 1 is overwritten in the slot before a worker has copied it,
both calls return after meeting each other at the barrier, worker 0 holds item
2 and is blocked in the barrier, nothing is logged, and `shutdown()` is
blocked in its wait for all workers to be idle; no thread can take a step. -/
theorem scenario_A_item_overwritten :
    ∃ p, (FunctionWorkerPool.new 2 ([] : List Nat)).run scenario_A_task
        scenario_A_overwrite = some p ∧
      p.submitters = [SubmitterState.returned 1, SubmitterState.returned 2] ∧
      p.workers = [WorkerState.accept_wait 2, WorkerState.work_wait] ∧
      p.barrier_waiting = some (ThreadId.worker 0) ∧
      p.m_work_available = false ∧
      p.env = [] ∧
      p.shutdown = ShutdownState.idle_wait ∧
      p.m_shutdown = false ∧
      (∀ wake, p.step scenario_A_task (PoolAction.worker 0 wake) = none) ∧
      (∀ wake, p.step scenario_A_task (PoolAction.worker 1 wake) = none) ∧
      (∀ wake, p.step scenario_A_task (PoolAction.submitter 0 wake) = none) ∧
      (∀ wake, p.step scenario_A_task (PoolAction.submitter 1 wake) = none) ∧
      p.step scenario_A_task PoolAction.shutdown = none :=
  ⟨_, rfl, rfl, rfl, rfl, rfl, rfl, rfl, rfl, fun _ => rfl, fun _ => rfl, fun _ => rfl,
    fun _ => rfl, rfl⟩

/-- C23, counterexample. One worker and two calling threads: after both
callers have published, two published items are unaccepted and item 1 has been
overwritten by item 2 before the worker copied anything; then the two callers
pass the barrier with each other and both calls return while no worker has
taken an item. -/
theorem two_callers_overwrite :
    (∃ p, (FunctionWorkerPool.new 1 ([] : List Nat)).run scenario_A_task
        two_callers_publish = some p ∧
      p.submitters = [SubmitterState.accept 1, SubmitterState.accept 2] ∧
      p.workers = [WorkerState.work_woken] ∧
      p.m_work_available = true ∧
      p.m_work = 2) ∧
    (∃ q, (FunctionWorkerPool.new 1 ([] : List Nat)).run scenario_A_task
        (two_callers_publish ++ two_callers_meet) = some q ∧
      q.submitters = [SubmitterState.returned 1, SubmitterState.returned 2] ∧
      q.workers = [WorkerState.work_woken] ∧
      q.barrier_waiting = none ∧
      q.m_work_available = true ∧
      q.m_work = 2 ∧
      q.env = []) :=
  ⟨⟨_, rfl, rfl, rfl, rfl, rfl⟩, ⟨_, rfl, rfl, rfl, rfl, rfl, rfl, rfl⟩⟩

/-- C24, counterexample. One worker and three calling threads: all three
calls return although the worker has accepted and run item 3 only; the
`shutdown()` called after that finds the worker idle, sets the flag and
returns after the worker has exited, with items 1 and 2 never accepted. -/
theorem shutdown_with_unaccepted_items :
    (∃ p, (FunctionWorkerPool.new 1 ([] : List Nat)).run scenario_A_task
        three_callers_one_accepted = some p ∧
      p.submitters = [SubmitterState.returned 1, SubmitterState.returned 2,
        SubmitterState.returned 3] ∧
      p.workers = [WorkerState.work_wait] ∧
      p.m_work_available = false ∧
      p.shutdown = ShutdownState.not_called ∧
      p.env = [3]) ∧
    (∃ q, (FunctionWorkerPool.new 1 ([] : List Nat)).run scenario_A_task
        (three_callers_one_accepted ++ shutdown_one_worker) = some q ∧
      q.shutdown = ShutdownState.returned ∧
      q.m_shutdown = true ∧
      q.workers = [WorkerState.exited] ∧
      q.env = [3]) :=
  ⟨⟨_, rfl, rfl, rfl, rfl, rfl, rfl⟩, ⟨_, rfl, rfl, rfl, rfl, rfl⟩⟩

/-- An element found at a position is a member. -/
theorem mem_of_get {α : Type} (l : List α) (i : Nat) (a : α) (h : l.get? i = some a) :
    a ∈ l := by
  induction l generalizing i with
  | nil => simp at h
  | cons x l ih =>
    cases i with
    | zero =>
      simp only [List.get?_cons_zero, Option.some.injEq] at h
      subst h
      exact List.mem_cons_self _ _
    | succ i =>
      simp only [List.get?_cons_succ] at h
      exact List.mem_cons_of_mem _ (ih i h)

/-- A member of a list with one element replaced is a member of the list or
the new element. -/
theorem mem_set_cases {α : Type} (l : List α) (i : Nat) (b x : α) (h : x ∈ l.set i b) :
    x ∈ l ∨ x = b := by
  induction l generalizing i with
  | nil => simp at h
  | cons y l ih =>
    cases i with
    | zero =>
      simp only [List.set_cons_zero, List.mem_cons] at h
      rcases h with h | h
      · exact Or.inr h
      · exact Or.inl (List.mem_cons_of_mem _ h)
    | succ i =>
      simp only [List.set_cons_succ, List.mem_cons] at h
      rcases h with h | h
      · exact Or.inl (h ▸ List.mem_cons_self _ _)
      · rcases ih i h with h1 | h1
        · exact Or.inl (List.mem_cons_of_mem _ h1)
        · exact Or.inr h1

/-- Two different positions that satisfy a predicate count for two. -/
theorem two_le_countP_of_get {α : Type} (p : α → Bool) (l : List α) (i k : Nat) (a b : α)
    (hik : i ≠ k) (hi : l.get? i = some a) (hk : l.get? k = some b)
    (ha : p a = true) (hb : p b = true) : 2 ≤ l.countP p := by
  have hpos : ∀ (m : List α) (j : Nat) (c : α), m.get? j = some c → p c = true →
      1 ≤ m.countP p := by
    intro m j c hj hc
    exact List.countP_pos_iff.mpr ⟨c, mem_of_get m j c hj, hc⟩
  have h4 : ∀ (m : List α) (i k : Nat) (a b : α), i ≠ k → m.get? i = some a →
      m.get? k = some b → p a = true → p b = true → 2 ≤ m.countP p := by
    intro m
    induction m with
    | nil => intro i k a b _ hi; simp at hi
    | cons x m ih =>
      intro i k a b hik hi hk ha hb
      cases i with
      | zero =>
        cases k with
        | zero => exact absurd rfl hik
        | succ k =>
          simp only [List.get?_cons_zero, Option.some.injEq] at hi
          simp only [List.get?_cons_succ] at hk
          subst hi
          have := hpos m k b hk hb
          simp only [List.countP_cons, ha, if_true]
          omega
      | succ i =>
        cases k with
        | zero =>
          simp only [List.get?_cons_zero, Option.some.injEq] at hk
          simp only [List.get?_cons_succ] at hi
          subst hk
          have := hpos m i a hi ha
          simp only [List.countP_cons, hb, if_true]
          omega
        | succ k =>
          simp only [List.get?_cons_succ] at hi hk
          have := ih i k a b (fun h => hik (by rw [h])) hi hk ha hb
          simp only [List.countP_cons]
          omega
  exact h4 l i k a b hik hi hk ha hb

/-- A position that satisfies `q` and not `p`, where `p` implies `q`, makes
the count of `p` smaller than the count of `q`. -/
theorem countP_succ_le_of_get {α : Type} (p q : α → Bool)
    (himp : ∀ x, p x = true → q x = true) (l : List α) (j : Nat) (a : α)
    (h : l.get? j = some a) (hq : q a = true) (hp : p a = false) :
    l.countP p + 1 ≤ l.countP q := by
  induction l generalizing j with
  | nil => simp at h
  | cons x l ih =>
    cases j with
    | zero =>
      simp only [List.get?_cons_zero, Option.some.injEq] at h
      subst h
      have := List.countP_mono_left (l := l) (fun x _ => himp x)
      simp only [List.countP_cons, hq, hp, if_true]
      simp
      omega
    | succ j =>
      simp only [List.get?_cons_succ] at h
      have := ih j h
      simp only [List.countP_cons]
      by_cases hx : p x = true
      · simp only [hx, himp x hx, if_true]
        omega
      · have hx0 : p x = false := by simpa using hx
        by_cases hqx : q x = true
        · simp only [hx0, hqx, if_true]
          simp
          omega
        · have hq0 : q x = false := by simpa using hqx
          simp only [hx0, hq0]
          simp
          omega

/-- A call that has published has not returned. -/
theorem published_in_call {WorkType : Type} (st : SubmitterState WorkType)
    (h : FunctionWorkerPool.published st = true) : FunctionWorkerPool.in_call st = true := by
  cases st <;> simp [FunctionWorkerPool.published, FunctionWorkerPool.in_call] at h ⊢

/-- A worker that holds an item is counted as holding. -/
theorem holds_of_held {WorkType : Type} (ws : WorkerState WorkType) (lw : WorkType)
    (h : FunctionWorkerPool.held_work ws = some lw) :
    FunctionWorkerPool.holds_work ws = true := by
  simp [FunctionWorkerPool.holds_work, h]

/-- Under the hand-off at most one call has published. -/
theorem handoff_published_le {WorkType σ : Type} (s : FunctionWorkerPool WorkType σ)
    (h : s.handoff) : s.submitters.countP FunctionWorkerPool.published ≤ 1 :=
  le_trans (List.countP_mono_left (fun x _ => published_in_call x)) h.1

/-- The hand-off passes to a state with the same calls, workers, slot and
barrier. -/
theorem handoff_of_same {WorkType σ : Type} (s s1 : FunctionWorkerPool WorkType σ)
    (h : s.handoff) (hsub : s1.submitters = s.submitters) (hw : s1.workers = s.workers)
    (hav : s1.m_work_available = s.m_work_available) (hmw : s1.m_work = s.m_work)
    (hbar : s1.barrier_waiting = s.barrier_waiting) : s1.handoff := by
  unfold FunctionWorkerPool.handoff at h ⊢
  rw [hsub, hw, hav, hmw, hbar]
  exact h

/-- The hand-off is kept when one worker that holds no item moves to a state
in which it holds none. -/
theorem handoff_worker_neutral {WorkType σ : Type} (s s1 : FunctionWorkerPool WorkType σ)
    (i : Nat) (a b : WorkerState WorkType) (h : s.handoff)
    (hi : s.workers.get? i = some a)
    (ha : FunctionWorkerPool.held_work a = none) (hb : FunctionWorkerPool.held_work b = none)
    (hsub : s1.submitters = s.submitters) (hw : s1.workers = s.workers.set i b)
    (hav : s1.m_work_available = s.m_work_available) (hmw : s1.m_work = s.m_work)
    (hbar : s1.barrier_waiting = s.barrier_waiting) : s1.handoff := by
  obtain ⟨hU, hHP, hBw, hBs, hV⟩ := h
  unfold FunctionWorkerPool.handoff
  rw [hsub, hw, hav, hmw, hbar]
  refine ⟨hU, ?_, ?_, hBs, ?_⟩
  · have hc := countP_set_get FunctionWorkerPool.holds_work s.workers i a b hi
    have ha1 : FunctionWorkerPool.holds_work a = false := by
      simp [FunctionWorkerPool.holds_work, ha]
    have hb1 : FunctionWorkerPool.holds_work b = false := by
      simp [FunctionWorkerPool.holds_work, hb]
    rw [ha1, hb1] at hc
    simp at hc
    omega
  · intro k hk
    obtain ⟨lw, hlw⟩ := hBw k hk
    refine ⟨lw, get_set_other s.workers i k a b _ hi hlw ?_⟩
    intro e
    rw [e] at ha
    simp [FunctionWorkerPool.held_work] at ha
  · intro st hst hp
    obtain ⟨v1, v2⟩ := hV st hst hp
    refine ⟨v1, ?_⟩
    intro ws hws lw hl
    rcases mem_set_cases _ _ _ _ hws with h1 | h1
    · exact v2 ws h1 lw hl
    · subst h1
      rw [hb] at hl
      simp at hl

/-- The hand-off is kept when one call that has not published moves to a
state in which it has not published either. -/
theorem handoff_submitter_neutral {WorkType σ : Type}
    (s s1 : FunctionWorkerPool WorkType σ) (j : Nat) (a b : SubmitterState WorkType)
    (h : s.handoff) (hj : s.submitters.get? j = some a)
    (hin : FunctionWorkerPool.in_call a = FunctionWorkerPool.in_call b)
    (hpa : FunctionWorkerPool.published a = false)
    (hpb : FunctionWorkerPool.published b = false)
    (hsub : s1.submitters = s.submitters.set j b) (hw : s1.workers = s.workers)
    (hav : s1.m_work_available = s.m_work_available) (hmw : s1.m_work = s.m_work)
    (hbar : s1.barrier_waiting = s.barrier_waiting) : s1.handoff := by
  obtain ⟨hU, hHP, hBw, hBs, hV⟩ := h
  unfold FunctionWorkerPool.handoff
  rw [hsub, hw, hav, hmw, hbar]
  have hcU := countP_set_get FunctionWorkerPool.in_call s.submitters j a b hj
  rw [hin] at hcU
  have hcP := countP_set_get FunctionWorkerPool.published s.submitters j a b hj
  rw [hpa, hpb] at hcP
  refine ⟨by omega, by omega, hBw, ?_, ?_⟩
  · intro k hk
    obtain ⟨w, hw1⟩ := hBs k hk
    refine ⟨w, get_set_other s.submitters j k a b _ hj hw1 ?_⟩
    intro e
    rw [e] at hpa
    simp [FunctionWorkerPool.published] at hpa
  · intro st hst hp
    rcases mem_set_cases _ _ _ _ hst with h1 | h1
    · exact hV st h1 hp
    · subst h1
      rw [hpb] at hp
      simp at hp

/-- The hand-off is kept when a worker copies the item out of the slot. -/
theorem handoff_take_work {WorkType σ : Type} (s s1 : FunctionWorkerPool WorkType σ)
    (i : Nat) (a : WorkerState WorkType) (h : s.handoff)
    (hi : s.workers.get? i = some a) (ha : FunctionWorkerPool.held_work a = none)
    (havail : s.m_work_available = true)
    (hsub : s1.submitters = s.submitters)
    (hw : s1.workers = s.workers.set i (WorkerState.accept s.m_work))
    (hav : s1.m_work_available = false)
    (hbar : s1.barrier_waiting = s.barrier_waiting) : s1.handoff := by
  obtain ⟨hU, hHP, hBw, hBs, hV⟩ := h
  unfold FunctionWorkerPool.handoff
  rw [hsub, hw, hav, hbar]
  refine ⟨hU, ?_, ?_, hBs, ?_⟩
  · have hc := countP_set_get FunctionWorkerPool.holds_work s.workers i a
      (WorkerState.accept s.m_work) hi
    have ha1 : FunctionWorkerPool.holds_work a = false := by
      simp [FunctionWorkerPool.holds_work, ha]
    have hb1 : FunctionWorkerPool.holds_work (WorkerState.accept s.m_work) = true := by
      simp [FunctionWorkerPool.holds_work, FunctionWorkerPool.held_work]
    rw [ha1, hb1] at hc
    rw [havail] at hHP
    simp at hc hHP ⊢
    omega
  · intro k hk
    obtain ⟨lw, hlw⟩ := hBw k hk
    refine ⟨lw, get_set_other s.workers i k a _ _ hi hlw ?_⟩
    intro e
    rw [e] at ha
    simp [FunctionWorkerPool.held_work] at ha
  · intro st hst hp
    obtain ⟨v1, v2⟩ := hV st hst hp
    refine ⟨by intro hf; simp at hf, ?_⟩
    intro ws hws lw hl
    rcases mem_set_cases _ _ _ _ hws with h1 | h1
    · exact v2 ws h1 lw hl
    · subst h1
      simp only [FunctionWorkerPool.held_work, Option.some.injEq] at hl
      rw [← hl]
      exact v1 havail

/-- The hand-off is kept when a worker that holds an item enters the empty
barrier. -/
theorem handoff_worker_waits {WorkType σ : Type} (s s1 : FunctionWorkerPool WorkType σ)
    (i : Nat) (lw : WorkType) (h : s.handoff)
    (hi : s.workers.get? i = some (WorkerState.accept lw))
    (hsub : s1.submitters = s.submitters)
    (hw : s1.workers = s.workers.set i (WorkerState.accept_wait lw))
    (hav : s1.m_work_available = s.m_work_available) (hmw : s1.m_work = s.m_work)
    (hbar : s1.barrier_waiting = some (ThreadId.worker i)) : s1.handoff := by
  obtain ⟨hU, hHP, hBw, hBs, hV⟩ := h
  unfold FunctionWorkerPool.handoff
  rw [hsub, hw, hav, hmw, hbar]
  refine ⟨hU, ?_, ?_, ?_, ?_⟩
  · have hc := countP_set_get FunctionWorkerPool.holds_work s.workers i _
      (WorkerState.accept_wait lw) hi
    have ha1 : FunctionWorkerPool.holds_work (WorkerState.accept lw) = true := by
      simp [FunctionWorkerPool.holds_work, FunctionWorkerPool.held_work]
    have hb1 : FunctionWorkerPool.holds_work (WorkerState.accept_wait lw) = true := by
      simp [FunctionWorkerPool.holds_work, FunctionWorkerPool.held_work]
    rw [ha1, hb1] at hc
    omega
  · intro k hk
    simp only [Option.some.injEq, ThreadId.worker.injEq] at hk
    subst hk
    exact ⟨lw, get_set_same s.workers _ _ _ hi⟩
  · intro j hj
    simp at hj
  · intro st hst hp
    obtain ⟨v1, v2⟩ := hV st hst hp
    refine ⟨v1, ?_⟩
    intro ws hws lw0 hl
    rcases mem_set_cases _ _ _ _ hws with h1 | h1
    · exact v2 ws h1 lw0 hl
    · subst h1
      simp only [FunctionWorkerPool.held_work, Option.some.injEq] at hl
      rw [← hl]
      exact v2 _ (mem_of_get _ _ _ hi) lw rfl

/-- The hand-off is kept when a call that has published enters the empty
barrier. -/
theorem handoff_submitter_waits {WorkType σ : Type}
    (s s1 : FunctionWorkerPool WorkType σ) (j : Nat) (w : WorkType) (h : s.handoff)
    (hj : s.submitters.get? j = some (SubmitterState.accept w))
    (hsub : s1.submitters = s.submitters.set j (SubmitterState.accept_wait w))
    (hw : s1.workers = s.workers)
    (hav : s1.m_work_available = s.m_work_available) (hmw : s1.m_work = s.m_work)
    (hbar : s1.barrier_waiting = some (ThreadId.submitter j)) : s1.handoff := by
  obtain ⟨hU, hHP, hBw, hBs, hV⟩ := h
  unfold FunctionWorkerPool.handoff
  rw [hsub, hw, hav, hmw, hbar]
  have hcU := countP_set_get FunctionWorkerPool.in_call s.submitters j _
    (SubmitterState.accept_wait w) hj
  have hcP := countP_set_get FunctionWorkerPool.published s.submitters j _
    (SubmitterState.accept_wait w) hj
  simp only [FunctionWorkerPool.in_call, FunctionWorkerPool.published] at hcU hcP
  refine ⟨by omega, by omega, ?_, ?_, ?_⟩
  · intro k hk
    simp at hk
  · intro k hk
    simp only [Option.some.injEq, ThreadId.submitter.injEq] at hk
    subst hk
    exact ⟨w, get_set_same s.submitters _ _ _ hj⟩
  · intro st hst hp
    rcases mem_set_cases _ _ _ _ hst with h1 | h1
    · exact hV st h1 hp
    · subst h1
      exact hV (SubmitterState.accept w) (mem_of_get _ _ _ hj) rfl

/-- The hand-off is established when a call publishes its item: no other
call has published, so the slot was empty and no worker held an item. -/
theorem handoff_publish {WorkType σ : Type} (s s1 : FunctionWorkerPool WorkType σ)
    (j : Nat) (w : WorkType) (h : s.handoff)
    (hj : s.submitters.get? j = some (SubmitterState.publish_check w))
    (hsub : s1.submitters = s.submitters.set j (SubmitterState.accept w))
    (hw : s1.workers = s.workers)
    (hav : s1.m_work_available = true) (hmw : s1.m_work = w)
    (hbar : s1.barrier_waiting = s.barrier_waiting) :
    s1.handoff ∧ s.m_work_available = false := by
  have hP1 := countP_succ_le_of_get FunctionWorkerPool.published FunctionWorkerPool.in_call
    published_in_call s.submitters j _ hj rfl rfl
  obtain ⟨hU, hHP, hBw, hBs, hV⟩ := h
  have hP0 : s.submitters.countP FunctionWorkerPool.published = 0 := by omega
  have hH0 : s.workers.countP FunctionWorkerPool.holds_work = 0 := by omega
  have hA0 : s.m_work_available = false := by
    cases hq : s.m_work_available with
    | false => rfl
    | true =>
      rw [hq] at hHP
      simp at hHP
      omega
  refine ⟨?_, hA0⟩
  unfold FunctionWorkerPool.handoff
  rw [hsub, hw, hav, hmw, hbar]
  have hcU := countP_set_get FunctionWorkerPool.in_call s.submitters j _
    (SubmitterState.accept w) hj
  have hcP := countP_set_get FunctionWorkerPool.published s.submitters j _
    (SubmitterState.accept w) hj
  simp only [FunctionWorkerPool.in_call, FunctionWorkerPool.published] at hcU hcP
  refine ⟨by omega, ?_, hBw, ?_, ?_⟩
  · simp at hcP ⊢
    omega
  · intro k hk
    obtain ⟨w1, hw1⟩ := hBs k hk
    exact ⟨w1, get_set_other s.submitters j k _ _ _ hj hw1 (by simp)⟩
  · intro st hst hp
    rcases mem_set_cases _ _ _ _ hst with h1 | h1
    · have := (List.countP_eq_zero.mp hP0) st h1
      rw [hp] at this
      simp at this
    · subst h1
      refine ⟨fun _ => rfl, ?_⟩
      intro ws hws lw hl
      have := (List.countP_eq_zero.mp hH0) ws hws
      rw [holds_of_held ws lw hl] at this
      simp at this

/-- The hand-off is kept when a new call enters while no call is in
progress. -/
theorem handoff_submit {WorkType σ : Type} (s s1 : FunctionWorkerPool WorkType σ)
    (w : WorkType) (h : s.handoff)
    (hnone : s.submitters.countP FunctionWorkerPool.in_call = 0)
    (hsub : s1.submitters = s.submitters ++ [SubmitterState.publish_check w])
    (hw : s1.workers = s.workers)
    (hav : s1.m_work_available = s.m_work_available) (hmw : s1.m_work = s.m_work)
    (hbar : s1.barrier_waiting = s.barrier_waiting) : s1.handoff := by
  obtain ⟨hU, hHP, hBw, hBs, hV⟩ := h
  unfold FunctionWorkerPool.handoff
  rw [hsub, hw, hav, hmw, hbar]
  refine ⟨?_, ?_, hBw, ?_, ?_⟩
  · simp [List.countP_append, hnone, FunctionWorkerPool.in_call]
  · simp only [List.countP_append, List.countP_cons, List.countP_nil,
      FunctionWorkerPool.published]
    simpa using hHP
  · intro k hk
    obtain ⟨w1, hw1⟩ := hBs k hk
    refine ⟨w1, ?_⟩
    simp only [List.get?_eq_getElem?] at hw1 ⊢
    have hlt : k < s.submitters.length := by
      by_contra hge
      rw [List.getElem?_eq_none (by omega)] at hw1
      simp at hw1
    rw [List.getElem?_append_left hlt]
    exact hw1
  · intro st hst hp
    simp only [List.mem_append, List.mem_singleton] at hst
    rcases hst with h1 | h1
    · exact hV st h1 hp
    · subst h1
      simp [FunctionWorkerPool.published] at hp

/-- The hand-off is kept when every waiting worker is woken. -/
theorem handoff_notify_all {WorkType σ : Type} (s s1 : FunctionWorkerPool WorkType σ)
    (h : s.handoff) (hsub : s1.submitters = s.submitters)
    (hw : s1.workers = s.notify_all_work_available.workers)
    (hav : s1.m_work_available = s.m_work_available) (hmw : s1.m_work = s.m_work)
    (hbar : s1.barrier_waiting = s.barrier_waiting) : s1.handoff := by
  obtain ⟨hU, hHP, hBw, hBs, hV⟩ := h
  unfold FunctionWorkerPool.handoff
  rw [hsub, hw, hav, hmw, hbar]
  have hheld : ∀ x : WorkerState WorkType,
      FunctionWorkerPool.held_work
        (match x with
          | WorkerState.work_wait => WorkerState.work_woken
          | other => other)
        = FunctionWorkerPool.held_work x := by
    intro x
    cases x <;> rfl
  refine ⟨hU, ?_, ?_, hBs, ?_⟩
  · rw [← hHP]
    congr 1
    simp only [FunctionWorkerPool.notify_all_work_available, List.countP_map]
    apply List.countP_congr
    intro x _
    simp only [Function.comp, FunctionWorkerPool.holds_work, hheld]
  · intro k hk
    obtain ⟨lw, hlw⟩ := hBw k hk
    refine ⟨lw, ?_⟩
    simp only [FunctionWorkerPool.notify_all_work_available, List.get?_eq_getElem?,
      List.getElem?_map] at hlw ⊢
    rw [hlw]
    rfl
  · intro st hst hp
    obtain ⟨v1, v2⟩ := hV st hst hp
    refine ⟨v1, ?_⟩
    intro ws hws lw hl
    simp only [FunctionWorkerPool.notify_all_work_available, List.mem_map] at hws
    obtain ⟨ws0, hws0, he⟩ := hws
    rw [← he, hheld] at hl
    exact v2 ws0 hws0 lw hl

/-- A freshly built pool has the hand-off. -/
theorem new_handoff {WorkType σ : Type} [Inhabited WorkType] (n : Nat) (env : σ) :
    (FunctionWorkerPool.new n env : FunctionWorkerPool WorkType σ).handoff := by
  unfold FunctionWorkerPool.handoff
  simp only [FunctionWorkerPool.new]
  refine ⟨by simp, ?_, by simp, by simp, by simp⟩
  simp only [List.countP_nil]
  have : (List.replicate n (WorkerState.idle_mark : WorkerState WorkType)).countP
      FunctionWorkerPool.holds_work = 0 := by
    rw [List.countP_eq_zero]
    intro x hx
    rw [List.eq_of_mem_replicate hx]
    simp [FunctionWorkerPool.holds_work, FunctionWorkerPool.held_work]
  rw [this]
  simp

/-- Releasing the thread in the barrier leaves the slot, the environment, the
flag and the state of `shutdown()` as they are. -/
theorem release_slot {WorkType σ : Type} (s : FunctionWorkerPool WorkType σ) (t : ThreadId) :
    (s.release t).m_work_available = s.m_work_available ∧
    (s.release t).m_work = s.m_work ∧
    (s.release t).env = s.env ∧
    (s.release t).m_shutdown = s.m_shutdown ∧
    (s.release t).shutdown = s.shutdown := by
  cases t with
  | worker k =>
    simp only [FunctionWorkerPool.release]
    split <;> exact ⟨rfl, rfl, rfl, rfl, rfl⟩
  | submitter j =>
    simp only [FunctionWorkerPool.release]
    split <;> exact ⟨rfl, rfl, rfl, rfl, rfl⟩

/-- The hand-off is kept when a worker that holds an item finds a thread in
the barrier: that thread is the call whose item the worker holds; the call
returns and the worker goes on to run the task. -/
theorem handoff_worker_meets {WorkType σ : Type} (s s1 : FunctionWorkerPool WorkType σ)
    (i : Nat) (lw : WorkType) (t : ThreadId) (h : s.handoff)
    (hi : s.workers.get? i = some (WorkerState.accept lw))
    (hbar0 : s.barrier_waiting = some t)
    (hsub : s1.submitters = (s.release t).submitters)
    (hw : s1.workers = (s.release t).workers.set i (WorkerState.run lw))
    (hav : s1.m_work_available = s.m_work_available) (hmw : s1.m_work = s.m_work)
    (hbar : s1.barrier_waiting = none) :
    s1.handoff ∧ ∃ j, t = ThreadId.submitter j ∧
      s.submitters.get? j = some (SubmitterState.accept_wait lw) ∧
      s1.submitters = s.submitters.set j (SubmitterState.returned lw) ∧
      s1.workers = s.workers.set i (WorkerState.run lw) := by
  have hP1 := handoff_published_le s h
  obtain ⟨hU, hHP, hBw, hBs, hV⟩ := h
  have hle : s.workers.countP FunctionWorkerPool.holds_work
      ≤ s.submitters.countP FunctionWorkerPool.published := by
    rw [← hHP]
    exact Nat.le_add_left _ _
  cases t with
  | worker k =>
    obtain ⟨lw1, hk⟩ := hBw k hbar0
    have hik : i ≠ k := by
      intro e
      subst e
      rw [hi] at hk
      simp at hk
    have := two_le_countP_of_get FunctionWorkerPool.holds_work s.workers i k _ _ hik hi hk
      rfl rfl
    omega
  | submitter j =>
    obtain ⟨w, hjw⟩ := hBs j hbar0
    have hr : s.release (ThreadId.submitter j)
        = { s with submitters := s.submitters.set j (SubmitterState.returned w) } := by
      simp only [FunctionWorkerPool.release, hjw]
    rw [hr] at hsub hw
    have hwl : lw = w :=
      (hV _ (mem_of_get _ _ _ hjw) rfl).2 _ (mem_of_get _ _ _ hi) lw rfl
    subst hwl
    have hsub2 : s1.submitters = s.submitters.set j (SubmitterState.returned lw) := hsub
    have hw2 : s1.workers = s.workers.set i (WorkerState.run lw) := hw
    refine ⟨?_, j, rfl, hjw, hsub2, hw2⟩
    unfold FunctionWorkerPool.handoff
    rw [hsub2, hw2, hav, hmw, hbar]
    have hcU := countP_set_get FunctionWorkerPool.in_call s.submitters j _
      (SubmitterState.returned lw) hjw
    have hcP := countP_set_get FunctionWorkerPool.published s.submitters j _
      (SubmitterState.returned lw) hjw
    have hcH := countP_set_get FunctionWorkerPool.holds_work s.workers i _
      (WorkerState.run lw) hi
    have e1 : FunctionWorkerPool.holds_work (WorkerState.accept lw) = true := rfl
    have e2 : FunctionWorkerPool.holds_work (WorkerState.run lw) = false := rfl
    rw [e1, e2] at hcH
    simp only [FunctionWorkerPool.in_call, FunctionWorkerPool.published] at hcU hcP
    simp at hcU hcP hcH
    refine ⟨by omega, by omega, by simp, by simp, ?_⟩
    intro st hst hp
    rcases mem_set_cases _ _ _ _ hst with h1 | h1
    · obtain ⟨v1, v2⟩ := hV st h1 hp
      refine ⟨v1, ?_⟩
      intro ws hws lw0 hl
      rcases mem_set_cases _ _ _ _ hws with h2 | h2
      · exact v2 ws h2 lw0 hl
      · subst h2
        simp [FunctionWorkerPool.held_work] at hl
    · subst h1
      simp [FunctionWorkerPool.published] at hp

/-- The hand-off is kept when a call that has published finds a thread in
the barrier: that thread is the worker that holds the item of the call; the
call returns and the worker goes on to run the task. -/
theorem handoff_submitter_meets {WorkType σ : Type}
    (s s1 : FunctionWorkerPool WorkType σ) (j : Nat) (w : WorkType) (t : ThreadId)
    (h : s.handoff) (hj : s.submitters.get? j = some (SubmitterState.accept w))
    (hbar0 : s.barrier_waiting = some t)
    (hsub : s1.submitters = (s.release t).submitters.set j (SubmitterState.returned w))
    (hw : s1.workers = (s.release t).workers)
    (hav : s1.m_work_available = s.m_work_available) (hmw : s1.m_work = s.m_work)
    (hbar : s1.barrier_waiting = none) :
    s1.handoff ∧ ∃ k, t = ThreadId.worker k ∧
      s.workers.get? k = some (WorkerState.accept_wait w) ∧
      s1.submitters = s.submitters.set j (SubmitterState.returned w) ∧
      s1.workers = s.workers.set k (WorkerState.run w) := by
  have hP1 := handoff_published_le s h
  obtain ⟨hU, hHP, hBw, hBs, hV⟩ := h
  cases t with
  | submitter k =>
    obtain ⟨w1, hk⟩ := hBs k hbar0
    have hjk : j ≠ k := by
      intro e
      subst e
      rw [hj] at hk
      simp at hk
    have := two_le_countP_of_get FunctionWorkerPool.published s.submitters j k _ _ hjk hj hk
      rfl rfl
    omega
  | worker k =>
    obtain ⟨lw, hk⟩ := hBw k hbar0
    have hr : s.release (ThreadId.worker k)
        = { s with workers := s.workers.set k (WorkerState.run lw) } := by
      simp only [FunctionWorkerPool.release, hk]
    rw [hr] at hsub hw
    have hwl : lw = w :=
      (hV _ (mem_of_get _ _ _ hj) rfl).2 _ (mem_of_get _ _ _ hk) lw rfl
    subst hwl
    have hsub2 : s1.submitters = s.submitters.set j (SubmitterState.returned lw) := hsub
    have hw2 : s1.workers = s.workers.set k (WorkerState.run lw) := hw
    refine ⟨?_, k, rfl, hk, hsub2, hw2⟩
    unfold FunctionWorkerPool.handoff
    rw [hsub2, hw2, hav, hmw, hbar]
    have hcU := countP_set_get FunctionWorkerPool.in_call s.submitters j _
      (SubmitterState.returned lw) hj
    have hcP := countP_set_get FunctionWorkerPool.published s.submitters j _
      (SubmitterState.returned lw) hj
    have hcH := countP_set_get FunctionWorkerPool.holds_work s.workers k _
      (WorkerState.run lw) hk
    have e1 : FunctionWorkerPool.holds_work (WorkerState.accept_wait lw) = true := rfl
    have e2 : FunctionWorkerPool.holds_work (WorkerState.run lw) = false := rfl
    rw [e1, e2] at hcH
    simp only [FunctionWorkerPool.in_call, FunctionWorkerPool.published] at hcU hcP
    simp at hcU hcP hcH
    refine ⟨by omega, by omega, by simp, by simp, ?_⟩
    intro st hst hp
    rcases mem_set_cases _ _ _ _ hst with h1 | h1
    · obtain ⟨v1, v2⟩ := hV st h1 hp
      refine ⟨v1, ?_⟩
      intro ws hws lw0 hl
      rcases mem_set_cases _ _ _ _ hws with h2 | h2
      · exact v2 ws h2 lw0 hl
      · subst h2
        simp [FunctionWorkerPool.held_work] at hl
    · subst h1
      simp [FunctionWorkerPool.published] at hp

/-- Replacing a call by one that has not returned makes no call return. -/
theorem no_return_set {WorkType : Type} (l : List (SubmitterState WorkType)) (k : Nat)
    (b : SubmitterState WorkType) (hb : FunctionWorkerPool.in_call b = true)
    (j : Nat) (st : SubmitterState WorkType) (w : WorkType)
    (hj : l.get? j = some st) (hin : FunctionWorkerPool.in_call st = true) :
    (l.set k b).get? j ≠ some (SubmitterState.returned w) := by
  intro h1
  by_cases hkj : k = j
  · subst hkj
    rw [get_set_same l k st b hj] at h1
    simp only [Option.some.injEq] at h1
    rw [h1] at hb
    simp [FunctionWorkerPool.in_call] at hb
  · simp only [List.get?_eq_getElem?] at hj h1
    rw [List.getElem?_set_ne hkj, hj] at h1
    simp only [Option.some.injEq] at h1
    rw [h1] at hin
    simp [FunctionWorkerPool.in_call] at hin

/-- A step in which no call returns meets the condition on returns. -/
theorem returns_of_no_return {WorkType σ : Type} (s s1 : FunctionWorkerPool WorkType σ)
    (h : ∀ j st w, s.submitters.get? j = some st → FunctionWorkerPool.in_call st = true →
      s1.submitters.get? j ≠ some (SubmitterState.returned w)) :
    s.returns_with_worker s1 := by
  intro j st w hj hin h1
  exact absurd h1 (h j st w hj hin)

/-- A step that leaves the calls as they are makes no call return. -/
theorem returns_of_same {WorkType σ : Type} (s s1 : FunctionWorkerPool WorkType σ)
    (h : s1.submitters = s.submitters) : s.returns_with_worker s1 := by
  apply returns_of_no_return
  intro j st w hj hin h1
  rw [h, hj] at h1
  simp only [Option.some.injEq] at h1
  rw [h1] at hin
  simp [FunctionWorkerPool.in_call] at hin

/-- A step that moves one call to a state in which it has not returned makes
no call return. -/
theorem returns_of_set {WorkType σ : Type} (s s1 : FunctionWorkerPool WorkType σ)
    (k : Nat) (b : SubmitterState WorkType) (hb : FunctionWorkerPool.in_call b = true)
    (h : s1.submitters = s.submitters.set k b) : s.returns_with_worker s1 := by
  apply returns_of_no_return
  intro j st w hj hin
  rw [h]
  exact no_return_set s.submitters k b hb j st w hj hin

/-- A step in which call `k` returns while worker `i`, which held its item,
goes on to run the task meets the condition on returns. -/
theorem returns_of_meet {WorkType σ : Type} (s s1 : FunctionWorkerPool WorkType σ)
    (k i : Nat) (w : WorkType) (a : SubmitterState WorkType)
    (hk : s.submitters.get? k = some a) (ha : a.work = w)
    (hi : s.workers.get? i = some (WorkerState.accept w) ∨
      s.workers.get? i = some (WorkerState.accept_wait w))
    (hsub : s1.submitters = s.submitters.set k (SubmitterState.returned w))
    (hw : s1.workers.get? i = some (WorkerState.run w)) : s.returns_with_worker s1 := by
  intro j st w1 hj hin h1
  rw [hsub] at h1
  by_cases hkj : k = j
  · subst hkj
    rw [get_set_same s.submitters k a _ hk] at h1
    simp only [Option.some.injEq, SubmitterState.returned.injEq] at h1
    subst h1
    rw [hk] at hj
    simp only [Option.some.injEq] at hj
    subst hj
    exact ⟨ha, i, hi, hw⟩
  · simp only [List.get?_eq_getElem?] at hj h1
    rw [List.getElem?_set_ne hkj, hj] at h1
    simp only [Option.some.injEq] at h1
    rw [h1] at hin
    simp [FunctionWorkerPool.in_call] at hin

/-- The fields of the pool after a worker has copied the item. -/
theorem take_work_fields {WorkType σ : Type} (s : FunctionWorkerPool WorkType σ) (i : Nat) :
    (s.take_work i).submitters = s.submitters ∧
    (s.take_work i).workers = s.workers.set i (WorkerState.accept s.m_work) ∧
    (s.take_work i).m_work_available = false ∧
    (s.take_work i).barrier_waiting = s.barrier_waiting ∧
    (s.take_work i).m_work = s.m_work ∧
    (s.take_work i).env = s.env ∧
    (s.take_work i).m_shutdown = s.m_shutdown ∧
    (s.take_work i).shutdown = s.shutdown := by
  unfold FunctionWorkerPool.take_work
  exact ⟨Eq.refl _, Eq.refl _, Eq.refl _, Eq.refl _, Eq.refl _, Eq.refl _, Eq.refl _,
    Eq.refl _⟩

/-- The end of a wait on `m_worker_available_cv` keeps the hand-off, the
workers, the slot and the environment, and makes no call return. -/
theorem end_wait_handoff {WorkType σ : Type} (s s1 : FunctionWorkerPool WorkType σ)
    (t : Waiter) (h : s.handoff) (hn : s.end_wait t = some s1) :
    s1.handoff ∧ s.returns_with_worker s1 := by
  cases t with
  | submitter j =>
    simp only [FunctionWorkerPool.end_wait] at hn
    split at hn
    · rename_i w hj
      simp only [Option.some.injEq] at hn
      subst hn
      exact ⟨handoff_submitter_neutral s _ j (SubmitterState.publish_wait w)
          (SubmitterState.publish_check w) h hj rfl rfl rfl rfl rfl rfl rfl rfl,
        returns_of_set s _ j (SubmitterState.publish_check w) rfl rfl⟩
    · simp at hn
  | shutdown =>
    simp only [FunctionWorkerPool.end_wait] at hn
    split at hn
    · simp only [Option.some.injEq] at hn
      subst hn
      exact ⟨handoff_of_same s _ h rfl rfl rfl rfl rfl, returns_of_same s _ rfl⟩
    · simp at hn

/-- The end of a worker's wait for work keeps the hand-off and makes no call
return. -/
theorem end_work_wait_handoff {WorkType σ : Type} (s s1 : FunctionWorkerPool WorkType σ)
    (i : Nat) (h : s.handoff) (hn : s.end_work_wait i = some s1) :
    s1.handoff ∧ s.returns_with_worker s1 := by
  unfold FunctionWorkerPool.end_work_wait at hn
  split at hn
  · rename_i hi
    simp only [Option.some.injEq] at hn
    subst hn
    exact ⟨handoff_worker_neutral s _ i WorkerState.work_wait WorkerState.work_woken h hi
        rfl rfl rfl rfl rfl rfl rfl,
      returns_of_same s _ rfl⟩
  · simp at hn

/-- One step of a worker keeps the hand-off, and a call returns in it only
together with the worker that held its item. -/
theorem worker_step_handoff {WorkType σ : Type} (f : WorkType → σ → Option Error × σ)
    (s s1 : FunctionWorkerPool WorkType σ) (i : Nat) (wake : Option Waiter)
    (h : s.handoff) (hstep : s.worker_step f i wake = some s1) :
    s1.handoff ∧ s.returns_with_worker s1 := by
  unfold FunctionWorkerPool.worker_step at hstep
  split at hstep
  · simp at hstep
  · rename_i hi
    simp only [Option.some.injEq] at hstep
    subst hstep
    exact ⟨handoff_worker_neutral s _ i WorkerState.idle_mark WorkerState.idle_signal h hi
      rfl rfl rfl rfl rfl rfl rfl, returns_of_same s _ rfl⟩
  · rename_i hi
    split at hstep
    · simp at hstep
    · rename_i s2 hn
      simp only [Option.some.injEq] at hstep
      subst hstep
      have hw2 := (notify_worker_available_same s s2 wake hn).1
      have h2 : s2.handoff ∧ s.returns_with_worker s2 := by
        unfold FunctionWorkerPool.notify_worker_available at hn
        split at hn
        · exact end_wait_handoff s s2 _ h hn
        · split at hn
          · simp at hn
          · simp only [Option.some.injEq] at hn
            subst hn
            exact ⟨h, returns_of_same s _ rfl⟩
      rw [← hw2] at hi
      refine ⟨handoff_worker_neutral s2 _ i WorkerState.idle_signal WorkerState.work_check
        h2.1 hi rfl rfl rfl rfl rfl rfl rfl, ?_⟩
      intro j st w hj hin h1
      exact absurd h1 (fun h1 => by
        have := h2.2 j st w hj hin h1
        obtain ⟨_, k, hk, hk1⟩ := this
        rw [hw2] at hk1
        rcases hk with hk | hk <;> rw [hk] at hk1 <;> simp at hk1)
  · rename_i hi
    split at hstep
    · rename_i hc
      simp only [Option.some.injEq] at hstep
      subst hstep
      obtain ⟨t1, t2, t3, t4, _⟩ := take_work_fields s i
      exact ⟨handoff_take_work s _ i WorkerState.work_check h hi rfl hc t1 t2 t3 t4,
        returns_of_same s _ t1⟩
    · simp only [Option.some.injEq] at hstep
      subst hstep
      exact ⟨handoff_worker_neutral s _ i WorkerState.work_check WorkerState.work_wait h hi
        rfl rfl rfl rfl rfl rfl rfl, returns_of_same s _ rfl⟩
  · simp at hstep
  · rename_i hi
    split at hstep
    · simp only [Option.some.injEq] at hstep
      subst hstep
      exact ⟨handoff_worker_neutral s _ i WorkerState.work_woken WorkerState.exited h hi
        rfl rfl rfl rfl rfl rfl rfl, returns_of_same s _ rfl⟩
    · split at hstep
      · rename_i hc
        simp only [Option.some.injEq] at hstep
        subst hstep
        obtain ⟨t1, t2, t3, t4, _⟩ := take_work_fields s i
        exact ⟨handoff_take_work s _ i WorkerState.work_woken h hi rfl hc t1 t2 t3 t4,
          returns_of_same s _ t1⟩
      · simp only [Option.some.injEq] at hstep
        subst hstep
        exact ⟨handoff_worker_neutral s _ i WorkerState.work_woken WorkerState.work_wait h hi
          rfl rfl rfl rfl rfl rfl rfl, returns_of_same s _ rfl⟩
  · rename_i lw hi
    split at hstep
    · rename_i hb
      simp only [Option.some.injEq] at hstep
      subst hstep
      exact ⟨handoff_worker_waits s _ i lw h hi rfl rfl rfl rfl rfl,
        returns_of_same s _ rfl⟩
    · rename_i t ht
      simp only [Option.some.injEq] at hstep
      subst hstep
      obtain ⟨hh, j, _, hj, hsub, hw⟩ := handoff_worker_meets s
        { s.release t with
          workers := (s.release t).workers.set i (WorkerState.run lw)
          barrier_waiting := none }
        i lw t h hi ht rfl rfl (release_slot s t).1 (release_slot s t).2.1 rfl
      refine ⟨hh, returns_of_meet s _ j i lw _ hj rfl (Or.inl hi) hsub ?_⟩
      rw [hw]
      exact get_set_same s.workers i _ _ hi
  · simp at hstep
  · rename_i lw hi
    split at hstep
    · simp only [Option.some.injEq] at hstep
      subst hstep
      exact ⟨handoff_worker_neutral s _ i (WorkerState.run lw) WorkerState.idle_mark h hi
        rfl rfl rfl rfl rfl rfl rfl, returns_of_same s _ rfl⟩
    · rename_i e env1 _
      simp only [Option.some.injEq] at hstep
      subst hstep
      exact ⟨handoff_worker_neutral s _ i (WorkerState.run lw) (WorkerState.terminated e) h hi
        rfl rfl rfl rfl rfl rfl rfl, returns_of_same s _ rfl⟩
  · simp at hstep
  · simp at hstep

/-- One step of a call keeps the hand-off; a call that publishes finds the
slot empty; and a call returns only together with the worker that held its
item. -/
theorem submitter_step_handoff {WorkType σ : Type}
    (s s1 : FunctionWorkerPool WorkType σ) (j : Nat) (wake : Option Nat)
    (h : s.handoff) (hstep : s.submitter_step j wake = some s1) :
    s1.handoff ∧ s.returns_with_worker s1 := by
  unfold FunctionWorkerPool.submitter_step at hstep
  split at hstep
  · simp at hstep
  · rename_i w hj
    split at hstep
    · simp only [Option.some.injEq] at hstep
      subst hstep
      exact ⟨handoff_submitter_neutral s _ j (SubmitterState.publish_check w)
          (SubmitterState.publish_wait w) h hj rfl rfl rfl rfl rfl rfl rfl rfl,
        returns_of_set s _ j (SubmitterState.publish_wait w) rfl rfl⟩
    · split at hstep
      · simp at hstep
      · rename_i s2 hn
        simp only [Option.some.injEq] at hstep
        subst hstep
        unfold FunctionWorkerPool.notify_work_available at hn
        split at hn
        · rename_i k
          unfold FunctionWorkerPool.end_work_wait at hn
          split at hn
          · rename_i hk
            simp only [Option.some.injEq] at hn
            subst hn
            have hp := (handoff_publish s
              { s with m_work := w, m_work_available := true
                       submitters := s.submitters.set j (SubmitterState.accept w) }
              j w h hj rfl rfl rfl rfl rfl).1
            exact ⟨handoff_worker_neutral _ _ k WorkerState.work_wait WorkerState.work_woken
                hp hk rfl rfl rfl rfl rfl rfl rfl,
              returns_of_set s _ j (SubmitterState.accept w) rfl rfl⟩
          · simp at hn
        · split at hn
          · simp at hn
          · simp only [Option.some.injEq] at hn
            subst hn
            exact ⟨(handoff_publish s
                { s with m_work := w, m_work_available := true
                         submitters := s.submitters.set j (SubmitterState.accept w) }
                j w h hj rfl rfl rfl rfl rfl).1,
              returns_of_set s _ j (SubmitterState.accept w) rfl rfl⟩
  · simp at hstep
  · rename_i w hj
    split at hstep
    · simp only [Option.some.injEq] at hstep
      subst hstep
      exact ⟨handoff_submitter_waits s _ j w h hj rfl rfl rfl rfl rfl,
        returns_of_set s _ j (SubmitterState.accept_wait w) rfl rfl⟩
    · rename_i t ht
      simp only [Option.some.injEq] at hstep
      subst hstep
      obtain ⟨hh, k, _, hk, hsub, hw⟩ := handoff_submitter_meets s
        { s.release t with
          submitters := (s.release t).submitters.set j (SubmitterState.returned w)
          barrier_waiting := none }
        j w t h hj ht rfl rfl (release_slot s t).1 (release_slot s t).2.1 rfl
      refine ⟨hh, returns_of_meet s _ j k w _ hj rfl (Or.inr hk) hsub ?_⟩
      rw [hw]
      exact get_set_same s.workers k _ _ hk
  · simp at hstep
  · simp at hstep

/-- One step of the thread inside `shutdown()` keeps the hand-off and makes
no call return. -/
theorem shutdown_step_handoff {WorkType σ : Type}
    (s s1 : FunctionWorkerPool WorkType σ)
    (h : s.handoff) (hstep : s.shutdown_step = some s1) :
    s1.handoff ∧ s.returns_with_worker s1 := by
  unfold FunctionWorkerPool.shutdown_step at hstep
  split at hstep
  · simp at hstep
  · split at hstep
    · simp only [Option.some.injEq] at hstep
      subst hstep
      exact ⟨handoff_of_same s _ h rfl rfl rfl rfl rfl, returns_of_same s _ rfl⟩
    · simp only [Option.some.injEq] at hstep
      subst hstep
      exact ⟨handoff_of_same s _ h rfl rfl rfl rfl rfl, returns_of_same s _ rfl⟩
  · simp at hstep
  · simp only [Option.some.injEq] at hstep
    subst hstep
    exact ⟨handoff_of_same s _ h rfl rfl rfl rfl rfl, returns_of_same s _ rfl⟩
  · simp only [Option.some.injEq] at hstep
    subst hstep
    exact ⟨handoff_notify_all s _ h rfl rfl rfl rfl rfl, returns_of_same s _ rfl⟩
  · split at hstep
    · simp only [Option.some.injEq] at hstep
      subst hstep
      exact ⟨handoff_of_same s _ h rfl rfl rfl rfl rfl, returns_of_same s _ rfl⟩
    · simp at hstep
  · simp at hstep

/-- One step of a pool called from one thread keeps the hand-off, and a call
returns in it only together with the worker that held its item. -/
theorem step_one_caller_handoff {WorkType σ : Type} (f : WorkType → σ → Option Error × σ)
    (s s1 : FunctionWorkerPool WorkType σ) (a : PoolAction WorkType)
    (h : s.handoff) (hstep : s.step_one_caller f a = some s1) :
    s1.handoff ∧ s.returns_with_worker s1 := by
  cases a with
  | submit work =>
    simp only [FunctionWorkerPool.step_one_caller] at hstep
    split at hstep
    · rename_i hnone
      replace hstep := (thread_step_of_step f s s1 _ hstep).2
      simp only [FunctionWorkerPool.thread_step, Option.some.injEq] at hstep
      subst hstep
      refine ⟨handoff_submit s _ work h hnone rfl rfl rfl rfl rfl, ?_⟩
      apply returns_of_no_return
      intro j st w hj hin
      have := (List.countP_eq_zero.mp hnone) st (mem_of_get _ _ _ hj)
      rw [hin] at this
      simp at this
    · simp at hstep
  | call_shutdown =>
    replace hstep := (thread_step_of_step f s s1 PoolAction.call_shutdown hstep).2
    simp only [FunctionWorkerPool.thread_step] at hstep
    split at hstep
    · simp only [Option.some.injEq] at hstep
      subst hstep
      exact ⟨handoff_of_same s _ h rfl rfl rfl rfl rfl, returns_of_same s _ rfl⟩
    · simp at hstep
  | worker i wake =>
    exact worker_step_handoff f s s1 i wake h
      (thread_step_of_step f s s1 (PoolAction.worker i wake) hstep).2
  | submitter j wake =>
    exact submitter_step_handoff s s1 j wake h
      (thread_step_of_step f s s1 (PoolAction.submitter j wake) hstep).2
  | shutdown =>
    exact shutdown_step_handoff s s1 h
      (thread_step_of_step f s s1 (PoolAction.shutdown) hstep).2
  | spurious_worker i =>
    exact end_work_wait_handoff s s1 i h
      (thread_step_of_step f s s1 (PoolAction.spurious_worker i) hstep).2
  | spurious_waiter t =>
    exact end_wait_handoff s s1 t h
      (thread_step_of_step f s s1 (PoolAction.spurious_waiter t) hstep).2

/-- Every state that a pool called from one thread reaches has the
hand-off. -/
theorem run_one_caller_handoff {WorkType σ : Type} (f : WorkType → σ → Option Error × σ)
    (actions : List (PoolAction WorkType)) (s s1 : FunctionWorkerPool WorkType σ)
    (h : s.handoff) (hrun : s.run_one_caller f actions = some s1) : s1.handoff := by
  induction actions generalizing s with
  | nil =>
    simp only [FunctionWorkerPool.run_one_caller, Option.some.injEq] at hrun
    subst hrun
    exact h
  | cons a rest ih =>
    simp only [FunctionWorkerPool.run_one_caller] at hrun
    split at hrun
    · simp at hrun
    · rename_i s2 hs2
      exact ih s2 (step_one_caller_handoff f s s2 a h hs2).1 hrun

/-- The balance of an item passes to a state with the same log, workers, slot
and calls. -/
theorem balance_of_same (x : Nat) (s s1 : FunctionWorkerPool Nat (List Nat))
    (h : s.balance x) (hsub : s1.submitters = s.submitters) (hw : s1.workers = s.workers)
    (hav : s1.m_work_available = s.m_work_available) (hmw : s1.m_work = s.m_work)
    (henv : s1.env = s.env) : s1.balance x := by
  unfold FunctionWorkerPool.balance FunctionWorkerPool.occurrences at h ⊢
  rw [hsub, hw, hav, hmw, henv]
  exact h

/-- The balance is kept when one worker moves between states in which it
carries the same. -/
theorem balance_worker_neutral (x : Nat) (s s1 : FunctionWorkerPool Nat (List Nat))
    (i : Nat) (a b : WorkerState Nat) (h : s.balance x)
    (hi : s.workers.get? i = some a)
    (hab : FunctionWorkerPool.carries x a = FunctionWorkerPool.carries x b)
    (hsub : s1.submitters = s.submitters) (hw : s1.workers = s.workers.set i b)
    (hav : s1.m_work_available = s.m_work_available) (hmw : s1.m_work = s.m_work)
    (henv : s1.env = s.env) : s1.balance x := by
  unfold FunctionWorkerPool.balance FunctionWorkerPool.occurrences at h ⊢
  rw [hsub, hw, hav, hmw, henv]
  have hc := countP_set_get (FunctionWorkerPool.carries x) s.workers i a b hi
  rw [hab] at hc
  omega

/-- The balance is kept when one call moves between states in which it
awaits the same. -/
theorem balance_submitter_neutral (x : Nat) (s s1 : FunctionWorkerPool Nat (List Nat))
    (j : Nat) (a b : SubmitterState Nat) (h : s.balance x)
    (hj : s.submitters.get? j = some a)
    (haw : FunctionWorkerPool.awaits x a = FunctionWorkerPool.awaits x b)
    (hsm : FunctionWorkerPool.submitted x a = FunctionWorkerPool.submitted x b)
    (hsub : s1.submitters = s.submitters.set j b) (hw : s1.workers = s.workers)
    (hav : s1.m_work_available = s.m_work_available) (hmw : s1.m_work = s.m_work)
    (henv : s1.env = s.env) : s1.balance x := by
  unfold FunctionWorkerPool.balance FunctionWorkerPool.occurrences at h ⊢
  rw [hsub, hw, hav, hmw, henv]
  have hc1 := countP_set_get (FunctionWorkerPool.awaits x) s.submitters j a b hj
  have hc2 := countP_set_get (FunctionWorkerPool.submitted x) s.submitters j a b hj
  rw [haw] at hc1
  rw [hsm] at hc2
  omega

/-- The balance is kept when a worker copies the item out of the slot. -/
theorem balance_take_work (x : Nat) (s s1 : FunctionWorkerPool Nat (List Nat))
    (i : Nat) (a : WorkerState Nat) (h : s.balance x)
    (hi : s.workers.get? i = some a) (ha : FunctionWorkerPool.carries x a = false)
    (havail : s.m_work_available = true)
    (hsub : s1.submitters = s.submitters)
    (hw : s1.workers = s.workers.set i (WorkerState.accept s.m_work))
    (hav : s1.m_work_available = false) (henv : s1.env = s.env) : s1.balance x := by
  unfold FunctionWorkerPool.balance FunctionWorkerPool.occurrences at h ⊢
  rw [hsub, hw, hav, henv]
  rw [havail] at h
  have hc := countP_set_get (FunctionWorkerPool.carries x) s.workers i a
    (WorkerState.accept s.m_work) hi
  rw [ha] at hc
  by_cases hx : s.m_work = x
  · have e : FunctionWorkerPool.carries x (WorkerState.accept s.m_work) = true := by
      simp [FunctionWorkerPool.carries, hx]
    rw [e] at hc
    simp [hx] at h hc ⊢
    omega
  · have e : FunctionWorkerPool.carries x (WorkerState.accept s.m_work) = false := by
      simp [FunctionWorkerPool.carries, hx]
    rw [e] at hc
    simp [hx] at h hc ⊢
    omega

/-- The balance is kept when a call publishes its item into the empty
slot. -/
theorem balance_publish (x : Nat) (s s1 : FunctionWorkerPool Nat (List Nat))
    (j : Nat) (w : Nat) (h : s.balance x)
    (hj : s.submitters.get? j = some (SubmitterState.publish_check w))
    (hempty : s.m_work_available = false)
    (hsub : s1.submitters = s.submitters.set j (SubmitterState.accept w))
    (hw : s1.workers = s.workers)
    (hav : s1.m_work_available = true) (hmw : s1.m_work = w)
    (henv : s1.env = s.env) : s1.balance x := by
  unfold FunctionWorkerPool.balance FunctionWorkerPool.occurrences at h ⊢
  rw [hsub, hw, hav, hmw, henv]
  rw [hempty] at h
  have hc1 := countP_set_get (FunctionWorkerPool.awaits x) s.submitters j _
    (SubmitterState.accept w) hj
  have hc2 := countP_set_get (FunctionWorkerPool.submitted x) s.submitters j _
    (SubmitterState.accept w) hj
  simp only [FunctionWorkerPool.awaits, FunctionWorkerPool.submitted,
    SubmitterState.work] at hc1 hc2
  by_cases hx : w = x
  · simp [hx] at h hc1 hc2 ⊢
    omega
  · simp [hx] at h hc1 hc2 ⊢
    omega

/-- The balance is kept when a worker ends the task, which has appended the
item to the log. -/
theorem balance_run (x : Nat) (s s1 : FunctionWorkerPool Nat (List Nat))
    (i : Nat) (lw : Nat) (b : WorkerState Nat) (h : s.balance x)
    (hi : s.workers.get? i = some (WorkerState.run lw))
    (hb : FunctionWorkerPool.carries x b = false)
    (hsub : s1.submitters = s.submitters) (hw : s1.workers = s.workers.set i b)
    (hav : s1.m_work_available = s.m_work_available) (hmw : s1.m_work = s.m_work)
    (henv : s1.env = s.env ++ [lw]) : s1.balance x := by
  unfold FunctionWorkerPool.balance FunctionWorkerPool.occurrences at h ⊢
  rw [hsub, hw, hav, hmw, henv]
  have hc := countP_set_get (FunctionWorkerPool.carries x) s.workers i _ b hi
  rw [hb] at hc
  simp only [FunctionWorkerPool.carries] at hc
  by_cases hx : lw = x
  · simp [hx, List.count_append] at h hc ⊢
    omega
  · simp [hx, List.count_append, List.count_singleton] at h hc ⊢
    omega

/-- The balance is kept when a new call enters. -/
theorem balance_submit (x : Nat) (s s1 : FunctionWorkerPool Nat (List Nat))
    (w : Nat) (h : s.balance x)
    (hsub : s1.submitters = s.submitters ++ [SubmitterState.publish_check w])
    (hw : s1.workers = s.workers)
    (hav : s1.m_work_available = s.m_work_available) (hmw : s1.m_work = s.m_work)
    (henv : s1.env = s.env) : s1.balance x := by
  unfold FunctionWorkerPool.balance FunctionWorkerPool.occurrences at h ⊢
  rw [hsub, hw, hav, hmw, henv]
  simp only [List.countP_append, List.countP_cons, List.countP_nil,
    FunctionWorkerPool.awaits, FunctionWorkerPool.submitted, SubmitterState.work]
  omega

/-- The balance is kept when every waiting worker is woken. -/
theorem balance_notify_all (x : Nat) (s s1 : FunctionWorkerPool Nat (List Nat))
    (h : s.balance x) (hsub : s1.submitters = s.submitters)
    (hw : s1.workers = s.notify_all_work_available.workers)
    (hav : s1.m_work_available = s.m_work_available) (hmw : s1.m_work = s.m_work)
    (henv : s1.env = s.env) : s1.balance x := by
  unfold FunctionWorkerPool.balance FunctionWorkerPool.occurrences at h ⊢
  rw [hsub, hw, hav, hmw, henv]
  have hm : s.notify_all_work_available.workers.countP (FunctionWorkerPool.carries x)
      = s.workers.countP (FunctionWorkerPool.carries x) := by
    simp only [FunctionWorkerPool.notify_all_work_available, List.countP_map]
    apply List.countP_congr
    intro y _
    cases y <;> simp [FunctionWorkerPool.carries]
  rw [hm]
  exact h

/-- A freshly built pool with an empty log has the balance of every item. -/
theorem new_balance (x : Nat) (n : Nat) :
    (FunctionWorkerPool.new n ([] : List Nat) : FunctionWorkerPool Nat (List Nat)).balance x := by
  unfold FunctionWorkerPool.balance FunctionWorkerPool.occurrences
  simp only [FunctionWorkerPool.new]
  have : (List.replicate n (WorkerState.idle_mark : WorkerState Nat)).countP
      (FunctionWorkerPool.carries x) = 0 := by
    rw [List.countP_eq_zero]
    intro y hy
    rw [List.eq_of_mem_replicate hy]
    simp [FunctionWorkerPool.carries]
  rw [this]
  simp

/-- The end of a wait on `m_worker_available_cv` keeps the balance. -/
theorem end_wait_balance (x : Nat) (s s1 : FunctionWorkerPool Nat (List Nat))
    (t : Waiter) (h : s.balance x) (hn : s.end_wait t = some s1) : s1.balance x := by
  cases t with
  | submitter j =>
    simp only [FunctionWorkerPool.end_wait] at hn
    split at hn
    · rename_i w hj
      simp only [Option.some.injEq] at hn
      subst hn
      exact balance_submitter_neutral x s _ j (SubmitterState.publish_wait w)
        (SubmitterState.publish_check w) h hj rfl rfl rfl rfl rfl rfl rfl
    · simp at hn
  | shutdown =>
    simp only [FunctionWorkerPool.end_wait] at hn
    split at hn
    · simp only [Option.some.injEq] at hn
      subst hn
      exact balance_of_same x s _ h rfl rfl rfl rfl rfl
    · simp at hn

/-- The end of a worker's wait for work keeps the balance. -/
theorem end_work_wait_balance (x : Nat) (s s1 : FunctionWorkerPool Nat (List Nat))
    (i : Nat) (h : s.balance x) (hn : s.end_work_wait i = some s1) : s1.balance x := by
  unfold FunctionWorkerPool.end_work_wait at hn
  split at hn
  · rename_i hi
    simp only [Option.some.injEq] at hn
    subst hn
    exact balance_worker_neutral x s _ i WorkerState.work_wait WorkerState.work_woken h hi
      rfl rfl rfl rfl rfl rfl
  · simp at hn

/-- One step of a worker of the pool of Scenario A keeps the balance. -/
theorem worker_step_balance (x : Nat) (s s1 : FunctionWorkerPool Nat (List Nat))
    (i : Nat) (wake : Option Waiter) (hh : s.handoff) (h : s.balance x)
    (hstep : s.worker_step scenario_A_task i wake = some s1) : s1.balance x := by
  unfold FunctionWorkerPool.worker_step at hstep
  split at hstep
  · simp at hstep
  · rename_i hi
    simp only [Option.some.injEq] at hstep
    subst hstep
    exact balance_worker_neutral x s _ i WorkerState.idle_mark WorkerState.idle_signal h hi
      rfl rfl rfl rfl rfl rfl
  · rename_i hi
    split at hstep
    · simp at hstep
    · rename_i s2 hn
      simp only [Option.some.injEq] at hstep
      subst hstep
      have hw2 := (notify_worker_available_same s s2 wake hn).1
      have h2 : s2.balance x := by
        unfold FunctionWorkerPool.notify_worker_available at hn
        split at hn
        · exact end_wait_balance x s s2 _ h hn
        · split at hn
          · simp at hn
          · simp only [Option.some.injEq] at hn
            subst hn
            exact h
      rw [← hw2] at hi
      exact balance_worker_neutral x s2 _ i WorkerState.idle_signal WorkerState.work_check
        h2 hi rfl rfl rfl rfl rfl rfl
  · rename_i hi
    split at hstep
    · rename_i hc
      simp only [Option.some.injEq] at hstep
      subst hstep
      obtain ⟨t1, t2, t3, _, _, t6, _⟩ := take_work_fields s i
      exact balance_take_work x s _ i WorkerState.work_check h hi rfl hc t1 t2 t3 t6
    · simp only [Option.some.injEq] at hstep
      subst hstep
      exact balance_worker_neutral x s _ i WorkerState.work_check WorkerState.work_wait h hi
        rfl rfl rfl rfl rfl rfl
  · simp at hstep
  · rename_i hi
    split at hstep
    · simp only [Option.some.injEq] at hstep
      subst hstep
      exact balance_worker_neutral x s _ i WorkerState.work_woken WorkerState.exited h hi
        rfl rfl rfl rfl rfl rfl
    · split at hstep
      · rename_i hc
        simp only [Option.some.injEq] at hstep
        subst hstep
        obtain ⟨t1, t2, t3, _, _, t6, _⟩ := take_work_fields s i
        exact balance_take_work x s _ i WorkerState.work_woken h hi rfl hc t1 t2 t3 t6
      · simp only [Option.some.injEq] at hstep
        subst hstep
        exact balance_worker_neutral x s _ i WorkerState.work_woken WorkerState.work_wait h hi
          rfl rfl rfl rfl rfl rfl
  · rename_i lw hi
    split at hstep
    · simp only [Option.some.injEq] at hstep
      subst hstep
      exact balance_worker_neutral x s _ i (WorkerState.accept lw)
        (WorkerState.accept_wait lw) h hi rfl rfl rfl rfl rfl rfl
    · rename_i t ht
      simp only [Option.some.injEq] at hstep
      subst hstep
      obtain ⟨_, j, _, hj, hsub, hw⟩ := handoff_worker_meets s
        { s.release t with
          workers := (s.release t).workers.set i (WorkerState.run lw)
          barrier_waiting := none }
        i lw t hh hi ht rfl rfl (release_slot s t).1 (release_slot s t).2.1 rfl
      have hp := balance_submitter_neutral x s
        { s with submitters := s.submitters.set j (SubmitterState.returned lw) }
        j (SubmitterState.accept_wait lw) (SubmitterState.returned lw) h hj rfl rfl
        rfl rfl rfl rfl rfl
      exact balance_worker_neutral x _ _ i (WorkerState.accept lw) (WorkerState.run lw) hp hi
        rfl hsub hw (release_slot s t).1 (release_slot s t).2.1 (release_slot s t).2.2.1
  · simp at hstep
  · rename_i lw hi
    split at hstep
    · rename_i env1 heq
      simp only [Option.some.injEq] at hstep
      subst hstep
      simp only [scenario_A_task, Prod.mk.injEq, true_and] at heq
      subst heq
      exact balance_run x s _ i lw WorkerState.idle_mark h hi rfl rfl rfl rfl rfl rfl
    · rename_i e env1 heq
      simp [scenario_A_task] at heq
  · simp at hstep
  · simp at hstep

/-- One step of a call into the pool of Scenario A keeps the balance. -/
theorem submitter_step_balance (x : Nat) (s s1 : FunctionWorkerPool Nat (List Nat))
    (j : Nat) (wake : Option Nat) (hh : s.handoff) (h : s.balance x)
    (hstep : s.submitter_step j wake = some s1) : s1.balance x := by
  unfold FunctionWorkerPool.submitter_step at hstep
  split at hstep
  · simp at hstep
  · rename_i w hj
    split at hstep
    · simp only [Option.some.injEq] at hstep
      subst hstep
      exact balance_submitter_neutral x s _ j (SubmitterState.publish_check w)
        (SubmitterState.publish_wait w) h hj rfl rfl rfl rfl rfl rfl rfl
    · have hempty := (handoff_publish s
        { s with m_work := w, m_work_available := true
                 submitters := s.submitters.set j (SubmitterState.accept w) }
        j w hh hj rfl rfl rfl rfl rfl).2
      have hp := balance_publish x s
        { s with m_work := w, m_work_available := true
                 submitters := s.submitters.set j (SubmitterState.accept w) }
        j w h hj hempty rfl rfl rfl rfl rfl
      split at hstep
      · simp at hstep
      · rename_i s2 hn
        simp only [Option.some.injEq] at hstep
        subst hstep
        unfold FunctionWorkerPool.notify_work_available at hn
        split at hn
        · rename_i k
          unfold FunctionWorkerPool.end_work_wait at hn
          split at hn
          · rename_i hk
            simp only [Option.some.injEq] at hn
            subst hn
            exact balance_worker_neutral x _ _ k WorkerState.work_wait WorkerState.work_woken
              hp hk rfl rfl rfl rfl rfl rfl
          · simp at hn
        · split at hn
          · simp at hn
          · simp only [Option.some.injEq] at hn
            subst hn
            exact hp
  · simp at hstep
  · rename_i w hj
    split at hstep
    · simp only [Option.some.injEq] at hstep
      subst hstep
      exact balance_submitter_neutral x s _ j (SubmitterState.accept w)
        (SubmitterState.accept_wait w) h hj rfl rfl rfl rfl rfl rfl rfl
    · rename_i t ht
      simp only [Option.some.injEq] at hstep
      subst hstep
      obtain ⟨_, k, _, hk, hsub, hw⟩ := handoff_submitter_meets s
        { s.release t with
          submitters := (s.release t).submitters.set j (SubmitterState.returned w)
          barrier_waiting := none }
        j w t hh hj ht rfl rfl (release_slot s t).1 (release_slot s t).2.1 rfl
      have hp := balance_submitter_neutral x s
        { s with submitters := s.submitters.set j (SubmitterState.returned w) }
        j (SubmitterState.accept w) (SubmitterState.returned w) h hj rfl rfl
        rfl rfl rfl rfl rfl
      exact balance_worker_neutral x _ _ k (WorkerState.accept_wait w) (WorkerState.run w)
        hp hk rfl hsub hw (release_slot s t).1 (release_slot s t).2.1
        (release_slot s t).2.2.1
  · simp at hstep
  · simp at hstep

/-- One step of the thread inside `shutdown()` keeps the balance. -/
theorem shutdown_step_balance (x : Nat) (s s1 : FunctionWorkerPool Nat (List Nat))
    (h : s.balance x) (hstep : s.shutdown_step = some s1) : s1.balance x := by
  unfold FunctionWorkerPool.shutdown_step at hstep
  split at hstep
  · simp at hstep
  · split at hstep
    · simp only [Option.some.injEq] at hstep
      subst hstep
      exact balance_of_same x s _ h rfl rfl rfl rfl rfl
    · simp only [Option.some.injEq] at hstep
      subst hstep
      exact balance_of_same x s _ h rfl rfl rfl rfl rfl
  · simp at hstep
  · simp only [Option.some.injEq] at hstep
    subst hstep
    exact balance_of_same x s _ h rfl rfl rfl rfl rfl
  · simp only [Option.some.injEq] at hstep
    subst hstep
    exact balance_notify_all x s _ h rfl rfl rfl rfl rfl
  · split at hstep
    · simp only [Option.some.injEq] at hstep
      subst hstep
      exact balance_of_same x s _ h rfl rfl rfl rfl rfl
    · simp at hstep
  · simp at hstep

/-- One step of the pool of Scenario A called from one thread keeps the
balance of every item. -/
theorem step_one_caller_balance (x : Nat) (s s1 : FunctionWorkerPool Nat (List Nat))
    (a : PoolAction Nat) (hh : s.handoff) (h : s.balance x)
    (hstep : s.step_one_caller scenario_A_task a = some s1) : s1.balance x := by
  cases a with
  | submit work =>
    simp only [FunctionWorkerPool.step_one_caller] at hstep
    split at hstep
    · replace hstep := (thread_step_of_step scenario_A_task s s1 _ hstep).2
      simp only [FunctionWorkerPool.thread_step, Option.some.injEq] at hstep
      subst hstep
      exact balance_submit x s _ work h rfl rfl rfl rfl rfl
    · simp at hstep
  | call_shutdown =>
    replace hstep := (thread_step_of_step scenario_A_task s s1 PoolAction.call_shutdown hstep).2
    simp only [FunctionWorkerPool.thread_step] at hstep
    split at hstep
    · simp only [Option.some.injEq] at hstep
      subst hstep
      exact balance_of_same x s _ h rfl rfl rfl rfl rfl
    · simp at hstep
  | worker i wake =>
    exact worker_step_balance x s s1 i wake hh h
      (thread_step_of_step scenario_A_task s s1 (PoolAction.worker i wake) hstep).2
  | submitter j wake =>
    exact submitter_step_balance x s s1 j wake hh h
      (thread_step_of_step scenario_A_task s s1 (PoolAction.submitter j wake) hstep).2
  | shutdown =>
    exact shutdown_step_balance x s s1 h
      (thread_step_of_step scenario_A_task s s1 (PoolAction.shutdown) hstep).2
  | spurious_worker i =>
    exact end_work_wait_balance x s s1 i h
      (thread_step_of_step scenario_A_task s s1 (PoolAction.spurious_worker i) hstep).2
  | spurious_waiter t =>
    exact end_wait_balance x s s1 t h
      (thread_step_of_step scenario_A_task s s1 (PoolAction.spurious_waiter t) hstep).2

/-- Every state that the pool of Scenario A called from one thread reaches
has the balance of every item. -/
theorem run_one_caller_balance (x : Nat) (actions : List (PoolAction Nat))
    (s s1 : FunctionWorkerPool Nat (List Nat)) (hh : s.handoff) (h : s.balance x)
    (hrun : s.run_one_caller scenario_A_task actions = some s1) : s1.balance x := by
  induction actions generalizing s with
  | nil =>
    simp only [FunctionWorkerPool.run_one_caller, Option.some.injEq] at hrun
    subst hrun
    exact h
  | cons a rest ih =>
    simp only [FunctionWorkerPool.run_one_caller] at hrun
    split at hrun
    · simp at hrun
    · rename_i s2 hs2
      exact ih s2 (step_one_caller_handoff scenario_A_task s s2 a hh hs2).1
        (step_one_caller_balance x s s2 a hh h hs2) hrun

/-- A step of a pool called from one thread is a step of the pool. -/
theorem step_of_step_one_caller {WorkType σ : Type} (f : WorkType → σ → Option Error × σ)
    (s s1 : FunctionWorkerPool WorkType σ) (a : PoolAction WorkType)
    (h : s.step_one_caller f a = some s1) : s.step f a = some s1 := by
  cases a with
  | submit work =>
    simp only [FunctionWorkerPool.step_one_caller] at h
    split at h
    · exact h
    · simp at h
  | call_shutdown => exact h
  | worker i wake => exact h
  | submitter j wake => exact h
  | shutdown => exact h
  | spurious_worker i => exact h
  | spurious_waiter t => exact h

/-- A run of a pool called from one thread is a run of the pool. -/
theorem run_of_run_one_caller {WorkType σ : Type} (f : WorkType → σ → Option Error × σ)
    (actions : List (PoolAction WorkType)) (s s1 : FunctionWorkerPool WorkType σ)
    (h : s.run_one_caller f actions = some s1) : s.run f actions = some s1 := by
  induction actions generalizing s with
  | nil => exact h
  | cons a rest ih =>
    simp only [FunctionWorkerPool.run_one_caller] at h
    split at h
    · simp at h
    · rename_i s2 hs2
      simp only [FunctionWorkerPool.run, step_of_step_one_caller f s s2 a hs2]
      exact ih s2 h

/-- A quiescent state passes to a state with the same calls and slot whose
workers are the same but for one that moved to a state counted as idle. -/
theorem quiescent_worker_set {WorkType σ : Type} (s s1 : FunctionWorkerPool WorkType σ)
    (i : Nat) (b : WorkerState WorkType) (h : s.quiescent)
    (hb : FunctionWorkerPool.idle_counted b = true)
    (hsub : s1.submitters = s.submitters) (hw : s1.workers = s.workers.set i b)
    (hav : s1.m_work_available = s.m_work_available) : s1.quiescent := by
  obtain ⟨h1, h2, h3⟩ := h
  unfold FunctionWorkerPool.quiescent
  rw [hsub, hw, hav]
  refine ⟨h1, h2, ?_⟩
  intro ws hws
  rcases mem_set_cases _ _ _ _ hws with h4 | h4
  · exact h3 ws h4
  · rw [h4]
    exact hb

/-- A quiescent state passes to a state with the same calls, slot and
workers. -/
theorem quiescent_of_same {WorkType σ : Type} (s s1 : FunctionWorkerPool WorkType σ)
    (h : s.quiescent) (hsub : s1.submitters = s.submitters) (hw : s1.workers = s.workers)
    (hav : s1.m_work_available = s.m_work_available) : s1.quiescent := by
  unfold FunctionWorkerPool.quiescent at h ⊢
  rw [hsub, hw, hav]
  exact h

/-- In a quiescent state no call can take a step. -/
theorem quiescent_no_submitter_step {WorkType σ : Type} (s : FunctionWorkerPool WorkType σ)
    (j : Nat) (wake : Option Nat) (h : s.quiescent) : s.submitter_step j wake = none := by
  obtain ⟨h1, _, _⟩ := h
  unfold FunctionWorkerPool.submitter_step
  cases hj : s.submitters.get? j with
  | none => rfl
  | some st =>
    have := (List.countP_eq_zero.mp h1) st (mem_of_get _ _ _ hj)
    cases st <;> simp [FunctionWorkerPool.in_call] at this ⊢

/-- The end of a wait on `m_worker_available_cv` keeps a state quiescent. -/
theorem end_wait_quiescent {WorkType σ : Type} (s s1 : FunctionWorkerPool WorkType σ)
    (t : Waiter) (h : s.quiescent) (hn : s.end_wait t = some s1) : s1.quiescent := by
  cases t with
  | submitter j =>
    simp only [FunctionWorkerPool.end_wait] at hn
    split at hn
    · rename_i w hj
      have := (List.countP_eq_zero.mp h.1) _ (mem_of_get _ _ _ hj)
      simp [FunctionWorkerPool.in_call] at this
    · simp at hn
  | shutdown =>
    simp only [FunctionWorkerPool.end_wait] at hn
    split at hn
    · simp only [Option.some.injEq] at hn
      subst hn
      exact quiescent_of_same s _ h rfl rfl rfl
    · simp at hn

/-- The end of a worker's wait for work keeps a state quiescent. -/
theorem end_work_wait_quiescent {WorkType σ : Type} (s s1 : FunctionWorkerPool WorkType σ)
    (i : Nat) (h : s.quiescent) (hn : s.end_work_wait i = some s1) : s1.quiescent := by
  unfold FunctionWorkerPool.end_work_wait at hn
  split at hn
  · simp only [Option.some.injEq] at hn
    subst hn
    exact quiescent_worker_set s _ i WorkerState.work_woken h rfl rfl rfl rfl
  · simp at hn

/-- One step of a worker keeps a state quiescent and leaves the environment
as it is: no task is run. -/
theorem worker_step_quiescent {WorkType σ : Type} (f : WorkType → σ → Option Error × σ)
    (s s1 : FunctionWorkerPool WorkType σ) (i : Nat) (wake : Option Waiter)
    (h : s.quiescent) (hstep : s.worker_step f i wake = some s1) :
    s1.quiescent ∧ s1.env = s.env := by
  have hidle : ∀ ws, s.workers.get? i = some ws → FunctionWorkerPool.idle_counted ws = true :=
    fun ws hws => h.2.2 ws (mem_of_get _ _ _ hws)
  unfold FunctionWorkerPool.worker_step at hstep
  split at hstep
  · simp at hstep
  · rename_i hi
    have := hidle _ hi
    simp [FunctionWorkerPool.idle_counted] at this
  · rename_i hi
    split at hstep
    · simp at hstep
    · rename_i s2 hn
      simp only [Option.some.injEq] at hstep
      subst hstep
      have h2 : s2.quiescent ∧ s2.env = s.env := by
        unfold FunctionWorkerPool.notify_worker_available at hn
        split at hn
        · rename_i t
          refine ⟨end_wait_quiescent s s2 t h hn, ?_⟩
          cases t with
          | submitter j =>
            simp only [FunctionWorkerPool.end_wait] at hn
            split at hn
            · simp only [Option.some.injEq] at hn
              subst hn
              rfl
            · simp at hn
          | shutdown =>
            simp only [FunctionWorkerPool.end_wait] at hn
            split at hn
            · simp only [Option.some.injEq] at hn
              subst hn
              rfl
            · simp at hn
        · split at hn
          · simp at hn
          · simp only [Option.some.injEq] at hn
            subst hn
            exact ⟨h, rfl⟩
      exact ⟨quiescent_worker_set s2 _ i WorkerState.work_check h2.1 rfl rfl rfl rfl, h2.2⟩
  · rename_i hi
    split at hstep
    · rename_i hc
      rw [h.2.1] at hc
      simp at hc
    · simp only [Option.some.injEq] at hstep
      subst hstep
      exact ⟨quiescent_worker_set s _ i WorkerState.work_wait h rfl rfl rfl rfl, rfl⟩
  · simp at hstep
  · rename_i hi
    split at hstep
    · simp only [Option.some.injEq] at hstep
      subst hstep
      exact ⟨quiescent_worker_set s _ i WorkerState.exited h rfl rfl rfl rfl, rfl⟩
    · split at hstep
      · rename_i hc
        rw [h.2.1] at hc
        simp at hc
      · simp only [Option.some.injEq] at hstep
        subst hstep
        exact ⟨quiescent_worker_set s _ i WorkerState.work_wait h rfl rfl rfl rfl, rfl⟩
  · rename_i lw hi
    have := hidle _ hi
    simp [FunctionWorkerPool.idle_counted] at this
  · simp at hstep
  · rename_i lw hi
    have := hidle _ hi
    simp [FunctionWorkerPool.idle_counted] at this
  · simp at hstep
  · simp at hstep

/-- While no new call starts, a quiescent state stays quiescent and no task
is run. -/
theorem step_quiescent {WorkType σ : Type} (f : WorkType → σ → Option Error × σ)
    (s s1 : FunctionWorkerPool WorkType σ) (a : PoolAction WorkType)
    (h : s.quiescent) (ha : a.is_submit = false) (hstep : s.step f a = some s1) :
    s1.quiescent ∧ s1.env = s.env := by
  replace hstep := (thread_step_of_step f s s1 a hstep).2
  cases a with
  | submit work => simp [PoolAction.is_submit] at ha
  | call_shutdown =>
    simp only [FunctionWorkerPool.thread_step] at hstep
    split at hstep
    · simp only [Option.some.injEq] at hstep
      subst hstep
      exact ⟨quiescent_of_same s _ h rfl rfl rfl, rfl⟩
    · simp at hstep
  | worker i wake => exact worker_step_quiescent f s s1 i wake h hstep
  | submitter j wake =>
    simp only [FunctionWorkerPool.thread_step, quiescent_no_submitter_step s j wake h] at hstep
    simp at hstep
  | shutdown =>
    simp only [FunctionWorkerPool.thread_step] at hstep
    unfold FunctionWorkerPool.shutdown_step at hstep
    split at hstep
    · simp at hstep
    · split at hstep
      · simp only [Option.some.injEq] at hstep
        subst hstep
        exact ⟨quiescent_of_same s _ h rfl rfl rfl, rfl⟩
      · simp only [Option.some.injEq] at hstep
        subst hstep
        exact ⟨quiescent_of_same s _ h rfl rfl rfl, rfl⟩
    · simp at hstep
    · simp only [Option.some.injEq] at hstep
      subst hstep
      exact ⟨quiescent_of_same s _ h rfl rfl rfl, rfl⟩
    · simp only [Option.some.injEq] at hstep
      subst hstep
      refine ⟨⟨h.1, h.2.1, ?_⟩, rfl⟩
      intro ws hws
      simp only [FunctionWorkerPool.notify_all_work_available, List.mem_map] at hws
      obtain ⟨ws0, hws0, he⟩ := hws
      have := h.2.2 ws0 hws0
      rw [← he]
      cases ws0 <;> simp [FunctionWorkerPool.idle_counted] at this ⊢
    · split at hstep
      · simp only [Option.some.injEq] at hstep
        subst hstep
        exact ⟨quiescent_of_same s _ h rfl rfl rfl, rfl⟩
      · simp at hstep
    · simp at hstep
  | spurious_worker i =>
    refine ⟨end_work_wait_quiescent s s1 i h hstep, ?_⟩
    simp only [FunctionWorkerPool.thread_step] at hstep
    unfold FunctionWorkerPool.end_work_wait at hstep
    split at hstep
    · simp only [Option.some.injEq] at hstep
      subst hstep
      rfl
    · simp at hstep
  | spurious_waiter t =>
    refine ⟨end_wait_quiescent s s1 t h hstep, ?_⟩
    simp only [FunctionWorkerPool.thread_step] at hstep
    cases t with
    | submitter j =>
      simp only [FunctionWorkerPool.end_wait] at hstep
      split at hstep
      · simp only [Option.some.injEq] at hstep
        subst hstep
        rfl
      · simp at hstep
    | shutdown =>
      simp only [FunctionWorkerPool.end_wait] at hstep
      split at hstep
      · simp only [Option.some.injEq] at hstep
        subst hstep
        rfl
      · simp at hstep

/-- While no new call starts, every state reached from a quiescent one is
quiescent and has the same environment. -/
theorem run_quiescent {WorkType σ : Type} (f : WorkType → σ → Option Error × σ)
    (actions : List (PoolAction WorkType)) (s s1 : FunctionWorkerPool WorkType σ)
    (h : s.quiescent) (ha : ∀ a ∈ actions, a.is_submit = false)
    (hrun : s.run f actions = some s1) : s1.quiescent ∧ s1.env = s.env := by
  induction actions generalizing s with
  | nil =>
    simp only [FunctionWorkerPool.run, Option.some.injEq] at hrun
    subst hrun
    exact ⟨h, rfl⟩
  | cons a rest ih =>
    simp only [FunctionWorkerPool.run] at hrun
    split at hrun
    · simp at hrun
    · rename_i s2 hs2
      obtain ⟨q2, e2⟩ := step_quiescent f s s2 a h (ha a (List.mem_cons_self _ _)) hs2
      obtain ⟨q1, e1⟩ := ih s2 q2 (fun b hb => ha b (List.mem_cons_of_mem _ hb)) hrun
      exact ⟨q1, e1.trans e2⟩

/-- Under the hand-off, while a call has not published, the slot is empty and
no worker holds an item before the barrier. -/
theorem handoff_unpublished_empty {WorkType σ : Type} (s : FunctionWorkerPool WorkType σ)
    (h : s.handoff) (j : Nat) (a : SubmitterState WorkType)
    (hj : s.submitters.get? j = some a) (hin : FunctionWorkerPool.in_call a = true)
    (hp : FunctionWorkerPool.published a = false) :
    s.m_work_available = false ∧ s.workers.countP FunctionWorkerPool.holds_work = 0 := by
  have hP1 := countP_succ_le_of_get FunctionWorkerPool.published FunctionWorkerPool.in_call
    published_in_call s.submitters j a hj hin hp
  obtain ⟨hU, hHP, _, _, _⟩ := h
  have hH0 : s.workers.countP FunctionWorkerPool.holds_work = 0 := by omega
  refine ⟨?_, hH0⟩
  cases hq : s.m_work_available with
  | false => rfl
  | true =>
    rw [hq] at hHP
    simp at hHP
    omega

/-- Under the hand-off, when no call is in progress, the slot is empty and no
worker holds an item before the barrier. -/
theorem handoff_idle_empty {WorkType σ : Type} (s : FunctionWorkerPool WorkType σ)
    (h : s.handoff) (hU : s.submitters.countP FunctionWorkerPool.in_call = 0) :
    s.m_work_available = false ∧ s.workers.countP FunctionWorkerPool.holds_work = 0 := by
  have hP1 : s.submitters.countP FunctionWorkerPool.published
      ≤ s.submitters.countP FunctionWorkerPool.in_call :=
    List.countP_mono_left (fun x _ => published_in_call x)
  obtain ⟨_, hHP, _, _, _⟩ := h
  have hH0 : s.workers.countP FunctionWorkerPool.holds_work = 0 := by omega
  refine ⟨?_, hH0⟩
  cases hq : s.m_work_available with
  | false => rfl
  | true =>
    rw [hq] at hHP
    simp at hHP
    omega

/-- When the all-idle test of `shutdown()` passes in a state with its
bookkeeping, every worker counts as idle and the idle count is the number of
workers. -/
theorem idle_of_test {WorkType σ : Type} (s : FunctionWorkerPool WorkType σ)
    (hb : s.bookkeeping) (htest : ¬ (s.m_num_workers_available < s.m_num_workers)) :
    s.m_num_workers_available = s.m_num_workers ∧
    ∀ ws ∈ s.workers, FunctionWorkerPool.idle_counted ws = true := by
  obtain ⟨b1, _, b3⟩ := hb
  have hle := List.countP_le_length FunctionWorkerPool.idle_counted (l := s.workers)
  have heq : s.workers.countP FunctionWorkerPool.idle_counted = s.workers.length := by omega
  exact ⟨by omega, List.countP_eq_length.mp heq⟩

/-- The calls made with item `x`, counted on the list of their items. -/
theorem count_map_work (x : Nat) (l : List (SubmitterState Nat)) :
    (l.map SubmitterState.work).count x = l.countP (FunctionWorkerPool.submitted x) := by
  induction l with
  | nil => rfl
  | cons a l ih =>
    simp only [List.map_cons, List.count_cons, List.countP_cons, ih,
      FunctionWorkerPool.submitted]

/-- Every state that a freshly built pool called from one thread reaches has
the hand-off and its bookkeeping. -/
theorem reachable_one_caller {WorkType σ : Type} [Inhabited WorkType]
    (f : WorkType → σ → Option Error × σ) (n : Nat) (env : σ)
    (actions : List (PoolAction WorkType)) (s : FunctionWorkerPool WorkType σ)
    (hn : n < size_t_range)
    (hrun : (FunctionWorkerPool.new n env).run_one_caller f actions = some s) :
    s.handoff ∧ s.bookkeeping :=
  ⟨run_one_caller_handoff f actions _ s (new_handoff n env) hrun,
   run_bookkeeping f actions _ s (new_bookkeeping n env hn)
     (run_of_run_one_caller f actions _ s hrun)⟩

/-- A worker that counts as idle carries no item. -/
theorem idle_not_carrying (x : Nat) (ws : WorkerState Nat)
    (h : FunctionWorkerPool.idle_counted ws = true) :
    FunctionWorkerPool.carries x ws = false := by
  cases ws <;> simp [FunctionWorkerPool.idle_counted, FunctionWorkerPool.carries] at h ⊢

/-- A call that still has its item to publish has not returned. -/
theorem awaits_in_call (x : Nat) (st : SubmitterState Nat)
    (h : FunctionWorkerPool.awaits x st = true) : FunctionWorkerPool.in_call st = true := by
  cases st <;> simp [FunctionWorkerPool.awaits, FunctionWorkerPool.in_call] at h ⊢

/-- C22 (amended). Scenario A with one calling thread, for a pool of any
number of workers whose task appends its item to the log.  In every state
that any interleaving reaches, each item is in exactly as many places (the
log, a worker, the slot, a call that has not published) as calls were made
with it, so no item is overwritten, lost or logged more often than it was
submitted; and in every state in which no call is in progress and the
all-idle test of `shutdown()` passes, the log holds exactly the submitted
items, each once per call: for the calls submit(1), submit(2) the log is a
permutation of [1, 2]. -/
theorem scenario_A_one_caller (n : Nat) (actions : List (PoolAction Nat))
    (s : FunctionWorkerPool Nat (List Nat)) (hn : n < size_t_range)
    (hrun : (FunctionWorkerPool.new n ([] : List Nat)).run_one_caller scenario_A_task actions
      = some s) :
    (∀ x, s.occurrences x = (s.submitters.map SubmitterState.work).count x) ∧
    (∀ x, s.env.count x ≤ (s.submitters.map SubmitterState.work).count x) ∧
    (s.submitters.countP FunctionWorkerPool.in_call = 0 →
      ¬ (s.m_num_workers_available < s.m_num_workers) →
      s.env.Perm (s.submitters.map SubmitterState.work)) ∧
    (s.submitters.map SubmitterState.work = [1, 2] →
      s.submitters.countP FunctionWorkerPool.in_call = 0 →
      ¬ (s.m_num_workers_available < s.m_num_workers) →
      s.env.Perm [1, 2]) := by
  obtain ⟨hh, hb⟩ := reachable_one_caller scenario_A_task n [] actions s hn hrun
  have hbal : ∀ x, s.balance x := fun x =>
    run_one_caller_balance x actions _ s (new_handoff n []) (new_balance x n) hrun
  have h3 : s.submitters.countP FunctionWorkerPool.in_call = 0 →
      ¬ (s.m_num_workers_available < s.m_num_workers) →
      s.env.Perm (s.submitters.map SubmitterState.work) := by
    intro hU htest
    rw [List.perm_iff_count]
    intro x
    rw [count_map_work]
    have hx := hbal x
    unfold FunctionWorkerPool.balance FunctionWorkerPool.occurrences at hx
    have hidle := (idle_of_test s hb htest).2
    have hc : s.workers.countP (FunctionWorkerPool.carries x) = 0 := by
      rw [List.countP_eq_zero]
      intro ws hws
      rw [idle_not_carrying x ws (hidle ws hws)]
      simp
    have ha : s.submitters.countP (FunctionWorkerPool.awaits x) = 0 := by
      have : s.submitters.countP (FunctionWorkerPool.awaits x)
          ≤ s.submitters.countP FunctionWorkerPool.in_call :=
        List.countP_mono_left (fun st _ => awaits_in_call x st)
      omega
    rw [(handoff_idle_empty s hh hU).1, hc, ha] at hx
    simpa using hx
  refine ⟨?_, ?_, h3, ?_⟩
  · intro x
    rw [count_map_work]
    exact hbal x
  · intro x
    rw [count_map_work]
    have hx := hbal x
    unfold FunctionWorkerPool.balance FunctionWorkerPool.occurrences at hx
    omega
  · intro hw hU htest
    rw [← hw]
    exact h3 hU htest

/-- Witness for C22: Scenario A with one calling thread and two workers, run
to the end of `shutdown()`: both items are logged once and both workers have
exited. -/
theorem scenario_A_one_caller_witness :
    ∃ s, (FunctionWorkerPool.new 2 ([] : List Nat)).run_one_caller scenario_A_task
        scenario_A_sequential = some s ∧
      s.submitters = [SubmitterState.returned 1, SubmitterState.returned 2] ∧
      s.workers = [WorkerState.exited, WorkerState.exited] ∧
      s.shutdown = ShutdownState.returned ∧
      s.env = [1, 2] ∧
      s.env.Perm [1, 2] :=
  ⟨_, rfl, rfl, rfl, rfl, rfl,
    (scenario_A_one_caller 2 scenario_A_sequential _ (by decide) rfl).2.2.2 rfl rfl
      (by decide)⟩

/-- C23 (amended). For a pool called from one thread, with any number of
workers, any task and any interleaving of the threads: in every reachable
state at most one call is in progress and at most one item is published and
not yet past the barrier; that item is either in the slot or held by exactly
one worker; while a call has not published, the slot is empty, so publishing
never overwrites an item that no worker has copied; the slot and the worker
hold the very item of the call; and in every step in which a call returns, it
passes the barrier together with a worker that had copied its item and goes
on to run the task on it. -/
theorem one_caller_handoff {WorkType σ : Type} [Inhabited WorkType]
    (f : WorkType → σ → Option Error × σ) (n : Nat) (env : σ)
    (actions : List (PoolAction WorkType)) (s : FunctionWorkerPool WorkType σ)
    (hrun : (FunctionWorkerPool.new n env).run_one_caller f actions = some s) :
    s.submitters.countP FunctionWorkerPool.in_call ≤ 1 ∧
    s.submitters.countP FunctionWorkerPool.published ≤ 1 ∧
    (if s.m_work_available = true then 1 else 0)
        + s.workers.countP FunctionWorkerPool.holds_work
      = s.submitters.countP FunctionWorkerPool.published ∧
    (∀ j st, s.submitters.get? j = some st → FunctionWorkerPool.in_call st = true →
      FunctionWorkerPool.published st = false →
      s.m_work_available = false ∧ s.workers.countP FunctionWorkerPool.holds_work = 0) ∧
    (∀ j st, s.submitters.get? j = some st → FunctionWorkerPool.published st = true →
      (s.m_work_available = true → s.m_work = st.work) ∧
      (∀ i ws lw, s.workers.get? i = some ws → FunctionWorkerPool.held_work ws = some lw →
        lw = st.work)) ∧
    (∀ a s1, s.step_one_caller f a = some s1 → s.returns_with_worker s1) := by
  have hh := run_one_caller_handoff f actions _ s (new_handoff n env) hrun
  refine ⟨hh.1, handoff_published_le s hh, hh.2.1, ?_, ?_, ?_⟩
  · intro j st hj hin hp
    exact handoff_unpublished_empty s hh j st hj hin hp
  · intro j st hj hp
    obtain ⟨v1, v2⟩ := hh.2.2.2.2 st (mem_of_get _ _ _ hj) hp
    exact ⟨v1, fun i ws lw hi hl => v2 ws (mem_of_get _ _ _ hi) lw hl⟩
  · intro a s1 hstep
    exact (step_one_caller_handoff f s s1 a hh hstep).2

/-- Witness for C23: Scenario A with one calling thread, stopped when the
first call has published item 1 and waits in the barrier; the next step of
worker 0 copies the item. -/
theorem one_caller_handoff_witness :
    ∃ s, (FunctionWorkerPool.new 2 ([] : List Nat)).run_one_caller scenario_A_task
        (scenario_A_sequential.take 9) = some s ∧
      s.submitters = [SubmitterState.accept_wait 1] ∧
      s.m_work_available = true ∧
      s.m_work = 1 ∧
      s.submitters.countP FunctionWorkerPool.published ≤ 1 ∧
      (if s.m_work_available = true then 1 else 0)
          + s.workers.countP FunctionWorkerPool.holds_work
        = s.submitters.countP FunctionWorkerPool.published :=
  ⟨_, rfl, rfl, rfl, rfl,
    (one_caller_handoff scenario_A_task 2 [] (scenario_A_sequential.take 9) _ rfl).2.1,
    (one_caller_handoff scenario_A_task 2 [] (scenario_A_sequential.take 9) _ rfl).2.2.1⟩

/-- C24 (amended). `shutdown()` of a pool called from one thread.  When its
all-idle test passes, the idle count equals the number of workers, every
worker counts as idle and none holds an item.  If no call is in progress then,
nothing is in flight (the slot is empty), and while no new call starts this
stays so in every later state, so the flag is set with all workers idle, and
no task is run any more.  Every call that has returned did so by passing the
barrier together with a worker that had copied its item, so every earlier
submission has been accepted.  The join ends only when every worker thread
has ended; and a worker that wakes and finds the flag set exits without
running the task. -/
theorem shutdown_after_acceptance {WorkType σ : Type} [Inhabited WorkType]
    (f : WorkType → σ → Option Error × σ) (n : Nat) (env : σ)
    (actions : List (PoolAction WorkType)) (s s1 : FunctionWorkerPool WorkType σ)
    (hn : n < size_t_range)
    (hrun : (FunctionWorkerPool.new n env).run_one_caller f actions = some s)
    (hcheck : s.shutdown = ShutdownState.idle_check)
    (hstep : s.step_one_caller f PoolAction.shutdown = some s1)
    (hpass : s1.shutdown = ShutdownState.set_flag) :
    s.workers.length = s.m_num_workers ∧
    s.m_num_workers_available = s.m_num_workers ∧
    (∀ ws ∈ s.workers, FunctionWorkerPool.idle_counted ws = true) ∧
    s.workers.countP FunctionWorkerPool.holds_work = 0 ∧
    (s.submitters.countP FunctionWorkerPool.in_call = 0 →
      s.quiescent ∧ s1.quiescent ∧
      ∀ (more : List (PoolAction WorkType)) (s2 : FunctionWorkerPool WorkType σ),
        (∀ a ∈ more, a.is_submit = false) → s1.run f more = some s2 →
        s2.quiescent ∧ s2.env = s.env) ∧
    (∀ (pre : List (PoolAction WorkType)) (a : PoolAction WorkType)
        (t t1 : FunctionWorkerPool WorkType σ),
      (FunctionWorkerPool.new n env).run_one_caller f pre = some t →
      t.step_one_caller f a = some t1 → t.returns_with_worker t1) ∧
    (∀ (t t1 : FunctionWorkerPool WorkType σ), t.shutdown = ShutdownState.join →
      t.step f PoolAction.shutdown = some t1 →
      t1.shutdown = ShutdownState.returned ∧
      ∀ ws ∈ t.workers, FunctionWorkerPool.worker_ended ws = true) ∧
    (∀ (t t1 : FunctionWorkerPool WorkType σ) (i : Nat) (wake : Option Waiter),
      t.workers.get? i = some WorkerState.work_woken → t.m_shutdown = true →
      t.step f (PoolAction.worker i wake) = some t1 →
      t1.workers.get? i = some WorkerState.exited ∧ t1.env = t.env) := by
  obtain ⟨hh, hb⟩ := reachable_one_caller f n env actions s hn hrun
  have hs1 : ¬ (s.m_num_workers_available < s.m_num_workers) ∧
      s1 = { s with shutdown := ShutdownState.set_flag } := by
    replace hstep := (thread_step_of_step f s s1 PoolAction.shutdown hstep).2
    simp only [FunctionWorkerPool.thread_step, FunctionWorkerPool.shutdown_step,
      hcheck] at hstep
    split at hstep
    · simp only [Option.some.injEq] at hstep
      rw [← hstep] at hpass
      simp at hpass
    · rename_i hlt
      simp only [Option.some.injEq] at hstep
      exact ⟨hlt, hstep.symm⟩
  obtain ⟨htest, hs1eq⟩ := hs1
  obtain ⟨hav, hidle⟩ := idle_of_test s hb htest
  have hhold : s.workers.countP FunctionWorkerPool.holds_work = 0 := by
    rw [List.countP_eq_zero]
    intro ws hws
    have := hidle ws hws
    cases ws <;>
      simp [FunctionWorkerPool.idle_counted, FunctionWorkerPool.holds_work,
        FunctionWorkerPool.held_work] at this ⊢
  refine ⟨hb.1, hav, hidle, hhold, ?_, ?_, ?_, ?_⟩
  · intro hU
    have hq : s.quiescent := ⟨hU, (handoff_idle_empty s hh hU).1, hidle⟩
    have hq1 : s1.quiescent := by
      rw [hs1eq]
      exact quiescent_of_same s _ hq rfl rfl rfl
    refine ⟨hq, hq1, ?_⟩
    intro more s2 hmore hrun2
    obtain ⟨q2, e2⟩ := run_quiescent f more s1 s2 hq1 hmore hrun2
    refine ⟨q2, ?_⟩
    rw [e2, hs1eq]
  · intro pre a t t1 hpre ht
    exact (step_one_caller_handoff f t t1 a
      (run_one_caller_handoff f pre _ t (new_handoff n env) hpre) ht).2
  · intro t t1 hj ht
    replace ht := (thread_step_of_step f t t1 PoolAction.shutdown ht).2
    simp only [FunctionWorkerPool.thread_step, FunctionWorkerPool.shutdown_step, hj] at ht
    split at ht
    · rename_i hall
      simp only [Option.some.injEq] at ht
      rw [← ht]
      exact ⟨rfl, fun ws hws => (List.all_eq_true.mp hall) ws hws⟩
    · simp at ht
  · intro t t1 i wake hi hflag ht
    replace ht := (thread_step_of_step f t t1 (PoolAction.worker i wake) ht).2
    simp only [FunctionWorkerPool.thread_step, FunctionWorkerPool.worker_step, hi, hflag,
      if_true, Option.some.injEq] at ht
    rw [← ht]
    exact ⟨get_set_same t.workers i _ _ hi, rfl⟩

/-- Witness for C24: Scenario A with one calling thread and two workers, at
the all-idle test of `shutdown()`, which passes with both calls returned, both
workers waiting for work and the log [1, 2]. -/
theorem shutdown_after_acceptance_witness :
    (FunctionWorkerPool.new 2 ([] : List Nat)).run_one_caller scenario_A_task
        (scenario_A_sequential.take 25) = some pool_at_shutdown_test ∧
    pool_at_shutdown_test.step_one_caller scenario_A_task PoolAction.shutdown
      = some pool_after_shutdown_test ∧
    pool_at_shutdown_test.m_num_workers_available = pool_at_shutdown_test.m_num_workers ∧
    (∀ ws ∈ pool_at_shutdown_test.workers, FunctionWorkerPool.idle_counted ws = true) ∧
    pool_after_shutdown_test.quiescent :=
  ⟨rfl, rfl,
    (shutdown_after_acceptance scenario_A_task 2 [] (scenario_A_sequential.take 25)
      pool_at_shutdown_test pool_after_shutdown_test (by decide) (by rfl) rfl (by rfl) rfl).2.1,
    (shutdown_after_acceptance scenario_A_task 2 [] (scenario_A_sequential.take 25)
      pool_at_shutdown_test pool_after_shutdown_test (by decide) (by rfl) rfl (by rfl) rfl).2.2.1,
    ((shutdown_after_acceptance scenario_A_task 2 [] (scenario_A_sequential.take 25)
      pool_at_shutdown_test pool_after_shutdown_test (by decide) (by rfl) rfl (by rfl) rfl).2.2.2.2.1
        rfl).2.1⟩

/-- A worker that has marked itself idle but has not yet started to wait
misses the `notify_all` of `shutdown()`: it then waits for work with the flag
set, and the join cannot end.  That `shutdown()` returns is therefore a matter
of the interleaving, also for a pool called from one thread. -/
theorem shutdown_can_wait_for_ever :
    ∃ p, (FunctionWorkerPool.new 1 ([] : List Nat)).run_one_caller scenario_A_task
        shutdown_overtakes_worker = some p ∧
      p.m_shutdown = true ∧
      p.workers = [WorkerState.work_wait] ∧
      p.shutdown = ShutdownState.join ∧
      p.step scenario_A_task PoolAction.shutdown = none ∧
      (∀ wake, p.step scenario_A_task (PoolAction.worker 0 wake) = none) :=
  ⟨_, rfl, rfl, rfl, rfl, rfl, fun _ => rfl⟩

/-- What the modifier returns when the engine fires nothing during this
dispatch and the dispatch completes: the configured behaviour decides. -/
theorem modifier_quiet_outcome (m : IronBeeModifier) (inp : Input) (w : World)
    (hq : m.fires_nothing inp w) (h : (m.dispatched inp w).thrown = none) :
    (m.dispatched inp w).world.current_action = (m.reset w).current_action ∧
    (m.call (some inp) w).outcome
      = (match m.behavior with
         | behavior_e.ALLOW => Outcome.returned true
         | behavior_e.BLOCK => Outcome.returned false) := by
  have hrt : (m.reset w).trace = w.trace := by
    obtain ⟨b, E⟩ := m
    cases b <;> rfl
  obtain ⟨sent, ht, ha⟩ := dispatch_resolver inp.connection (IronBeeDelegate.new m.engine)
    (m.reset w)
  rw [hrt] at ht ha
  have ht1 : (m.dispatched inp w).world.trace = w.trace ++ sent := ht
  unfold IronBeeModifier.fires_nothing at hq
  rw [ht1, List.drop_left] at hq
  have hf : fired_during m.engine w.trace sent = [] := hq
  have ha0 : (m.dispatched inp w).world.current_action
      = resolve (fired_during m.engine w.trace sent) (m.reset w).current_action := ha
  rw [hf] at ha0
  have ha1 : (m.dispatched inp w).world.current_action = (m.reset w).current_action := ha0
  refine ⟨ha1, ?_⟩
  obtain ⟨b, E⟩ := m
  cases b <;> simp [IronBeeModifier.reset] at ha1 <;>
    simp [IronBeeModifier.call, h, ha1]

/-- C13 amended. The resolver is reset to the configured default behaviour
before each dispatch: for a driver configured with default Allow, on any
engine, a non-absent input whose dispatch completes and during whose dispatch
the engine fires no action instance is accepted, whatever value the resolver
held before. -/
theorem modifier_allow_default_accepts (m : IronBeeModifier) (inp : Input) (w : World)
    (hb : m.behavior = behavior_e.ALLOW) (hq : m.fires_nothing inp w)
    (h : (m.dispatched inp w).thrown = none) :
    (m.reset w).current_action = action_e.ACTION_ALLOW ∧
    (m.call (some inp) w).outcome = Outcome.returned true ∧
    (∀ a, (m.call (some inp) { w with current_action := a }).outcome
      = Outcome.returned true) := by
  have ho := (modifier_quiet_outcome m inp w hq h).2
  rw [hb] at ho
  refine ⟨by simp [IronBeeModifier.reset, hb], ho, ?_⟩
  intro a
  rw [modifier_call_ignores_previous m (some inp) w a (by simp)]
  exact ho

/-- Witness for C13 amended: default Allow on the engine with the Break
rule.  An earlier input with a request ended with clipp_break and left the
resolver at Break; the sample input, which has no request, fires nothing and
is accepted. -/
theorem modifier_allow_default_accepts_witness :
    (IronBeeModifier.call { behavior := behavior_e.ALLOW, engine := Engine.break_on_request }
      (some sample_request_input) World.fresh).outcome = Outcome.thrown Error.clipp_break ∧
    (world_after_break behavior_e.ALLOW).current_action = action_e.ACTION_BREAK ∧
    IronBeeModifier.fires_nothing
      { behavior := behavior_e.ALLOW, engine := Engine.break_on_request }
      sample_input (world_after_break behavior_e.ALLOW) ∧
    (IronBeeModifier.dispatched
      { behavior := behavior_e.ALLOW, engine := Engine.break_on_request }
      sample_input (world_after_break behavior_e.ALLOW)).thrown = none ∧
    (IronBeeModifier.call { behavior := behavior_e.ALLOW, engine := Engine.break_on_request }
      (some sample_input) (world_after_break behavior_e.ALLOW)).outcome
      = Outcome.returned true :=
  ⟨by decide, by decide, by rfl, by decide,
   (modifier_allow_default_accepts
      { behavior := behavior_e.ALLOW, engine := Engine.break_on_request }
      sample_input (world_after_break behavior_e.ALLOW) rfl (by rfl) (by decide)).2.1⟩

/-- C14. Before each dispatch the resolver is reset to the configured
default: on any engine, when the engine fires no action instance during the
dispatch and the dispatch completes, the resolver ends at the configured
default, the driver returns accept for default Allow and reject for default
Block, and the whole call is the same whatever value the resolver held before,
Break included. -/
theorem modifier_resets_to_default (m : IronBeeModifier) (inp : Input) (w : World)
    (hq : m.fires_nothing inp w) (h : (m.dispatched inp w).thrown = none) :
    (m.behavior = behavior_e.ALLOW → (m.call (some inp) w).outcome = Outcome.returned true) ∧
    (m.behavior = behavior_e.BLOCK → (m.call (some inp) w).outcome = Outcome.returned false) ∧
    (∀ a, m.call (some inp) { w with current_action := a } = m.call (some inp) w) ∧
    (m.dispatched inp w).world.current_action = (m.reset w).current_action := by
  obtain ⟨ha, ho⟩ := modifier_quiet_outcome m inp w hq h
  refine ⟨?_, ?_, ?_, ha⟩
  · intro hb
    rw [hb] at ho
    exact ho
  · intro hb
    rw [hb] at ho
    exact ho
  · intro a
    exact modifier_call_ignores_previous m (some inp) w a (by simp)

/-- Witness for C14: default Block on the engine with the Break rule.  An
earlier input with a request ended with clipp_break and left the resolver at
Break; the sample input, which has no request, fires nothing and is
rejected, as it is from the fresh world. -/
theorem modifier_resets_to_default_witness :
    (IronBeeModifier.call { behavior := behavior_e.BLOCK, engine := Engine.break_on_request }
      (some sample_request_input) World.fresh).outcome = Outcome.thrown Error.clipp_break ∧
    (world_after_break behavior_e.BLOCK).current_action = action_e.ACTION_BREAK ∧
    IronBeeModifier.fires_nothing
      { behavior := behavior_e.BLOCK, engine := Engine.break_on_request }
      sample_input (world_after_break behavior_e.BLOCK) ∧
    (IronBeeModifier.dispatched
      { behavior := behavior_e.BLOCK, engine := Engine.break_on_request }
      sample_input (world_after_break behavior_e.BLOCK)).thrown = none ∧
    (IronBeeModifier.call { behavior := behavior_e.BLOCK, engine := Engine.break_on_request }
      (some sample_input) (world_after_break behavior_e.BLOCK)).outcome
      = Outcome.returned false ∧
    (IronBeeModifier.call { behavior := behavior_e.BLOCK, engine := Engine.break_on_request }
      (some sample_input) World.fresh).outcome = Outcome.returned false :=
  ⟨by decide, by decide, by rfl, by decide,
   (modifier_resets_to_default
      { behavior := behavior_e.BLOCK, engine := Engine.break_on_request }
      sample_input (world_after_break behavior_e.BLOCK) (by rfl) (by decide)).2.1 rfl,
   (modifier_resets_to_default
      { behavior := behavior_e.BLOCK, engine := Engine.break_on_request }
      sample_input World.fresh (by rfl) (by decide)).2.1 rfl⟩

/-- A pool with a worker in whose thread the work function has thrown is the
pool of a process that has ended. -/
theorem aborted_of_get {WorkType σ : Type} (s : FunctionWorkerPool WorkType σ) (i : Nat)
    (e : Error) (hi : s.workers.get? i = some (WorkerState.terminated e)) :
    s.aborted = true := by
  unfold FunctionWorkerPool.aborted
  rw [List.any_eq_true]
  exact ⟨_, mem_of_get _ _ _ hi, rfl⟩

/-- Once the process has ended no action is possible. -/
theorem step_aborted {WorkType σ : Type} (f : WorkType → σ → Option Error × σ)
    (s : FunctionWorkerPool WorkType σ) (a : PoolAction WorkType)
    (h : s.aborted = true) : s.step f a = none := by
  simp [FunctionWorkerPool.step, h]

/-- Once the process has ended the only sequence of steps is the empty
one. -/
theorem run_aborted {WorkType σ : Type} (f : WorkType → σ → Option Error × σ)
    (s s2 : FunctionWorkerPool WorkType σ) (actions : List (PoolAction WorkType))
    (h : s.aborted = true) (hrun : s.run f actions = some s2) :
    actions = [] ∧ s2 = s := by
  cases actions with
  | nil =>
    simp only [FunctionWorkerPool.run, Option.some.injEq] at hrun
    exact ⟨rfl, hrun.symm⟩
  | cons a rest =>
    simp [FunctionWorkerPool.run, step_aborted f s a h] at hrun

/-- C21, counterexample. The task function of the threaded driver lets the
tracker's error escape: on the sample input whose second event is
ConnectionDataIn it throws.  In a pool of one worker that has accepted this
input the exception leaves the worker's thread function and the process ends:
the worker has not returned to the idle state, the idle count is 0, below the
number of workers 1, and neither the worker nor a call of `shutdown()` takes
another step. -/
theorem task_error_escapes :
    (IronBeeThreadedConsumer.process_input Engine.quiet (some sample_bad_input)
        World.fresh).1
      = some (Error.runtime_error
          "IronBee no longer supports connection data.  Use @parse.") ∧
    (∃ p, (FunctionWorkerPool.new 1 World.fresh).run
          (IronBeeThreadedConsumer.process_input Engine.quiet)
          (one_submission (some sample_bad_input)) = some p ∧
      p.workers = [WorkerState.terminated (Error.runtime_error
          "IronBee no longer supports connection data.  Use @parse.")] ∧
      p.aborted = true ∧
      p.m_num_workers_available = 0 ∧
      p.m_num_workers = 1 ∧
      p.step (IronBeeThreadedConsumer.process_input Engine.quiet)
        (PoolAction.worker 0 none) = none ∧
      p.step (IronBeeThreadedConsumer.process_input Engine.quiet)
        PoolAction.call_shutdown = none) ∧
    (FunctionWorkerPool.new 1 World.fresh).run
        (IronBeeThreadedConsumer.process_input Engine.quiet)
        (one_submission (some sample_bad_input) ++ shutdown_after_task) = none :=
  ⟨rfl, ⟨_, rfl, rfl, rfl, rfl, rfl, rfl, rfl⟩, rfl⟩

/-- C21 (amended). The task function of the threaded driver does not catch:
the error of the dispatch is the error of `process_input`.  The pool does not
catch it either: when the worker that runs the task gets the error, the
exception leaves the thread function and the process ends.  The worker has not
returned to the idle state, the idle count is as it was, below the number of
workers, and from then on no action of any thread is possible: the state the
process ended in is the last one.  A task that ends without error brings the
worker back to the top of its loop in a process that goes on. -/
theorem task_error_ends_process (engine : Engine) (inp : Input) (e : Error)
    (s s1 : FunctionWorkerPool input_p World) (i : Nat) (wake : Option Waiter)
    (hb : s.bookkeeping)
    (hi : s.workers.get? i = some (WorkerState.run (some inp)))
    (he : (dispatch inp.connection (IronBeeDelegate.new engine) s.env).thrown = some e)
    (hstep : s.step (IronBeeThreadedConsumer.process_input engine)
      (PoolAction.worker i wake) = some s1) :
    (IronBeeThreadedConsumer.process_input engine (some inp) s.env).1 = some e ∧
    s1.workers.get? i = some (WorkerState.terminated e) ∧
    s1.aborted = true ∧
    s1.m_num_workers_available = s.m_num_workers_available ∧
    s1.m_num_workers_available < s1.m_num_workers ∧
    (∀ a, s1.step (IronBeeThreadedConsumer.process_input engine) a = none) ∧
    (∀ actions s2,
      s1.run (IronBeeThreadedConsumer.process_input engine) actions = some s2 →
      actions = [] ∧ s2 = s1) ∧
    (∀ (t t1 : FunctionWorkerPool input_p World) (k : Nat) (work : input_p)
        (wk : Option Waiter),
      t.workers.get? k = some (WorkerState.run work) →
      (IronBeeThreadedConsumer.process_input engine work t.env).1 = none →
      t.step (IronBeeThreadedConsumer.process_input engine) (PoolAction.worker k wk)
        = some t1 →
      t1.workers.get? k = some WorkerState.idle_mark ∧ t1.aborted = false) := by
  have hp : (IronBeeThreadedConsumer.process_input engine (some inp) s.env).1 = some e := he
  have hb1 := step_bookkeeping _ s s1 _ hb hstep
  have hs1 : s1.workers.get? i = some (WorkerState.terminated e) ∧
      s1.m_num_workers_available = s.m_num_workers_available := by
    have hstep1 := (thread_step_of_step _ s s1 _ hstep).2
    simp only [FunctionWorkerPool.thread_step, FunctionWorkerPool.worker_step, hi] at hstep1
    cases hq : IronBeeThreadedConsumer.process_input engine (some inp) s.env with
    | mk o env1 =>
      rw [hq] at hp hstep1
      simp only at hp
      subst hp
      simp only [Option.some.injEq] at hstep1
      subst hstep1
      exact ⟨get_set_same _ _ _ _ hi, rfl⟩
  have hab := aborted_of_get s1 i e hs1.1
  refine ⟨hp, hs1.1, hab, hs1.2, ?_, fun a => step_aborted _ s1 a hab,
    fun actions s2 hrun => run_aborted _ s1 s2 actions hab hrun, ?_⟩
  · obtain ⟨b1, _, b3⟩ := hb1
    rw [b3, ← b1]
    exact countP_lt_length_of_get FunctionWorkerPool.idle_counted _ i _ hs1.1 rfl
  · intro t t1 k work wk hk hnone ht
    obtain ⟨hna, ht1⟩ := thread_step_of_step _ t t1 _ ht
    simp only [FunctionWorkerPool.thread_step, FunctionWorkerPool.worker_step, hk] at ht1
    cases hq : IronBeeThreadedConsumer.process_input engine work t.env with
    | mk o env1 =>
      rw [hq] at hnone ht1
      simp only at hnone
      subst hnone
      simp only [Option.some.injEq] at ht1
      subst ht1
      refine ⟨get_set_same _ _ _ _ hk, ?_⟩
      unfold FunctionWorkerPool.aborted at hna ⊢
      rw [Bool.eq_false_iff] at hna ⊢
      intro hany
      apply hna
      rw [List.any_eq_true] at hany ⊢
      obtain ⟨ws, hws, hterm⟩ := hany
      rcases mem_set_cases _ _ _ _ hws with h1 | h1
      · exact ⟨ws, h1, hterm⟩
      · rw [h1] at hterm
        simp [FunctionWorkerPool.worker_terminated] at hterm

/-- Witness for C21: the pool of one worker that has accepted the rejected
sample input, reached from the fresh pool; the worker runs the task and the
process ends, so that the call of `shutdown()` is not possible. -/
theorem task_error_ends_process_witness :
    (FunctionWorkerPool.new 1 World.fresh).run
        (IronBeeThreadedConsumer.process_input Engine.quiet)
        ((one_submission (some sample_bad_input)).take 8) = some pool_before_bad_task ∧
    pool_before_bad_task.bookkeeping ∧
    (∃ s1,
      pool_before_bad_task.step (IronBeeThreadedConsumer.process_input Engine.quiet)
        (PoolAction.worker 0 none) = some s1 ∧
      s1.workers.get? 0 = some (WorkerState.terminated (Error.runtime_error
          "IronBee no longer supports connection data.  Use @parse.")) ∧
      s1.m_num_workers_available < s1.m_num_workers ∧
      s1.step (IronBeeThreadedConsumer.process_input Engine.quiet)
        PoolAction.call_shutdown = none) :=
  ⟨rfl, ⟨rfl, by decide, rfl⟩, _, rfl,
   (task_error_ends_process Engine.quiet sample_bad_input _ pool_before_bad_task _ 0 none
      ⟨rfl, by decide, rfl⟩ rfl rfl rfl).2.1,
   (task_error_ends_process Engine.quiet sample_bad_input _ pool_before_bad_task _ 0 none
      ⟨rfl, by decide, rfl⟩ rfl rfl rfl).2.2.2.2.1,
   (task_error_ends_process Engine.quiet sample_bad_input _ pool_before_bad_task _ 0 none
      ⟨rfl, by decide, rfl⟩ rfl rfl rfl).2.2.2.2.2.1 PoolAction.call_shutdown⟩

end CLIPP
end IronBee
